import Mathlib

/-!
laravel-ls/protocol: the union codecs of the LSP wire types.

A shallow embedding of the Go package `protocol` (rpc.go, base.go, progress.go,
document_hover.go, document_definition.go, document_completion.go,
document_diagnostic.go and the records they use) together with the part of
Go's `encoding/json` those files call.

Conventions of the embedding.

* A JSON text handed to `UnmarshalJSON`, or produced by `MarshalJSON`, is
  represented by the JSON value it denotes (`Json`). `encoding/json` hands an
  `Unmarshaler` the text of one value without surrounding blanks and emits
  compact text, so the Go test `string(data) == "null"` is the test
  `data = Json.null`.
* In the records of the embedding a Go string is a Lean string (a sequence of
  Unicode scalar values): a record stands for the Go value whose strings are the
  UTF-8 bytes of its strings. These are the values `json.Unmarshal` produces and,
  of the values a caller builds, those whose strings are valid UTF-8. Where a
  statement is about every Go value of a type (the round trips), the value is a
  `Raw` record, whose strings are `GoString`s, arbitrary sequences of bytes:
  `json.Marshal` reads it through `coerce`, which puts U+FFFD for every byte
  that starts no UTF-8 sequence, and `json.Unmarshal` leaves in memory `store`
  of the record it decoded.
* `uint32`, `int32` and `int` (64 bit) are `Nat` / `Int` carrying an explicit
  range check where the decoder checks the range; well-formedness predicates
  (`wf`) say that a record only holds numbers of its Go types.
* A pointer is an `Option`; a slice is an `Option (List _)` whose `none` is
  the nil slice and whose `some []` is the empty non-nil slice.
* A value of type `any` is represented by the JSON value it encodes to
  (`Json.null` is the nil interface, a `float64` is carried by its literal, a
  `map[string]any` by the object listing its members); only the values that
  `json.Unmarshal` itself stores in an `any` are represented.
* Decoding an array into a slice that already has elements decodes element `i`
  into the old element `i`; elements past the old length start from the zero
  value.
* In the statements, a member of a JSON object is called the member `name` when
  its key selects the struct field `name` for `encoding/json`, that is, when the
  key is `name` exactly or up to case folding (`matchField`).
* Where a statement is about every byte sequence, the bytes are an `Input`: not
  a JSON text, or the text of a value with or without blanks around it.
* `json.Unmarshal(data, &v)` is a function from `data` and the old `v` to the
  new `v` and a `Status`; the error it returns is nil exactly when the status
  is `Status.ok`.
-/

set_option linter.dupNamespace false

namespace Protocol

/-! ## JSON values -/

/-- A JSON number literal: sign, integer digits, fraction digits (empty when the
literal has no fraction), exponent (`none` when the literal has none). -/
structure NumLit where
  neg : Bool
  int : Nat
  frac : List Nat
  exp : Option Int
deriving DecidableEq, Repr

/-- A JSON value. Object members are kept in document order, repeated keys included. -/
inductive Json where
  | null
  | bool (b : Bool)
  | num (n : NumLit)
  | str (s : String)
  | arr (xs : List Json)
  | obj (kvs : List (String × Json))
deriving Repr

mutual
/-- Equality of JSON values is decidable. -/
def Json.decEq : (a b : Json) → Decidable (a = b)
  | .null, .null => isTrue rfl
  | .bool a, .bool b =>
    if h : a = b then isTrue (by rw [h]) else isFalse (fun e => h (by injection e))
  | .num a, .num b =>
    if h : a = b then isTrue (by rw [h]) else isFalse (fun e => h (by injection e))
  | .str a, .str b =>
    if h : a = b then isTrue (by rw [h]) else isFalse (fun e => h (by injection e))
  | .arr a, .arr b =>
    match Json.decEqElems a b with
    | isTrue h => isTrue (by rw [h])
    | isFalse h => isFalse (fun e => h (by injection e))
  | .obj a, .obj b =>
    match Json.decEqMembers a b with
    | isTrue h => isTrue (by rw [h])
    | isFalse h => isFalse (fun e => h (by injection e))
  | .null, .bool _ => isFalse nofun
  | .null, .num _ => isFalse nofun
  | .null, .str _ => isFalse nofun
  | .null, .arr _ => isFalse nofun
  | .null, .obj _ => isFalse nofun
  | .bool _, .null => isFalse nofun
  | .bool _, .num _ => isFalse nofun
  | .bool _, .str _ => isFalse nofun
  | .bool _, .arr _ => isFalse nofun
  | .bool _, .obj _ => isFalse nofun
  | .num _, .null => isFalse nofun
  | .num _, .bool _ => isFalse nofun
  | .num _, .str _ => isFalse nofun
  | .num _, .arr _ => isFalse nofun
  | .num _, .obj _ => isFalse nofun
  | .str _, .null => isFalse nofun
  | .str _, .bool _ => isFalse nofun
  | .str _, .num _ => isFalse nofun
  | .str _, .arr _ => isFalse nofun
  | .str _, .obj _ => isFalse nofun
  | .arr _, .null => isFalse nofun
  | .arr _, .bool _ => isFalse nofun
  | .arr _, .num _ => isFalse nofun
  | .arr _, .str _ => isFalse nofun
  | .arr _, .obj _ => isFalse nofun
  | .obj _, .null => isFalse nofun
  | .obj _, .bool _ => isFalse nofun
  | .obj _, .num _ => isFalse nofun
  | .obj _, .str _ => isFalse nofun
  | .obj _, .arr _ => isFalse nofun
def Json.decEqElems : (a b : List Json) → Decidable (a = b)
  | [], [] => isTrue rfl
  | [], _ :: _ => isFalse nofun
  | _ :: _, [] => isFalse nofun
  | x :: xs, y :: ys =>
    match Json.decEq x y, Json.decEqElems xs ys with
    | isTrue h1, isTrue h2 => isTrue (by rw [h1, h2])
    | isFalse h1, _ => isFalse (fun e => h1 (by injection e))
    | _, isFalse h2 => isFalse (fun e => h2 (by injection e))
def Json.decEqMembers : (a b : List (String × Json)) → Decidable (a = b)
  | [], [] => isTrue rfl
  | [], _ :: _ => isFalse nofun
  | _ :: _, [] => isFalse nofun
  | (k, x) :: xs, (l, y) :: ys =>
    if hk : k = l then
      match Json.decEq x y, Json.decEqMembers xs ys with
      | isTrue h1, isTrue h2 => isTrue (by rw [hk, h1, h2])
      | isFalse h1, _ => isFalse (fun e => h1 (by injection e with e1 e2; injection e1))
      | _, isFalse h2 => isFalse (fun e => h2 (by injection e))
    else isFalse (fun e => hk (by injection e with e1 e2; injection e1))
end

instance : DecidableEq Json := Json.decEq

/-- Errors of the codec: the type mismatch of `encoding/json`
(`*json.UnmarshalTypeError`, with the JSON kind met and the Go type wanted) and
the errors the package builds with `errors.New` / `fmt.Errorf`, the
`*json.MarshalerError` that wraps the error of a nested `MarshalJSON`, and the
`*json.SyntaxError` for bytes that are not a JSON text. -/
inductive JsonError where
  | unmarshalType (value : String) (goType : String)
  | message (msg : String)
  | marshaler (goType : String) (inner : JsonError)
  | invalidText
deriving DecidableEq, Repr

/-- Outcome of one `json.Unmarshal` pass: `ok`, a saved type error (decoding went
on after it, the first one is reported), or the error of a nested `UnmarshalJSON`
(decoding stopped there). -/
inductive Status where
  | ok
  | saved (e : JsonError)
  | abort (e : JsonError)
deriving DecidableEq, Repr

/-- The `error` that `json.Unmarshal` returns. -/
def Status.err : Status → Option JsonError
  | .ok => none
  | .saved e => some e
  | .abort e => some e

/-- Test `err == nil`. -/
def Status.isOk : Status → Bool
  | .ok => true
  | _ => false

/-- Status after a later step: `saveError` keeps the first saved error, an abort is returned as is. -/
def Status.merge : Status → Status → Status
  | .ok, t => t
  | .saved _, .abort e' => .abort e'
  | .saved e, _ => .saved e
  | .abort e, _ => .abort e

/-- Name of the JSON kind, as `UnmarshalTypeError.Value` reports it. -/
def Json.kindName : Json → String
  | .null => "null"
  | .bool _ => "bool"
  | .num _ => "number"
  | .str _ => "string"
  | .arr _ => "array"
  | .obj _ => "object"

/-! ## The part of `encoding/json` the package uses: decoding -/

/-- The literal is accepted by `strconv.ParseInt` / `ParseUint`: no fraction, no exponent. -/
def NumLit.isInteger (n : NumLit) : Bool :=
  n.frac.isEmpty && n.exp.isNone

/-- Value of an integer literal. -/
def NumLit.toInt (n : NumLit) : Int :=
  if n.neg then -(n.int : Int) else (n.int : Int)

/-- The digits of the literal read as one natural number (integer digits followed by fraction digits). -/
def NumLit.mantissa (n : NumLit) : Nat :=
  n.frac.foldl (fun acc d => 10 * acc + d) n.int

/-- Decimal exponent going with `mantissa`. -/
def NumLit.scale (n : NumLit) : Int :=
  n.exp.getD 0 - (n.frac.length : Int)

/-- The literal is in the range of `float64`: `strconv.ParseFloat` reports a range
error exactly when the magnitude reaches `2^1024 - 2^970`, where rounding gives
an infinity. -/
def NumLit.fitsFloat64 (n : NumLit) : Bool :=
  if 0 ≤ n.scale then
    decide (n.mantissa * 10 ^ n.scale.toNat < 2 ^ 1024 - 2 ^ 970)
  else
    decide (n.mantissa < (2 ^ 1024 - 2 ^ 970) * 10 ^ (-n.scale).toNat)

/-- Decoding into a Go `string`: `null` leaves the value, a JSON string is stored,
every other kind is a type error. -/
def unmarshalString (data : Json) (v : String) : String × Status :=
  match data with
  | .null => (v, .ok)
  | .str s => (s, .ok)
  | j => (v, .saved (.unmarshalType j.kindName "string"))

/-- Decoding into a Go `bool`. -/
def unmarshalBool (data : Json) (v : Bool) : Bool × Status :=
  match data with
  | .null => (v, .ok)
  | .bool b => (b, .ok)
  | j => (v, .saved (.unmarshalType j.kindName "bool"))

/-- Decoding into a signed integer type with the given bounds: the literal must be
an integer literal in range (`ParseInt`, then `OverflowInt`). -/
def unmarshalSigned (goType : String) (lo hi : Int) (data : Json) (v : Int) : Int × Status :=
  match data with
  | .null => (v, .ok)
  | .num n =>
    if n.isInteger = true ∧ lo ≤ n.toInt ∧ n.toInt ≤ hi then (n.toInt, .ok)
    else (v, .saved (.unmarshalType "number" goType))
  | j => (v, .saved (.unmarshalType j.kindName goType))

/-- Decoding into Go `int` (64 bit). -/
def unmarshalInt (data : Json) (v : Int) : Int × Status :=
  unmarshalSigned "int" (-(2 ^ 63)) (2 ^ 63 - 1) data v

/-- Decoding into Go `int32`. -/
def unmarshalInt32 (data : Json) (v : Int) : Int × Status :=
  unmarshalSigned "int32" (-(2 ^ 31)) (2 ^ 31 - 1) data v

/-- Decoding into Go `uint32`: `ParseUint` takes no sign, then `OverflowUint`. -/
def unmarshalUint32 (data : Json) (v : Nat) : Nat × Status :=
  match data with
  | .null => (v, .ok)
  | .num n =>
    if n.isInteger = true ∧ n.neg = false ∧ n.int < 2 ^ 32 then (n.int, .ok)
    else (v, .saved (.unmarshalType "number" "uint32"))
  | j => (v, .saved (.unmarshalType j.kindName "uint32"))

/-- Decoding into a pointer: `null` sets it to nil; any other value is decoded into
the pointee, which is allocated (zero value) first when the pointer is nil. -/
def unmarshalPtr {α : Type} (zero : α) (dec : Json → α → α × Status)
    (data : Json) (v : Option α) : Option α × Status :=
  match data with
  | .null => (none, .ok)
  | j => let r := dec j (v.getD zero); (some r.1, r.2)

/-- Elements of an array decoded into a slice: element `i` is decoded into the old
element `i` when the slice has one, else into a zero value; an abort stops there. -/
def unmarshalElems {α : Type} (zero : α) (dec : Json → α → α × Status) :
    List Json → List α → List α × Status
  | [], _ => ([], .ok)
  | x :: xs, old =>
    match dec x (old.headD zero) with
    | (a, .abort e) => (a :: old.tail, .abort e)
    | (a, st) =>
      let r := unmarshalElems zero dec xs old.tail
      (a :: r.1, st.merge r.2)

/-- Decoding into a slice: `null` gives the nil slice, an array a non-nil slice
(empty for `[]`), every other kind a type error. -/
def unmarshalSlice {α : Type} (goType : String) (zero : α) (dec : Json → α → α × Status)
    (data : Json) (v : Option (List α)) : Option (List α) × Status :=
  match data with
  | .null => (none, .ok)
  | .arr xs => let r := unmarshalElems zero dec xs (v.getD []); (some r.1, r.2)
  | j => (v, .saved (.unmarshalType j.kindName goType))

/-- Case folding of a key (`foldName`): ASCII letters go to upper case, and the two
letters outside ASCII whose fold orbit meets ASCII go to their ASCII member. -/
def foldChar (c : Char) : Char :=
  if 'a' ≤ c ∧ c ≤ 'z' then Char.ofNat (c.toNat - 32)
  else if c = Char.ofNat 0x17F then 'S'
  else if c = Char.ofNat 0x212A then 'K'
  else c

def foldName (s : String) : List Char :=
  s.data.map foldChar

/-- The struct field a key selects: the field with exactly that name, else the
first field whose folded name equals the folded key. -/
def matchField (names : List String) (key : String) : Option String :=
  if key ∈ names then some key
  else names.find? (fun n => foldName n == foldName key)

/-- Members of an object decoded one after the other into a struct. -/
def unmarshalFields {α : Type} (setField : String → Json → α → α × Status) :
    List (String × Json) → α → Status → α × Status
  | [], v, st => (v, st)
  | (k, j) :: rest, v, st =>
    match setField k j v with
    | (v', .abort e) => (v', .abort e)
    | (v', st') => unmarshalFields setField rest v' (st.merge st')

/-- Decoding into a struct: `null` leaves it, an object sets the fields its keys
select (other keys are skipped), every other kind is a type error. -/
def unmarshalStruct {α : Type} (goType : String) (setField : String → Json → α → α × Status)
    (data : Json) (v : α) : α × Status :=
  match data with
  | .null => (v, .ok)
  | .obj kvs => unmarshalFields setField kvs v .ok
  | j => (v, .saved (.unmarshalType j.kindName goType))

mutual
/-- The value `valueInterface` builds for a nested value of type `any`, and whether
every number in it could be converted; a number out of range leaves nil. -/
def interfaceValue : Json → Json × Bool
  | .null => (.null, true)
  | .bool b => (.bool b, true)
  | .num n => if n.fitsFloat64 then (.num n, true) else (.null, false)
  | .str s => (.str s, true)
  | .arr xs => let r := interfaceElems xs; (.arr r.1, r.2)
  | .obj kvs => let r := interfaceMembers kvs; (.obj r.1, r.2)
def interfaceElems : List Json → List Json × Bool
  | [] => ([], true)
  | x :: xs =>
    let a := interfaceValue x
    let r := interfaceElems xs
    (a.1 :: r.1, a.2 && r.2)
def interfaceMembers : List (String × Json) → List (String × Json) × Bool
  | [] => ([], true)
  | (k, x) :: xs =>
    let a := interfaceValue x
    let r := interfaceMembers xs
    ((k, a.1) :: r.1, a.2 && r.2)
end

/-- Decoding into a field of type `any`. A number literal out of the `float64`
range is a saved error; at top level it leaves the field as it was. -/
def unmarshalAny (data : Json) (v : Json) : Json × Status :=
  match data with
  | .num n =>
    if n.fitsFloat64 then (.num n, .ok) else (v, .saved (.unmarshalType "number" "float64"))
  | j =>
    let r := interfaceValue j
    (r.1, if r.2 then .ok else .saved (.unmarshalType "number" "float64"))

/-! ## The part of `encoding/json` the package uses: encoding -/

/-- The number is a value of Go `uint32`. -/
def IsUint32 (n : Nat) : Prop := n < 2 ^ 32

/-- The number is a value of Go `int` (64 bit). -/
def IsInt (i : Int) : Prop := -(2 ^ 63) ≤ i ∧ i ≤ 2 ^ 63 - 1

/-- The number is a value of Go `int32`. -/
def IsInt32 (i : Int) : Prop := -(2 ^ 31) ≤ i ∧ i ≤ 2 ^ 31 - 1

instance (n : Nat) : Decidable (IsUint32 n) :=
  inferInstanceAs (Decidable (n < 2 ^ 32))

instance (i : Int) : Decidable (IsInt i) :=
  inferInstanceAs (Decidable (-(2 ^ 63) ≤ i ∧ i ≤ 2 ^ 63 - 1))

instance (i : Int) : Decidable (IsInt32 i) :=
  inferInstanceAs (Decidable (-(2 ^ 31) ≤ i ∧ i ≤ 2 ^ 31 - 1))

/-- Encoding of a signed integer. -/
def marshalInt (i : Int) : Json :=
  .num ⟨decide (i < 0), i.natAbs, [], none⟩

/-- Encoding of an unsigned integer. -/
def marshalUint (n : Nat) : Json :=
  .num ⟨false, n, [], none⟩

/-- Encoding of a pointer: nil is `null`. -/
def marshalPtr {α : Type} (enc : α → Json) : Option α → Json
  | none => .null
  | some a => enc a

/-- Encoding of a slice: nil is `null`, a non-nil slice an array. -/
def marshalSlice {α : Type} (enc : α → Json) : Option (List α) → Json
  | none => .null
  | some xs => .arr (xs.map enc)

/-- A struct member tagged `omitempty`: left out when the field is empty. -/
def omitEmpty (empty : Bool) (key : String) (j : Json) : List (String × Json) :=
  if empty then [] else [(key, j)]

/-- Emptiness of a slice for `omitempty`: length zero. -/
def sliceEmpty {α : Type} : Option (List α) → Bool
  | none => true
  | some xs => xs.isEmpty

/-- Emptiness of an `any` for `omitempty`: the nil interface. -/
def anyEmpty : Json → Bool
  | .null => true
  | _ => false

/-! ## rpc.go -/

def LspReservedErrorRangeStart : Int := -32899
def LspReservedErrorRangeEnd : Int := -32800
def RPCServerNotInitialized : Int := -32002
def RPCUnknownErrorCode : Int := -32001
def RPCRequestFailed : Int := -32803
def RPCContentModified : Int := -32801
def RPCRequestCancelled : Int := -32800

/-- rpc.go, `IsLspRPCErrorCode`. -/
def IsLspRPCErrorCode (code : Int) : Bool :=
  if code ≥ LspReservedErrorRangeStart ∧ code ≤ LspReservedErrorRangeEnd then
    true
  else if code = RPCServerNotInitialized ∨ code = RPCUnknownErrorCode then
    true
  else
    false

/-! ## base.go -/

/-- base.go, `Position` (both fields `uint32`). -/
structure Position where
  Line : Nat
  Character : Nat
deriving DecidableEq, Repr

/-- base.go, `Range`. -/
structure Range where
  Start : Position
  End : Position
deriving DecidableEq, Repr

/-- base.go, `Location` (`DocumentURI` is a string type). -/
structure Location where
  URI : String
  Range : Protocol.Range
deriving DecidableEq, Repr

/-- base.go, `LocationLink`. -/
structure LocationLink where
  OriginSelectionRange : Option Protocol.Range
  TargetURI : String
  TargetRange : Protocol.Range
  TargetSelectionRange : Protocol.Range
deriving DecidableEq, Repr

def Position.zero : Position := ⟨0, 0⟩
def Range.zero : Protocol.Range := ⟨Position.zero, Position.zero⟩
def Location.zero : Location := ⟨"", Range.zero⟩
def LocationLink.zero : LocationLink := ⟨none, "", Range.zero, Range.zero⟩

/-- The numbers of a `Position` are `uint32` values. -/
def Position.wf (p : Position) : Prop :=
  IsUint32 p.Line ∧ IsUint32 p.Character

def Range.wf (r : Protocol.Range) : Prop :=
  r.Start.wf ∧ r.End.wf

def Location.wf (l : Location) : Prop :=
  l.Range.wf

def LocationLink.wf (l : LocationLink) : Prop :=
  (∀ r, l.OriginSelectionRange = some r → r.wf) ∧ l.TargetRange.wf ∧ l.TargetSelectionRange.wf

instance (p : Position) : Decidable p.wf :=
  inferInstanceAs (Decidable (IsUint32 p.Line ∧ IsUint32 p.Character))

instance (r : Protocol.Range) : Decidable r.wf :=
  inferInstanceAs (Decidable (r.Start.wf ∧ r.End.wf))

instance (l : Location) : Decidable l.wf :=
  inferInstanceAs (Decidable l.Range.wf)

def Position.setField (key : String) (data : Json) (v : Position) : Position × Status :=
  match matchField ["line", "character"] key with
  | some "line" => let r := unmarshalUint32 data v.Line; ({ v with Line := r.1 }, r.2)
  | some "character" => let r := unmarshalUint32 data v.Character; ({ v with Character := r.1 }, r.2)
  | _ => (v, .ok)

/-- `json.Unmarshal` into a `Position`. -/
def unmarshalPosition : Json → Position → Position × Status :=
  unmarshalStruct "protocol.Position" Position.setField

/-- `json.Marshal` of a `Position`. -/
def marshalPosition (v : Position) : Json :=
  .obj [("line", marshalUint v.Line), ("character", marshalUint v.Character)]

def Range.setField (key : String) (data : Json) (v : Protocol.Range) : Protocol.Range × Status :=
  match matchField ["start", "end"] key with
  | some "start" => let r := unmarshalPosition data v.Start; ({ v with Start := r.1 }, r.2)
  | some "end" => let r := unmarshalPosition data v.End; ({ v with End := r.1 }, r.2)
  | _ => (v, .ok)

/-- `json.Unmarshal` into a `Range`. -/
def unmarshalRange : Json → Protocol.Range → Protocol.Range × Status :=
  unmarshalStruct "protocol.Range" Range.setField

/-- `json.Marshal` of a `Range`. -/
def marshalRange (v : Protocol.Range) : Json :=
  .obj [("start", marshalPosition v.Start), ("end", marshalPosition v.End)]

def Location.setField (key : String) (data : Json) (v : Location) : Location × Status :=
  match matchField ["uri", "range"] key with
  | some "uri" => let r := unmarshalString data v.URI; ({ v with URI := r.1 }, r.2)
  | some "range" => let r := unmarshalRange data v.Range; ({ v with Range := r.1 }, r.2)
  | _ => (v, .ok)

/-- `json.Unmarshal` into a `Location`. -/
def unmarshalLocation : Json → Location → Location × Status :=
  unmarshalStruct "protocol.Location" Location.setField

/-- `json.Marshal` of a `Location`. -/
def marshalLocation (v : Location) : Json :=
  .obj [("uri", .str v.URI), ("range", marshalRange v.Range)]

def LocationLink.setField (key : String) (data : Json) (v : LocationLink) : LocationLink × Status :=
  match matchField ["originSelectionRange", "targetUri", "targetRange", "targetSelectionRange"] key with
  | some "originSelectionRange" =>
    let r := unmarshalPtr Range.zero unmarshalRange data v.OriginSelectionRange
    ({ v with OriginSelectionRange := r.1 }, r.2)
  | some "targetUri" => let r := unmarshalString data v.TargetURI; ({ v with TargetURI := r.1 }, r.2)
  | some "targetRange" => let r := unmarshalRange data v.TargetRange; ({ v with TargetRange := r.1 }, r.2)
  | some "targetSelectionRange" =>
    let r := unmarshalRange data v.TargetSelectionRange
    ({ v with TargetSelectionRange := r.1 }, r.2)
  | _ => (v, .ok)

/-- `json.Unmarshal` into a `LocationLink`. -/
def unmarshalLocationLink : Json → LocationLink → LocationLink × Status :=
  unmarshalStruct "protocol.LocationLink" LocationLink.setField

/-- `json.Marshal` of a `LocationLink`. -/
def marshalLocationLink (v : LocationLink) : Json :=
  .obj (omitEmpty v.OriginSelectionRange.isNone "originSelectionRange"
          (marshalPtr marshalRange v.OriginSelectionRange) ++
        [("targetUri", .str v.TargetURI), ("targetRange", marshalRange v.TargetRange),
         ("targetSelectionRange", marshalRange v.TargetSelectionRange)])

/-! ## progress.go -/

/-- progress.go, `ProgressToken` (`number` is an `int32`). -/
structure ProgressToken where
  name : String
  number : Int
deriving DecidableEq, Repr

def ProgressToken.zero : ProgressToken := ⟨"", 0⟩

/-- progress.go, `ProgressToken.MarshalJSON`. -/
def ProgressToken.MarshalJSON (v : ProgressToken) : Except JsonError Json :=
  if v.name ≠ "" then
    .ok (.str v.name)
  else
    .ok (marshalInt v.number)

/-- progress.go, `ProgressToken.UnmarshalJSON`: the receiver after the call and the error returned. -/
def ProgressToken.UnmarshalJSON (_v : ProgressToken) (data : Json) : ProgressToken × Option JsonError :=
  let v := ProgressToken.zero
  let r := unmarshalInt32 data v.number
  let v := { v with number := r.1 }
  if r.2.isOk then
    (v, none)
  else
    let r := unmarshalString data v.name
    ({ v with name := r.1 }, r.2.err)

/-! ## document_definition.go -/

/-- document_definition.go, `DefinitionResponse`. -/
structure DefinitionResponse where
  Location : Option Protocol.Location
  LocationList : Option (List Protocol.Location)
  LocationLinks : Option (List LocationLink)
  Null : Bool
deriving DecidableEq, Repr

def DefinitionResponse.zero : DefinitionResponse := ⟨none, none, none, false⟩

/-- document_definition.go, `DefinitionResponse.MarshalJSON`. -/
def DefinitionResponse.MarshalJSON (dr : DefinitionResponse) : Except JsonError Json :=
  if dr.Location.isSome then
    .ok (marshalPtr marshalLocation dr.Location)
  else if dr.LocationList.isSome then
    .ok (marshalSlice marshalLocation dr.LocationList)
  else if dr.LocationLinks.isSome then
    .ok (marshalSlice marshalLocationLink dr.LocationLinks)
  else
    .ok .null

/-- document_definition.go, `DefinitionResponse.UnmarshalJSON`: the receiver after
the call and the error returned. -/
def DefinitionResponse.UnmarshalJSON (_dr : DefinitionResponse) (data : Json) :
    DefinitionResponse × Option JsonError :=
  let dr := DefinitionResponse.zero
  match data with
  | .null => ({ dr with Null := true }, none)
  | _ =>
    let loc := unmarshalLocation data Location.zero
    if loc.2.isOk = true ∧ loc.1.URI ≠ "" then
      ({ dr with Location := some loc.1 }, none)
    else
      let locList := unmarshalSlice "[]protocol.Location" Location.zero unmarshalLocation data none
      if locList.2.isOk then
        ({ dr with LocationList := locList.1 }, none)
      else
        let linkList :=
          unmarshalSlice "[]protocol.LocationLink" LocationLink.zero unmarshalLocationLink data none
        if linkList.2.isOk then
          ({ dr with LocationLinks := linkList.1 }, none)
        else
          (dr, some (.message
            "invalid definition response: not null, Location, []Location, or []LocationLink"))

/-! ## document_hover.go -/

/-- document_hover.go, `MarkedString`. -/
structure MarkedString where
  Language : String
  Value : String
deriving DecidableEq, Repr

/-- document_hover.go, `MarkupContent` (`MarkupKind` is a string type). -/
structure MarkupContent where
  Kind : String
  Value : String
deriving DecidableEq, Repr

/-- document_hover.go, `MarkupContentOrMarkedString`. -/
structure MarkupContentOrMarkedString where
  Markup : Option MarkupContent
  MarkedString : Option Protocol.MarkedString
  MarkedStrings : Option (List Protocol.MarkedString)
deriving DecidableEq, Repr

/-- document_hover.go, `Hover`. -/
structure Hover where
  Contents : MarkupContentOrMarkedString
  Range : Option Protocol.Range
deriving DecidableEq, Repr

/-- document_hover.go, `HoverResult`. -/
structure HoverResult where
  Hover : Option Protocol.Hover
  Null : Bool
deriving DecidableEq, Repr

def MarkedString.zero : MarkedString := ⟨"", ""⟩
def MarkupContent.zero : MarkupContent := ⟨"", ""⟩
def MarkupContentOrMarkedString.zero : MarkupContentOrMarkedString := ⟨none, none, none⟩
def Hover.zero : Hover := ⟨MarkupContentOrMarkedString.zero, none⟩
def HoverResult.zero : HoverResult := ⟨none, false⟩

def MarkedString.setField (key : String) (data : Json) (v : MarkedString) : MarkedString × Status :=
  match matchField ["language", "value"] key with
  | some "language" => let r := unmarshalString data v.Language; ({ v with Language := r.1 }, r.2)
  | some "value" => let r := unmarshalString data v.Value; ({ v with Value := r.1 }, r.2)
  | _ => (v, .ok)

/-- `json.Unmarshal` into a `MarkedString`. -/
def unmarshalMarkedString : Json → MarkedString → MarkedString × Status :=
  unmarshalStruct "protocol.MarkedString" MarkedString.setField

/-- `json.Marshal` of a `MarkedString` (`language` is tagged `omitempty`). -/
def marshalMarkedString (v : MarkedString) : Json :=
  .obj (omitEmpty (v.Language = "") "language" (.str v.Language) ++ [("value", .str v.Value)])

def MarkupContent.setField (key : String) (data : Json) (v : MarkupContent) : MarkupContent × Status :=
  match matchField ["kind", "value"] key with
  | some "kind" => let r := unmarshalString data v.Kind; ({ v with Kind := r.1 }, r.2)
  | some "value" => let r := unmarshalString data v.Value; ({ v with Value := r.1 }, r.2)
  | _ => (v, .ok)

/-- `json.Unmarshal` into a `MarkupContent`. -/
def unmarshalMarkupContent : Json → MarkupContent → MarkupContent × Status :=
  unmarshalStruct "protocol.MarkupContent" MarkupContent.setField

/-- `json.Marshal` of a `MarkupContent`. -/
def marshalMarkupContent (v : MarkupContent) : Json :=
  .obj [("kind", .str v.Kind), ("value", .str v.Value)]

/-- document_hover.go, `MarkupContentOrMarkedString.MarshalJSON`. -/
def MarkupContentOrMarkedString.MarshalJSON (m : MarkupContentOrMarkedString) : Except JsonError Json :=
  if m.Markup.isSome then
    .ok (marshalPtr marshalMarkupContent m.Markup)
  else if m.MarkedString.isSome then
    .ok (marshalPtr marshalMarkedString m.MarkedString)
  else if (m.MarkedStrings.getD []).length > 0 then
    .ok (marshalSlice marshalMarkedString m.MarkedStrings)
  else
    .error (.message "one of MarkupContent, MarkedString or MarkedStrings needs to be set")

/-- document_hover.go, `MarkupContentOrMarkedString.UnmarshalJSON`: the receiver
after the call and the error returned. The receiver is not reset. -/
def MarkupContentOrMarkedString.UnmarshalJSON (m : MarkupContentOrMarkedString) (data : Json) :
    MarkupContentOrMarkedString × Option JsonError :=
  let markup := unmarshalMarkupContent data MarkupContent.zero
  if markup.2.isOk = true ∧ markup.1.Kind ≠ "" then
    ({ m with Markup := some markup.1 }, none)
  else
    let single := unmarshalMarkedString data MarkedString.zero
    if single.2.isOk = true ∧ (single.1.Language ≠ "" ∨ single.1.Value ≠ "") then
      ({ m with MarkedString := some single.1 }, none)
    else
      let many := unmarshalSlice "[]protocol.MarkedString" MarkedString.zero unmarshalMarkedString data none
      if many.2.isOk then
        ({ m with MarkedStrings := many.1 }, none)
      else
        (m, some (.message "invalid contents: not MarkupContent, MarkedString or []MarkedString"))

/-- A field whose type has an `UnmarshalJSON` method: the method gets the value
(also `null`), and its error stops the decoding. -/
def unmarshalerStatus : Option JsonError → Status
  | none => .ok
  | some e => .abort e

def Hover.setField (key : String) (data : Json) (v : Hover) : Hover × Status :=
  match matchField ["contents", "range"] key with
  | some "contents" =>
    let r := v.Contents.UnmarshalJSON data
    ({ v with Contents := r.1 }, unmarshalerStatus r.2)
  | some "range" =>
    let r := unmarshalPtr Range.zero unmarshalRange data v.Range
    ({ v with Range := r.1 }, r.2)
  | _ => (v, .ok)

/-- `json.Unmarshal` into a `Hover`. -/
def unmarshalHover : Json → Hover → Hover × Status :=
  unmarshalStruct "protocol.Hover" Hover.setField

/-- `json.Marshal` of a `Hover`: the contents are encoded by their `MarshalJSON`,
whose error fails the whole encoding. -/
def marshalHover (v : Hover) : Except JsonError Json :=
  match v.Contents.MarshalJSON with
  | .error e => .error (.marshaler "protocol.MarkupContentOrMarkedString" e)
  | .ok c =>
    .ok (.obj ([("contents", c)] ++
      omitEmpty v.Range.isNone "range" (marshalPtr marshalRange v.Range)))

/-- document_hover.go, `HoverResult.UnmarshalJSON`: the receiver after the call and
the error returned. -/
def HoverResult.UnmarshalJSON (_h : HoverResult) (data : Json) : HoverResult × Option JsonError :=
  let h := HoverResult.zero
  match data with
  | .null => ({ h with Null := true }, none)
  | _ =>
    let hover := unmarshalHover data Hover.zero
    if hover.2.isOk then
      (h, hover.2.err)
    else
      ({ h with Hover := some hover.1 }, none)

/-- document_hover.go, `HoverResult.MarshalJSON`. -/
def HoverResult.MarshalJSON (h : HoverResult) : Except JsonError Json :=
  if h.Null then
    .ok .null
  else
    match h.Hover with
    | none => .ok .null
    | some hover => marshalHover hover

/-! ## document.go, client.go, completion.go -/

/-- document.go, `TextEdit`. -/
structure TextEdit where
  Range : Protocol.Range
  NewText : String
deriving DecidableEq, Repr

/-- client.go, `Command` (`Arguments` is a `[]LSPAny`). -/
structure Command where
  Title : String
  Command : String
  Arguments : Option (List Json)
deriving DecidableEq, Repr

/-- completion.go, `CompletionItemLabelDetails`. -/
structure CompletionItemLabelDetails where
  Detail : Option String
  Description : Option String
deriving DecidableEq, Repr

/-- completion.go, `CompletionItem`: the kind, the tags and the two insert-text
enumerations are Go `int`s, `Data` is an `LSPAny`. -/
structure CompletionItem where
  Label : String
  LabelDetails : Option CompletionItemLabelDetails
  Kind : Int
  Tags : Option (List Int)
  Detail : String
  Documentation : String
  Deprecated : Option Bool
  Preselect : Option Bool
  SortText : String
  FilterText : String
  InsertText : String
  InsrtTextFormat : Option Int
  InsertTextMode : Option Int
  TextEdit : Option Protocol.TextEdit
  TextEditText : String
  AdditionalTextEdits : Option (List Protocol.TextEdit)
  CommitCharacters : String
  Command : Option Protocol.Command
  Data : Json
deriving DecidableEq, Repr

/-- completion.go, `CompletionList`. -/
structure CompletionList where
  IsIncomplete : Bool
  Items : Option (List CompletionItem)
deriving DecidableEq, Repr

def TextEdit.zero : TextEdit := ⟨Range.zero, ""⟩
def Command.zero : Protocol.Command := ⟨"", "", none⟩
def CompletionItemLabelDetails.zero : CompletionItemLabelDetails := ⟨none, none⟩
def CompletionItem.zero : CompletionItem :=
  ⟨"", none, 0, none, "", "", none, none, "", "", "", none, none, none, "", none, "", none, .null⟩
def CompletionList.zero : CompletionList := ⟨false, none⟩

def TextEdit.setField (key : String) (data : Json) (v : TextEdit) : TextEdit × Status :=
  match matchField ["range", "newText"] key with
  | some "range" => let r := unmarshalRange data v.Range; ({ v with Range := r.1 }, r.2)
  | some "newText" => let r := unmarshalString data v.NewText; ({ v with NewText := r.1 }, r.2)
  | _ => (v, .ok)

/-- `json.Unmarshal` into a `TextEdit`. -/
def unmarshalTextEdit : Json → TextEdit → TextEdit × Status :=
  unmarshalStruct "protocol.TextEdit" TextEdit.setField

/-- `json.Marshal` of a `TextEdit`. -/
def marshalTextEdit (v : TextEdit) : Json :=
  .obj [("range", marshalRange v.Range), ("newText", .str v.NewText)]

def Command.setField (key : String) (data : Json) (v : Protocol.Command) :
    Protocol.Command × Status :=
  match matchField ["title", "command", "arguments"] key with
  | some "title" => let r := unmarshalString data v.Title; ({ v with Title := r.1 }, r.2)
  | some "command" => let r := unmarshalString data v.Command; ({ v with Command := r.1 }, r.2)
  | some "arguments" =>
    let r := unmarshalSlice "[]interface {}" Json.null unmarshalAny data v.Arguments
    ({ v with Arguments := r.1 }, r.2)
  | _ => (v, .ok)

/-- `json.Unmarshal` into a `Command`. -/
def unmarshalCommand : Json → Protocol.Command → Protocol.Command × Status :=
  unmarshalStruct "protocol.Command" Command.setField

/-- `json.Marshal` of a `Command`. -/
def marshalCommand (v : Protocol.Command) : Json :=
  .obj ([("title", .str v.Title), ("command", .str v.Command)] ++
    omitEmpty (sliceEmpty v.Arguments) "arguments" (marshalSlice id v.Arguments))

def CompletionItemLabelDetails.setField (key : String) (data : Json)
    (v : CompletionItemLabelDetails) : CompletionItemLabelDetails × Status :=
  match matchField ["detail", "description"] key with
  | some "detail" =>
    let r := unmarshalPtr "" unmarshalString data v.Detail
    ({ v with Detail := r.1 }, r.2)
  | some "description" =>
    let r := unmarshalPtr "" unmarshalString data v.Description
    ({ v with Description := r.1 }, r.2)
  | _ => (v, .ok)

/-- `json.Unmarshal` into a `CompletionItemLabelDetails`. -/
def unmarshalCompletionItemLabelDetails :
    Json → CompletionItemLabelDetails → CompletionItemLabelDetails × Status :=
  unmarshalStruct "protocol.CompletionItemLabelDetails" CompletionItemLabelDetails.setField

/-- `json.Marshal` of a `CompletionItemLabelDetails`. -/
def marshalCompletionItemLabelDetails (v : CompletionItemLabelDetails) : Json :=
  .obj (omitEmpty v.Detail.isNone "detail" (marshalPtr Json.str v.Detail) ++
    omitEmpty v.Description.isNone "description" (marshalPtr Json.str v.Description))

/-- The JSON names of the fields of `CompletionItem`, in declaration order. -/
def CompletionItem.fieldNames : List String :=
  ["label", "labelDetails", "kind", "tags", "detail", "documentation", "deprecated",
   "preselect", "sortText", "filterText", "insertText", "insertTextFormat", "insertTextMode",
   "textEdit", "textEditText", "additionalTextEdits", "commitCharacters", "command", "data"]

def CompletionItem.setField (key : String) (data : Json) (v : CompletionItem) :
    CompletionItem × Status :=
  match matchField CompletionItem.fieldNames key with
  | some "label" => let r := unmarshalString data v.Label; ({ v with Label := r.1 }, r.2)
  | some "labelDetails" =>
    let r := unmarshalPtr CompletionItemLabelDetails.zero unmarshalCompletionItemLabelDetails
      data v.LabelDetails
    ({ v with LabelDetails := r.1 }, r.2)
  | some "kind" => let r := unmarshalInt data v.Kind; ({ v with Kind := r.1 }, r.2)
  | some "tags" =>
    let r := unmarshalSlice "[]protocol.CompletionItemTag" 0 unmarshalInt data v.Tags
    ({ v with Tags := r.1 }, r.2)
  | some "detail" => let r := unmarshalString data v.Detail; ({ v with Detail := r.1 }, r.2)
  | some "documentation" =>
    let r := unmarshalString data v.Documentation
    ({ v with Documentation := r.1 }, r.2)
  | some "deprecated" =>
    let r := unmarshalPtr false unmarshalBool data v.Deprecated
    ({ v with Deprecated := r.1 }, r.2)
  | some "preselect" =>
    let r := unmarshalPtr false unmarshalBool data v.Preselect
    ({ v with Preselect := r.1 }, r.2)
  | some "sortText" => let r := unmarshalString data v.SortText; ({ v with SortText := r.1 }, r.2)
  | some "filterText" =>
    let r := unmarshalString data v.FilterText
    ({ v with FilterText := r.1 }, r.2)
  | some "insertText" =>
    let r := unmarshalString data v.InsertText
    ({ v with InsertText := r.1 }, r.2)
  | some "insertTextFormat" =>
    let r := unmarshalPtr 0 unmarshalInt data v.InsrtTextFormat
    ({ v with InsrtTextFormat := r.1 }, r.2)
  | some "insertTextMode" =>
    let r := unmarshalPtr 0 unmarshalInt data v.InsertTextMode
    ({ v with InsertTextMode := r.1 }, r.2)
  | some "textEdit" =>
    let r := unmarshalPtr TextEdit.zero unmarshalTextEdit data v.TextEdit
    ({ v with TextEdit := r.1 }, r.2)
  | some "textEditText" =>
    let r := unmarshalString data v.TextEditText
    ({ v with TextEditText := r.1 }, r.2)
  | some "additionalTextEdits" =>
    let r := unmarshalSlice "[]protocol.TextEdit" TextEdit.zero unmarshalTextEdit
      data v.AdditionalTextEdits
    ({ v with AdditionalTextEdits := r.1 }, r.2)
  | some "commitCharacters" =>
    let r := unmarshalString data v.CommitCharacters
    ({ v with CommitCharacters := r.1 }, r.2)
  | some "command" =>
    let r := unmarshalPtr Protocol.Command.zero unmarshalCommand data v.Command
    ({ v with Command := r.1 }, r.2)
  | some "data" => let r := unmarshalAny data v.Data; ({ v with Data := r.1 }, r.2)
  | _ => (v, .ok)

/-- `json.Unmarshal` into a `CompletionItem`. -/
def unmarshalCompletionItem : Json → CompletionItem → CompletionItem × Status :=
  unmarshalStruct "protocol.CompletionItem" CompletionItem.setField

/-- `json.Marshal` of a `CompletionItem`; every field but `label` is tagged `omitempty`. -/
def marshalCompletionItem (v : CompletionItem) : Json :=
  .obj ([("label", .str v.Label)] ++
    omitEmpty v.LabelDetails.isNone "labelDetails"
      (marshalPtr marshalCompletionItemLabelDetails v.LabelDetails) ++
    omitEmpty (v.Kind = 0) "kind" (marshalInt v.Kind) ++
    omitEmpty (sliceEmpty v.Tags) "tags" (marshalSlice marshalInt v.Tags) ++
    omitEmpty (v.Detail = "") "detail" (.str v.Detail) ++
    omitEmpty (v.Documentation = "") "documentation" (.str v.Documentation) ++
    omitEmpty v.Deprecated.isNone "deprecated" (marshalPtr Json.bool v.Deprecated) ++
    omitEmpty v.Preselect.isNone "preselect" (marshalPtr Json.bool v.Preselect) ++
    omitEmpty (v.SortText = "") "sortText" (.str v.SortText) ++
    omitEmpty (v.FilterText = "") "filterText" (.str v.FilterText) ++
    omitEmpty (v.InsertText = "") "insertText" (.str v.InsertText) ++
    omitEmpty v.InsrtTextFormat.isNone "insertTextFormat" (marshalPtr marshalInt v.InsrtTextFormat) ++
    omitEmpty v.InsertTextMode.isNone "insertTextMode" (marshalPtr marshalInt v.InsertTextMode) ++
    omitEmpty v.TextEdit.isNone "textEdit" (marshalPtr marshalTextEdit v.TextEdit) ++
    omitEmpty (v.TextEditText = "") "textEditText" (.str v.TextEditText) ++
    omitEmpty (sliceEmpty v.AdditionalTextEdits) "additionalTextEdits"
      (marshalSlice marshalTextEdit v.AdditionalTextEdits) ++
    omitEmpty (v.CommitCharacters = "") "commitCharacters" (.str v.CommitCharacters) ++
    omitEmpty v.Command.isNone "command" (marshalPtr marshalCommand v.Command) ++
    omitEmpty (anyEmpty v.Data) "data" v.Data)

def CompletionList.setField (key : String) (data : Json) (v : CompletionList) :
    CompletionList × Status :=
  match matchField ["isIncomplete", "items"] key with
  | some "isIncomplete" =>
    let r := unmarshalBool data v.IsIncomplete
    ({ v with IsIncomplete := r.1 }, r.2)
  | some "items" =>
    let r := unmarshalSlice "[]protocol.CompletionItem" CompletionItem.zero unmarshalCompletionItem
      data v.Items
    ({ v with Items := r.1 }, r.2)
  | _ => (v, .ok)

/-- `json.Unmarshal` into a `CompletionList`. -/
def unmarshalCompletionList : Json → CompletionList → CompletionList × Status :=
  unmarshalStruct "protocol.CompletionList" CompletionList.setField

/-- `json.Marshal` of a `CompletionList`. -/
def marshalCompletionList (v : CompletionList) : Json :=
  .obj [("isIncomplete", .bool v.IsIncomplete),
        ("items", marshalSlice marshalCompletionItem v.Items)]

/-! ## document_completion.go -/

/-- document_completion.go, `CompletionResponse`. -/
structure CompletionResponse where
  Items : Option (List CompletionItem)
  List : Option CompletionList
  Null : Bool
deriving DecidableEq, Repr

def CompletionResponse.zero : CompletionResponse := ⟨none, none, false⟩

/-- document_completion.go, `CompletionResponse.MarshalJSON`. -/
def CompletionResponse.MarshalJSON (cr : CompletionResponse) : Except JsonError Json :=
  if cr.List.isSome then
    .ok (marshalPtr marshalCompletionList cr.List)
  else
    .ok (marshalSlice marshalCompletionItem cr.Items)

/-- document_completion.go, `CompletionResponse.UnmarshalJSON`: the receiver after
the call and the error returned. -/
def CompletionResponse.UnmarshalJSON (cr : CompletionResponse) (data : Json) :
    CompletionResponse × Option JsonError :=
  match data with
  | .null => ({ cr with Null := true, List := none, Items := none }, none)
  | _ =>
    let list := unmarshalCompletionList data CompletionList.zero
    if list.2.isOk = true ∧ list.1.Items.isSome = true then
      ({ cr with Null := true, List := some list.1, Items := none }, none)
    else
      let items := unmarshalSlice "[]protocol.CompletionItem" CompletionItem.zero
        unmarshalCompletionItem data none
      if items.2.isOk then
        ({ cr with Null := true, List := none, Items := items.1 }, none)
      else
        (cr, some (.message
          "invalid CompletionResponse: not a CompletionList, []CompletionItem or null"))

/-! ## diagnostics.go -/

/-- diagnostics.go, `CodeDescription`. -/
structure CodeDescription where
  Href : String
deriving DecidableEq, Repr

/-- diagnostics.go, `DiagnosticRelatedInformation`. -/
structure DiagnosticRelatedInformation where
  Location : Protocol.Location
  Message : String
deriving DecidableEq, Repr

/-- diagnostics.go, `Diagnostic`: severity and tags are Go `int`s, `Code` and `Data`
are of type `any`. -/
structure Diagnostic where
  Range : Protocol.Range
  Severity : Int
  Code : Json
  CodeDescription : Option Protocol.CodeDescription
  Source : String
  Message : String
  Tags : Option (List Int)
  RelatedInformation : Option (List DiagnosticRelatedInformation)
  Data : Json
deriving DecidableEq, Repr

def CodeDescription.zero : Protocol.CodeDescription := ⟨""⟩
def DiagnosticRelatedInformation.zero : DiagnosticRelatedInformation := ⟨Location.zero, ""⟩
def Diagnostic.zero : Diagnostic := ⟨Range.zero, 0, .null, none, "", "", none, none, .null⟩

def CodeDescription.setField (key : String) (data : Json) (v : Protocol.CodeDescription) :
    Protocol.CodeDescription × Status :=
  match matchField ["href"] key with
  | some "href" => let r := unmarshalString data v.Href; ({ v with Href := r.1 }, r.2)
  | _ => (v, .ok)

/-- `json.Unmarshal` into a `CodeDescription`. -/
def unmarshalCodeDescription : Json → Protocol.CodeDescription → Protocol.CodeDescription × Status :=
  unmarshalStruct "protocol.CodeDescription" CodeDescription.setField

/-- `json.Marshal` of a `CodeDescription`. -/
def marshalCodeDescription (v : Protocol.CodeDescription) : Json :=
  .obj [("href", .str v.Href)]

def DiagnosticRelatedInformation.setField (key : String) (data : Json)
    (v : DiagnosticRelatedInformation) : DiagnosticRelatedInformation × Status :=
  match matchField ["location", "message"] key with
  | some "location" =>
    let r := unmarshalLocation data v.Location
    ({ v with Location := r.1 }, r.2)
  | some "message" => let r := unmarshalString data v.Message; ({ v with Message := r.1 }, r.2)
  | _ => (v, .ok)

/-- `json.Unmarshal` into a `DiagnosticRelatedInformation`. -/
def unmarshalDiagnosticRelatedInformation :
    Json → DiagnosticRelatedInformation → DiagnosticRelatedInformation × Status :=
  unmarshalStruct "protocol.DiagnosticRelatedInformation" DiagnosticRelatedInformation.setField

/-- `json.Marshal` of a `DiagnosticRelatedInformation`. -/
def marshalDiagnosticRelatedInformation (v : DiagnosticRelatedInformation) : Json :=
  .obj [("location", marshalLocation v.Location), ("message", .str v.Message)]

def Diagnostic.setField (key : String) (data : Json) (v : Diagnostic) : Diagnostic × Status :=
  match matchField ["range", "severity", "code", "codeDescription", "source", "message", "tags",
      "relatedInformation", "data"] key with
  | some "range" => let r := unmarshalRange data v.Range; ({ v with Range := r.1 }, r.2)
  | some "severity" => let r := unmarshalInt data v.Severity; ({ v with Severity := r.1 }, r.2)
  | some "code" => let r := unmarshalAny data v.Code; ({ v with Code := r.1 }, r.2)
  | some "codeDescription" =>
    let r := unmarshalPtr CodeDescription.zero unmarshalCodeDescription data v.CodeDescription
    ({ v with CodeDescription := r.1 }, r.2)
  | some "source" => let r := unmarshalString data v.Source; ({ v with Source := r.1 }, r.2)
  | some "message" => let r := unmarshalString data v.Message; ({ v with Message := r.1 }, r.2)
  | some "tags" =>
    let r := unmarshalSlice "[]protocol.DiagnosticTag" 0 unmarshalInt data v.Tags
    ({ v with Tags := r.1 }, r.2)
  | some "relatedInformation" =>
    let r := unmarshalSlice "[]protocol.DiagnosticRelatedInformation"
      DiagnosticRelatedInformation.zero unmarshalDiagnosticRelatedInformation
      data v.RelatedInformation
    ({ v with RelatedInformation := r.1 }, r.2)
  | some "data" => let r := unmarshalAny data v.Data; ({ v with Data := r.1 }, r.2)
  | _ => (v, .ok)

/-- `json.Unmarshal` into a `Diagnostic`. -/
def unmarshalDiagnostic : Json → Diagnostic → Diagnostic × Status :=
  unmarshalStruct "protocol.Diagnostic" Diagnostic.setField

/-- `json.Marshal` of a `Diagnostic`. -/
def marshalDiagnostic (v : Diagnostic) : Json :=
  .obj ([("range", marshalRange v.Range)] ++
    omitEmpty (v.Severity = 0) "severity" (marshalInt v.Severity) ++
    omitEmpty (anyEmpty v.Code) "code" v.Code ++
    omitEmpty v.CodeDescription.isNone "codeDescription"
      (marshalPtr marshalCodeDescription v.CodeDescription) ++
    omitEmpty (v.Source = "") "source" (.str v.Source) ++
    [("message", .str v.Message)] ++
    omitEmpty (sliceEmpty v.Tags) "tags" (marshalSlice marshalInt v.Tags) ++
    omitEmpty (sliceEmpty v.RelatedInformation) "relatedInformation"
      (marshalSlice marshalDiagnosticRelatedInformation v.RelatedInformation) ++
    omitEmpty (anyEmpty v.Data) "data" v.Data)

mutual
/-- Every number literal of the value is in the range of `float64`: the value is one
that a field of type `any` can hold after decoding, and that is encoded as it stands. -/
def Json.representable : Json → Bool
  | .null => true
  | .bool _ => true
  | .num n => n.fitsFloat64
  | .str _ => true
  | .arr xs => Json.representableElems xs
  | .obj kvs => Json.representableMembers kvs
def Json.representableElems : List Json → Bool
  | [] => true
  | x :: xs => Json.representable x && Json.representableElems xs
def Json.representableMembers : List (String × Json) → Bool
  | [] => true
  | (_, x) :: xs => Json.representable x && Json.representableMembers xs
end

/-- The numbers of a `Diagnostic` are values of their Go types and its two `any`
fields hold representable values. -/
def Diagnostic.wf (d : Diagnostic) : Prop :=
  d.Range.wf ∧ IsInt d.Severity ∧ d.Code.representable = true ∧ d.Data.representable = true ∧
  (∀ t ∈ d.Tags.getD [], IsInt t) ∧
  (∀ x ∈ d.RelatedInformation.getD [], x.Location.wf)

/-- Neither slice tagged `omitempty` is empty and non-nil. -/
def Diagnostic.noEmptySlice (d : Diagnostic) : Prop :=
  d.Tags ≠ some [] ∧ d.RelatedInformation ≠ some []

instance (d : Diagnostic) : Decidable d.wf :=
  inferInstanceAs (Decidable (d.Range.wf ∧ IsInt d.Severity ∧ d.Code.representable = true ∧
    d.Data.representable = true ∧ (∀ t ∈ d.Tags.getD [], IsInt t) ∧
    (∀ x ∈ d.RelatedInformation.getD [], x.Location.wf)))

instance (d : Diagnostic) : Decidable d.noEmptySlice :=
  inferInstanceAs (Decidable (d.Tags ≠ some [] ∧ d.RelatedInformation ≠ some []))

/-! ## document_diagnostic.go -/

/-- document_diagnostic.go, `FullDocumentDiagnosticReport`. -/
structure FullDocumentDiagnosticReport where
  Kind : String
  ResultID : String
  Items : Option (List Diagnostic)
deriving DecidableEq, Repr

/-- document_diagnostic.go, `UnchangedDocumentDiagnosticReport`. -/
structure UnchangedDocumentDiagnosticReport where
  Kind : String
  ResultID : String
deriving DecidableEq, Repr

/-- document_diagnostic.go, `DocumentDiagnosticReport`. -/
structure DocumentDiagnosticReport where
  Full : Option FullDocumentDiagnosticReport
  Unchanged : Option UnchangedDocumentDiagnosticReport
deriving DecidableEq, Repr

def FullDocumentDiagnosticReport.zero : FullDocumentDiagnosticReport := ⟨"", "", none⟩
def UnchangedDocumentDiagnosticReport.zero : UnchangedDocumentDiagnosticReport := ⟨"", ""⟩
def DocumentDiagnosticReport.zero : DocumentDiagnosticReport := ⟨none, none⟩

def FullDocumentDiagnosticReport.setField (key : String) (data : Json)
    (v : FullDocumentDiagnosticReport) : FullDocumentDiagnosticReport × Status :=
  match matchField ["kind", "resultId", "items"] key with
  | some "kind" => let r := unmarshalString data v.Kind; ({ v with Kind := r.1 }, r.2)
  | some "resultId" => let r := unmarshalString data v.ResultID; ({ v with ResultID := r.1 }, r.2)
  | some "items" =>
    let r := unmarshalSlice "[]protocol.Diagnostic" Diagnostic.zero unmarshalDiagnostic data v.Items
    ({ v with Items := r.1 }, r.2)
  | _ => (v, .ok)

/-- `json.Unmarshal` into a `FullDocumentDiagnosticReport`. -/
def unmarshalFullDocumentDiagnosticReport :
    Json → FullDocumentDiagnosticReport → FullDocumentDiagnosticReport × Status :=
  unmarshalStruct "protocol.FullDocumentDiagnosticReport" FullDocumentDiagnosticReport.setField

/-- `json.Marshal` of a `FullDocumentDiagnosticReport`. -/
def marshalFullDocumentDiagnosticReport (v : FullDocumentDiagnosticReport) : Json :=
  .obj ([("kind", .str v.Kind)] ++
    omitEmpty (v.ResultID = "") "resultId" (.str v.ResultID) ++
    [("items", marshalSlice marshalDiagnostic v.Items)])

def UnchangedDocumentDiagnosticReport.setField (key : String) (data : Json)
    (v : UnchangedDocumentDiagnosticReport) : UnchangedDocumentDiagnosticReport × Status :=
  match matchField ["kind", "resultId"] key with
  | some "kind" => let r := unmarshalString data v.Kind; ({ v with Kind := r.1 }, r.2)
  | some "resultId" => let r := unmarshalString data v.ResultID; ({ v with ResultID := r.1 }, r.2)
  | _ => (v, .ok)

/-- `json.Unmarshal` into an `UnchangedDocumentDiagnosticReport`. -/
def unmarshalUnchangedDocumentDiagnosticReport :
    Json → UnchangedDocumentDiagnosticReport → UnchangedDocumentDiagnosticReport × Status :=
  unmarshalStruct "protocol.UnchangedDocumentDiagnosticReport"
    UnchangedDocumentDiagnosticReport.setField

/-- `json.Marshal` of an `UnchangedDocumentDiagnosticReport`. -/
def marshalUnchangedDocumentDiagnosticReport (v : UnchangedDocumentDiagnosticReport) : Json :=
  .obj [("kind", .str v.Kind), ("resultId", .str v.ResultID)]

/-- document_diagnostic.go, `DocumentDiagnosticReport.MarshalJSON`. -/
def DocumentDiagnosticReport.MarshalJSON (r : DocumentDiagnosticReport) : Except JsonError Json :=
  if r.Full.isSome then
    .ok (marshalPtr marshalFullDocumentDiagnosticReport r.Full)
  else if r.Unchanged.isSome then
    .ok (marshalPtr marshalUnchangedDocumentDiagnosticReport r.Unchanged)
  else
    .error (.message "either the Full or Unchanged field needs to be set")

/-- The local `temp struct { Kind string }` of `DocumentDiagnosticReport.UnmarshalJSON`. -/
def diagnosticKindSetField (key : String) (data : Json) (kind : String) : String × Status :=
  match matchField ["kind"] key with
  | some "kind" => unmarshalString data kind
  | _ => (kind, .ok)

/-- document_diagnostic.go, `DocumentDiagnosticReport.UnmarshalJSON`: the receiver
after the call and the error returned. -/
def DocumentDiagnosticReport.UnmarshalJSON (_r : DocumentDiagnosticReport) (data : Json) :
    DocumentDiagnosticReport × Option JsonError :=
  let r := DocumentDiagnosticReport.zero
  let temp := unmarshalStruct "struct { Kind string }" diagnosticKindSetField data ""
  if temp.2.isOk = false then
    (r, temp.2.err)
  else if temp.1 = "full" then
    let full := unmarshalFullDocumentDiagnosticReport data FullDocumentDiagnosticReport.zero
    if full.2.isOk = false then
      (r, full.2.err)
    else
      ({ r with Full := some full.1 }, none)
  else if temp.1 = "unchanged" then
    let unchanged :=
      unmarshalUnchangedDocumentDiagnosticReport data UnchangedDocumentDiagnosticReport.zero
    if unchanged.2.isOk = false then
      (r, unchanged.2.err)
    else
      ({ r with Unchanged := some unchanged.1 }, none)
  else
    (r, some (.message ("unknown document diagnostic report kind: " ++ temp.1)))

/-! ## Byte sequences -/

/-- A byte sequence handed to `UnmarshalJSON`, as far as a decoder can tell them
apart: bytes that are not a JSON text, or the text of a JSON value, written with or
without blanks around it. -/
inductive Input where
  | invalid
  | text (blanks : Bool) (value : Json)
deriving DecidableEq, Repr

/-- The Go test `string(data) == "null"`: the bytes are the text `null`, without blanks. -/
def Input.isNullLiteral : Input → Bool
  | .text false .null => true
  | _ => false

/-- `json.Unmarshal(data, &v)` on a byte sequence: bytes that are not a JSON text give
a syntax error and leave `v` as it was; blanks around the text are skipped. -/
def unmarshalInput {α : Type} (dec : Json → α → α × Status) (data : Input) (v : α) :
    α × Status :=
  match data with
  | .invalid => (v, .abort .invalidText)
  | .text _ j => dec j v

/-- document_hover.go, `HoverResult.UnmarshalJSON`, on a byte sequence: the receiver
after the call and the error returned. -/
def HoverResult.UnmarshalJSONBytes (_h : HoverResult) (data : Input) :
    HoverResult × Option JsonError :=
  let h := HoverResult.zero
  if data.isNullLiteral then
    ({ h with Null := true }, none)
  else
    let hover := unmarshalInput unmarshalHover data Hover.zero
    if hover.2.isOk then
      (h, hover.2.err)
    else
      ({ h with Hover := some hover.1 }, none)

/-! ## Go strings -/

/-- A Go string: a sequence of bytes, UTF-8 or not. -/
abbrev GoString := List (Fin 256)

/-- The byte of a number below 256. -/
def byte (n : Nat) : Fin 256 := ⟨n % 256, Nat.mod_lt n (by decide)⟩

/-- The UTF-8 bytes of a character (`utf8.AppendRune`). -/
def encodeRune (c : Char) : GoString :=
  if c.toNat < 0x80 then [byte c.toNat]
  else if c.toNat < 0x800 then [byte (0xC0 + c.toNat / 64), byte (0x80 + c.toNat % 64)]
  else if c.toNat < 0x10000 then
    [byte (0xE0 + c.toNat / 4096), byte (0x80 + c.toNat / 64 % 64), byte (0x80 + c.toNat % 64)]
  else
    [byte (0xF0 + c.toNat / 262144), byte (0x80 + c.toNat / 4096 % 64),
      byte (0x80 + c.toNat / 64 % 64), byte (0x80 + c.toNat % 64)]

/-- The code point `utf8.RuneError`, U+FFFD. -/
def runeError : Nat := 0xFFFD

/-- A continuation byte. -/
def isCont (b : Fin 256) : Prop := 0x80 ≤ b.val ∧ b.val ≤ 0xBF

instance (b : Fin 256) : Decidable (isCont b) :=
  inferInstanceAs (Decidable (0x80 ≤ b.val ∧ b.val ≤ 0xBF))

/-- The second byte is in the range the first byte accepts (`acceptRanges`). -/
def isSecond (b0 b1 : Fin 256) : Prop :=
  (if b0.val = 0xE0 then 0xA0 else if b0.val = 0xF0 then 0x90 else 0x80) ≤ b1.val ∧
    b1.val ≤ (if b0.val = 0xED then 0x9F else if b0.val = 0xF4 then 0x8F else 0xBF)

instance (b0 b1 : Fin 256) : Decidable (isSecond b0 b1) :=
  inferInstanceAs (Decidable (_ ∧ _))

/-- The first rune of a string and its width in bytes (`utf8.DecodeRuneInString`):
`(runeError, 1)` when the string does not start with a UTF-8 sequence,
`(runeError, 0)` when it is empty. -/
def decodeRune : GoString → Nat × Nat
  | [] => (runeError, 0)
  | b0 :: rest =>
    if b0.val < 0x80 then (b0.val, 1)
    else if 0xC2 ≤ b0.val ∧ b0.val ≤ 0xDF then
      match rest with
      | b1 :: _ =>
        if isSecond b0 b1 then ((b0.val - 0xC0) * 64 + (b1.val - 0x80), 2) else (runeError, 1)
      | _ => (runeError, 1)
    else if 0xE0 ≤ b0.val ∧ b0.val ≤ 0xEF then
      match rest with
      | b1 :: b2 :: _ =>
        if isSecond b0 b1 ∧ isCont b2 then
          ((b0.val - 0xE0) * 4096 + (b1.val - 0x80) * 64 + (b2.val - 0x80), 3)
        else (runeError, 1)
      | _ => (runeError, 1)
    else if 0xF0 ≤ b0.val ∧ b0.val ≤ 0xF4 then
      match rest with
      | b1 :: b2 :: b3 :: _ =>
        if isSecond b0 b1 ∧ isCont b2 ∧ isCont b3 then
          ((b0.val - 0xF0) * 262144 + (b1.val - 0x80) * 4096 + (b2.val - 0x80) * 64 +
            (b3.val - 0x80), 4)
        else (runeError, 1)
      | _ => (runeError, 1)
    else (runeError, 1)

/-- The runes `json.Marshal` reads off a Go string, after skipping `skip` bytes. -/
def decodeRunes : Nat → GoString → List Char
  | _, [] => []
  | skip + 1, _ :: bs => decodeRunes skip bs
  | 0, b :: bs => Char.ofNat (decodeRune (b :: bs)).1 :: decodeRunes ((decodeRune (b :: bs)).2 - 1) bs

/-- `utf8.ValidString`, after skipping `skip` bytes. -/
def validRunes : Nat → GoString → Bool
  | _, [] => true
  | skip + 1, _ :: bs => validRunes skip bs
  | 0, b :: bs =>
    decide ((decodeRune (b :: bs)).1 ≠ runeError ∨ (decodeRune (b :: bs)).2 ≠ 1) &&
      validRunes ((decodeRune (b :: bs)).2 - 1) bs

/-- The string is valid UTF-8 (`utf8.ValidString`). -/
def GoString.valid (s : GoString) : Bool := validRunes 0 s

/-- The JSON string `json.Marshal` emits for a Go string: the runes of the string,
with U+FFFD for every byte that starts no UTF-8 sequence. -/
def GoString.toJson (s : GoString) : String := String.mk (decodeRunes 0 s)

/-- The Go string `json.Unmarshal` stores for a JSON string: its UTF-8 bytes. -/
def GoString.ofJson (s : String) : GoString := s.data.flatMap encodeRune

/-! ## Values whose strings are byte sequences

The records above hold Lean strings, so they stand for the Go values whose strings
are valid UTF-8. The records below are the Go values of the three types that are
encoded and decoded again, with strings of arbitrary bytes. `json.Marshal` reads such
a value through `coerce` (every string through `GoString.toJson`), and what
`json.Unmarshal` leaves in memory is `store` of the record it decoded (every string
through `GoString.ofJson`). The fields of type `any` keep holding the values
`json.Unmarshal` stores in an `any`. -/

/-- document_hover.go, `MarkedString`, with byte strings. -/
structure RawMarkedString where
  Language : GoString
  Value : GoString
deriving DecidableEq, Repr

/-- document_hover.go, `MarkupContent`, with byte strings. -/
structure RawMarkupContent where
  Kind : GoString
  Value : GoString
deriving DecidableEq, Repr

/-- document_hover.go, `MarkupContentOrMarkedString`, with byte strings. -/
structure RawMarkupContentOrMarkedString where
  Markup : Option RawMarkupContent
  MarkedString : Option RawMarkedString
  MarkedStrings : Option (List RawMarkedString)
deriving DecidableEq, Repr

/-- base.go, `Location`, with byte strings. -/
structure RawLocation where
  URI : GoString
  Range : Protocol.Range
deriving DecidableEq, Repr

/-- base.go, `LocationLink`, with byte strings. -/
structure RawLocationLink where
  OriginSelectionRange : Option Protocol.Range
  TargetURI : GoString
  TargetRange : Protocol.Range
  TargetSelectionRange : Protocol.Range
deriving DecidableEq, Repr

/-- document_definition.go, `DefinitionResponse`, with byte strings. -/
structure RawDefinitionResponse where
  Location : Option RawLocation
  LocationList : Option (List RawLocation)
  LocationLinks : Option (List RawLocationLink)
  Null : Bool
deriving DecidableEq, Repr

/-- diagnostics.go, `CodeDescription`, with byte strings. -/
structure RawCodeDescription where
  Href : GoString
deriving DecidableEq, Repr

/-- diagnostics.go, `DiagnosticRelatedInformation`, with byte strings. -/
structure RawDiagnosticRelatedInformation where
  Location : RawLocation
  Message : GoString
deriving DecidableEq, Repr

/-- diagnostics.go, `Diagnostic`, with byte strings. -/
structure RawDiagnostic where
  Range : Protocol.Range
  Severity : Int
  Code : Json
  CodeDescription : Option RawCodeDescription
  Source : GoString
  Message : GoString
  Tags : Option (List Int)
  RelatedInformation : Option (List RawDiagnosticRelatedInformation)
  Data : Json
deriving DecidableEq, Repr

/-- document_diagnostic.go, `FullDocumentDiagnosticReport`, with byte strings. -/
structure RawFullDocumentDiagnosticReport where
  Kind : GoString
  ResultID : GoString
  Items : Option (List RawDiagnostic)
deriving DecidableEq, Repr

/-- document_diagnostic.go, `UnchangedDocumentDiagnosticReport`, with byte strings. -/
structure RawUnchangedDocumentDiagnosticReport where
  Kind : GoString
  ResultID : GoString
deriving DecidableEq, Repr

/-- document_diagnostic.go, `DocumentDiagnosticReport`, with byte strings. -/
structure RawDocumentDiagnosticReport where
  Full : Option RawFullDocumentDiagnosticReport
  Unchanged : Option RawUnchangedDocumentDiagnosticReport
deriving DecidableEq, Repr

def RawMarkedString.coerce (v : RawMarkedString) : MarkedString :=
  ⟨GoString.toJson v.Language, GoString.toJson v.Value⟩

def MarkedString.store (v : MarkedString) : RawMarkedString :=
  ⟨GoString.ofJson v.Language, GoString.ofJson v.Value⟩

def RawMarkedString.valid (v : RawMarkedString) : Bool :=
  GoString.valid v.Language && GoString.valid v.Value

def RawMarkupContent.coerce (v : RawMarkupContent) : MarkupContent :=
  ⟨GoString.toJson v.Kind, GoString.toJson v.Value⟩

def MarkupContent.store (v : MarkupContent) : RawMarkupContent :=
  ⟨GoString.ofJson v.Kind, GoString.ofJson v.Value⟩

def RawMarkupContent.valid (v : RawMarkupContent) : Bool :=
  GoString.valid v.Kind && GoString.valid v.Value

def RawMarkupContentOrMarkedString.coerce (v : RawMarkupContentOrMarkedString) :
    MarkupContentOrMarkedString :=
  ⟨v.Markup.map RawMarkupContent.coerce, v.MarkedString.map RawMarkedString.coerce,
    v.MarkedStrings.map (List.map RawMarkedString.coerce)⟩

/-- Every string of the value is valid UTF-8. -/
def RawMarkupContentOrMarkedString.valid (v : RawMarkupContentOrMarkedString) : Bool :=
  v.Markup.all RawMarkupContent.valid && v.MarkedString.all RawMarkedString.valid &&
    (v.MarkedStrings.getD []).all RawMarkedString.valid

def RawLocation.coerce (v : RawLocation) : Location :=
  ⟨GoString.toJson v.URI, v.Range⟩

def Location.store (v : Location) : RawLocation :=
  ⟨GoString.ofJson v.URI, v.Range⟩

def RawLocation.valid (v : RawLocation) : Bool :=
  GoString.valid v.URI

def RawLocationLink.coerce (v : RawLocationLink) : LocationLink :=
  ⟨v.OriginSelectionRange, GoString.toJson v.TargetURI, v.TargetRange, v.TargetSelectionRange⟩

def LocationLink.store (v : LocationLink) : RawLocationLink :=
  ⟨v.OriginSelectionRange, GoString.ofJson v.TargetURI, v.TargetRange, v.TargetSelectionRange⟩

def RawLocationLink.valid (v : RawLocationLink) : Bool :=
  GoString.valid v.TargetURI

def RawDefinitionResponse.coerce (v : RawDefinitionResponse) : DefinitionResponse :=
  ⟨v.Location.map RawLocation.coerce, v.LocationList.map (List.map RawLocation.coerce),
    v.LocationLinks.map (List.map RawLocationLink.coerce), v.Null⟩

def DefinitionResponse.store (v : DefinitionResponse) : RawDefinitionResponse :=
  ⟨v.Location.map Location.store, v.LocationList.map (List.map Location.store),
    v.LocationLinks.map (List.map LocationLink.store), v.Null⟩

/-- Every string of the value is valid UTF-8. -/
def RawDefinitionResponse.valid (v : RawDefinitionResponse) : Bool :=
  v.Location.all RawLocation.valid && (v.LocationList.getD []).all RawLocation.valid &&
    (v.LocationLinks.getD []).all RawLocationLink.valid

def RawCodeDescription.coerce (v : RawCodeDescription) : CodeDescription :=
  ⟨GoString.toJson v.Href⟩

def CodeDescription.store (v : Protocol.CodeDescription) : RawCodeDescription :=
  ⟨GoString.ofJson v.Href⟩

def RawCodeDescription.valid (v : RawCodeDescription) : Bool :=
  GoString.valid v.Href

def RawDiagnosticRelatedInformation.coerce (v : RawDiagnosticRelatedInformation) :
    DiagnosticRelatedInformation :=
  ⟨v.Location.coerce, GoString.toJson v.Message⟩

def DiagnosticRelatedInformation.store (v : DiagnosticRelatedInformation) :
    RawDiagnosticRelatedInformation :=
  ⟨v.Location.store, GoString.ofJson v.Message⟩

def RawDiagnosticRelatedInformation.valid (v : RawDiagnosticRelatedInformation) : Bool :=
  v.Location.valid && GoString.valid v.Message

def RawDiagnostic.coerce (v : RawDiagnostic) : Diagnostic :=
  { Range := v.Range, Severity := v.Severity, Code := v.Code,
    CodeDescription := v.CodeDescription.map RawCodeDescription.coerce,
    Source := GoString.toJson v.Source, Message := GoString.toJson v.Message, Tags := v.Tags,
    RelatedInformation := v.RelatedInformation.map (List.map RawDiagnosticRelatedInformation.coerce),
    Data := v.Data }

def Diagnostic.store (v : Diagnostic) : RawDiagnostic :=
  { Range := v.Range, Severity := v.Severity, Code := v.Code,
    CodeDescription := v.CodeDescription.map CodeDescription.store,
    Source := GoString.ofJson v.Source, Message := GoString.ofJson v.Message, Tags := v.Tags,
    RelatedInformation := v.RelatedInformation.map (List.map DiagnosticRelatedInformation.store),
    Data := v.Data }

def RawDiagnostic.valid (v : RawDiagnostic) : Bool :=
  v.CodeDescription.all RawCodeDescription.valid && GoString.valid v.Source &&
    GoString.valid v.Message &&
    (v.RelatedInformation.getD []).all RawDiagnosticRelatedInformation.valid

def RawFullDocumentDiagnosticReport.coerce (v : RawFullDocumentDiagnosticReport) :
    FullDocumentDiagnosticReport :=
  ⟨GoString.toJson v.Kind, GoString.toJson v.ResultID, v.Items.map (List.map RawDiagnostic.coerce)⟩

def FullDocumentDiagnosticReport.store (v : FullDocumentDiagnosticReport) :
    RawFullDocumentDiagnosticReport :=
  ⟨GoString.ofJson v.Kind, GoString.ofJson v.ResultID, v.Items.map (List.map Diagnostic.store)⟩

def RawFullDocumentDiagnosticReport.valid (v : RawFullDocumentDiagnosticReport) : Bool :=
  GoString.valid v.Kind && GoString.valid v.ResultID && (v.Items.getD []).all RawDiagnostic.valid

def RawUnchangedDocumentDiagnosticReport.coerce (v : RawUnchangedDocumentDiagnosticReport) :
    UnchangedDocumentDiagnosticReport :=
  ⟨GoString.toJson v.Kind, GoString.toJson v.ResultID⟩

def UnchangedDocumentDiagnosticReport.store (v : UnchangedDocumentDiagnosticReport) :
    RawUnchangedDocumentDiagnosticReport :=
  ⟨GoString.ofJson v.Kind, GoString.ofJson v.ResultID⟩

def RawUnchangedDocumentDiagnosticReport.valid (v : RawUnchangedDocumentDiagnosticReport) : Bool :=
  GoString.valid v.Kind && GoString.valid v.ResultID

def RawDocumentDiagnosticReport.coerce (v : RawDocumentDiagnosticReport) :
    DocumentDiagnosticReport :=
  ⟨v.Full.map RawFullDocumentDiagnosticReport.coerce,
    v.Unchanged.map RawUnchangedDocumentDiagnosticReport.coerce⟩

def DocumentDiagnosticReport.store (v : DocumentDiagnosticReport) : RawDocumentDiagnosticReport :=
  ⟨v.Full.map FullDocumentDiagnosticReport.store,
    v.Unchanged.map UnchangedDocumentDiagnosticReport.store⟩

/-- Every string of the value is valid UTF-8. -/
def RawDocumentDiagnosticReport.valid (v : RawDocumentDiagnosticReport) : Bool :=
  v.Full.all RawFullDocumentDiagnosticReport.valid &&
    v.Unchanged.all RawUnchangedDocumentDiagnosticReport.valid

/-- document_hover.go, `MarkupContentOrMarkedString.MarshalJSON`, on a value with byte
strings: the tests read no string, and `json.Marshal` coerces the strings. -/
def RawMarkupContentOrMarkedString.MarshalJSON (m : RawMarkupContentOrMarkedString) :
    Except JsonError Json :=
  MarkupContentOrMarkedString.MarshalJSON m.coerce

/-- document_hover.go, `MarkupContentOrMarkedString.UnmarshalJSON`, on a receiver with
byte strings: each attempt decodes into a fresh local, which is stored in the
receiver; the other fields of the receiver are left as they are. -/
def RawMarkupContentOrMarkedString.UnmarshalJSON (m : RawMarkupContentOrMarkedString)
    (data : Json) : RawMarkupContentOrMarkedString × Option JsonError :=
  let markup := unmarshalMarkupContent data MarkupContent.zero
  if markup.2.isOk = true ∧ markup.1.Kind ≠ "" then
    ({ m with Markup := some markup.1.store }, none)
  else
    let single := unmarshalMarkedString data MarkedString.zero
    if single.2.isOk = true ∧ (single.1.Language ≠ "" ∨ single.1.Value ≠ "") then
      ({ m with MarkedString := some single.1.store }, none)
    else
      let many := unmarshalSlice "[]protocol.MarkedString" MarkedString.zero unmarshalMarkedString data none
      if many.2.isOk then
        ({ m with MarkedStrings := many.1.map (List.map MarkedString.store) }, none)
      else
        (m, some (.message "invalid contents: not MarkupContent, MarkedString or []MarkedString"))

/-- document_definition.go, `DefinitionResponse.MarshalJSON`, on a value with byte
strings. -/
def RawDefinitionResponse.MarshalJSON (dr : RawDefinitionResponse) : Except JsonError Json :=
  DefinitionResponse.MarshalJSON dr.coerce

/-- document_definition.go, `DefinitionResponse.UnmarshalJSON`, on a receiver with byte
strings: the receiver is reset, and what is decoded is stored. -/
def RawDefinitionResponse.UnmarshalJSON (_dr : RawDefinitionResponse) (data : Json) :
    RawDefinitionResponse × Option JsonError :=
  let r := DefinitionResponse.UnmarshalJSON DefinitionResponse.zero data
  (r.1.store, r.2)

/-- document_diagnostic.go, `DocumentDiagnosticReport.MarshalJSON`, on a value with byte
strings. -/
def RawDocumentDiagnosticReport.MarshalJSON (r : RawDocumentDiagnosticReport) :
    Except JsonError Json :=
  DocumentDiagnosticReport.MarshalJSON r.coerce

/-- document_diagnostic.go, `DocumentDiagnosticReport.UnmarshalJSON`, on a receiver with
byte strings: the receiver is reset, and what is decoded is stored. -/
def RawDocumentDiagnosticReport.UnmarshalJSON (_r : RawDocumentDiagnosticReport) (data : Json) :
    RawDocumentDiagnosticReport × Option JsonError :=
  let r := DocumentDiagnosticReport.UnmarshalJSON DocumentDiagnosticReport.zero data
  (r.1.store, r.2)

def MarkupContentOrMarkedString.store (v : MarkupContentOrMarkedString) :
    RawMarkupContentOrMarkedString :=
  ⟨v.Markup.map MarkupContent.store, v.MarkedString.map MarkedString.store,
    v.MarkedStrings.map (List.map MarkedString.store)⟩

/-! ## Notions used in the statements -/

/-- No member of the list is a member `kind`: no key selects the field `kind`, that
is, no key is `kind` exactly or up to the case folding of `encoding/json`. -/
def noKindMember (kvs : List (String × Json)) : Prop :=
  ∀ kv ∈ kvs, matchField ["kind"] kv.1 = none

instance (kvs : List (String × Json)) : Decidable (noKindMember kvs) :=
  inferInstanceAs (Decidable (∀ kv ∈ kvs, matchField ["kind"] kv.1 = none))

/-- No member of the list is a member with one of the given names: no key selects a
field of a struct with these field names. -/
def noMemberOf (names : List String) (kvs : List (String × Json)) : Prop :=
  ∀ kv ∈ kvs, matchField names kv.1 = none

instance (names : List String) (kvs : List (String × Json)) : Decidable (noMemberOf names kvs) :=
  inferInstanceAs (Decidable (∀ kv ∈ kvs, matchField names kv.1 = none))

/-- The value of the first member with the given key of a JSON object. -/
def Json.member (key : String) : Json → Option Json
  | .obj kvs => (kvs.find? (fun kv => kv.1 == key)).map (fun kv => kv.2)
  | _ => none

/-- The value is a JSON array. -/
def Json.isArray : Json → Bool
  | .arr _ => true
  | _ => false

/-- The value is a JSON object with a member `items` (a member whose key selects the
field `items` of `CompletionList`) bound to an array. -/
def carriesItemsArray : Json → Bool
  | .obj kvs =>
    kvs.any (fun kv => matchField ["isIncomplete", "items"] kv.1 == some "items" && kv.2.isArray)
  | _ => false

/-- The value the last member `name` of the list is bound to: the last value whose key
selects the field `name` among the fields `names`. -/
def lastMember (names : List String) (name : String) : List (String × Json) → Option Json
  | [] => none
  | (k, j) :: rest =>
    match lastMember names name rest with
    | some v => some v
    | none => if matchField names k = some name then some j else none

/-- The string a member is bound to, `d` when there is no such member. -/
def Json.strOr : Option Json → String → String
  | some (.str s), _ => s
  | _, d => d

/-- The boolean a member is bound to, `d` when there is no such member. -/
def Json.boolOr : Option Json → Bool → Bool
  | some (.bool b), _ => b
  | _, d => d

/-- The value is a JSON string. -/
def Json.isString : Json → Bool
  | .str _ => true
  | _ => false

/-- The value is a JSON boolean. -/
def Json.isBool : Json → Bool
  | .bool _ => true
  | _ => false

/-- Every member of the list whose key selects one of the fields `names` is bound to a
string. -/
def stringMembers (names : List String) (kvs : List (String × Json)) : Prop :=
  ∀ kv ∈ kvs, matchField names kv.1 = none ∨ kv.2.isString = true

instance (names : List String) (kvs : List (String × Json)) :
    Decidable (stringMembers names kvs) :=
  inferInstanceAs (Decidable (∀ kv ∈ kvs, matchField names kv.1 = none ∨ kv.2.isString = true))

/-- The value is an object whose members `language` and `value` are bound to
strings. -/
def markedStringObject : Json → Bool
  | .obj kvs => decide (stringMembers ["language", "value"] kvs)
  | _ => false

/-- The marked string an object denotes: its last `language` and its last `value`,
empty when absent. -/
def markedStringOf : Json → MarkedString
  | .obj kvs =>
    ⟨Json.strOr (lastMember ["language", "value"] "language" kvs) "",
      Json.strOr (lastMember ["language", "value"] "value" kvs) ""⟩
  | _ => ⟨"", ""⟩

/-- No member of the list is a member `name` (no key selects the field `name` among the
fields `names`). -/
def noMemberNamed (names : List String) (name : String) (kvs : List (String × Json)) : Prop :=
  ∀ kv ∈ kvs, matchField names kv.1 ≠ some name

instance (names : List String) (name : String) (kvs : List (String × Json)) :
    Decidable (noMemberNamed names name kvs) :=
  inferInstanceAs (Decidable (∀ kv ∈ kvs, matchField names kv.1 ≠ some name))

/-- Every member `name` of the list is bound to a boolean. -/
def boolMembersNamed (names : List String) (name : String) (kvs : List (String × Json)) :
    Prop :=
  ∀ kv ∈ kvs, matchField names kv.1 = some name → kv.2.isBool = true

instance (names : List String) (name : String) (kvs : List (String × Json)) :
    Decidable (boolMembersNamed names name kvs) :=
  inferInstanceAs (Decidable (∀ kv ∈ kvs, matchField names kv.1 = some name → kv.2.isBool = true))

/-- The arguments of a `Command` are values `json.Unmarshal` stores in an `any`, and the
slice, tagged `omitempty`, is not empty and non-nil. -/
def Command.wf (c : Protocol.Command) : Prop :=
  (∀ a ∈ c.Arguments.getD [], a.representable = true) ∧ c.Arguments ≠ some []

instance (c : Protocol.Command) : Decidable c.wf :=
  inferInstanceAs (Decidable ((∀ a ∈ c.Arguments.getD [], a.representable = true) ∧
    c.Arguments ≠ some []))

/-- The numbers of a `CompletionItem` are values of their Go types, its `Data` holds a
value `json.Unmarshal` stores in an `any`, and no slice tagged `omitempty` is empty
and non-nil. -/
def CompletionItem.wf (it : CompletionItem) : Prop :=
  IsInt it.Kind ∧ (∀ t ∈ it.Tags.getD [], IsInt t) ∧ it.Tags ≠ some [] ∧
  (∀ n ∈ it.InsrtTextFormat, IsInt n) ∧ (∀ n ∈ it.InsertTextMode, IsInt n) ∧
  (∀ t ∈ it.TextEdit, t.Range.wf) ∧
  (∀ t ∈ it.AdditionalTextEdits.getD [], t.Range.wf) ∧ it.AdditionalTextEdits ≠ some [] ∧
  (∀ c ∈ it.Command, c.wf) ∧ it.Data.representable = true

instance (it : CompletionItem) : Decidable it.wf :=
  inferInstanceAs (Decidable (IsInt it.Kind ∧ (∀ t ∈ it.Tags.getD [], IsInt t) ∧
    it.Tags ≠ some [] ∧
    (∀ n ∈ it.InsrtTextFormat, IsInt n) ∧ (∀ n ∈ it.InsertTextMode, IsInt n) ∧
    (∀ t ∈ it.TextEdit, t.Range.wf) ∧
    (∀ t ∈ it.AdditionalTextEdits.getD [], t.Range.wf) ∧ it.AdditionalTextEdits ≠ some [] ∧
    (∀ c ∈ it.Command, c.wf) ∧ it.Data.representable = true))

/-- Number of populated states of a `CompletionResponse`: the non-nil variants and
the null marker. -/
def CompletionResponse.populated (cr : CompletionResponse) : Nat :=
  (if cr.Items.isSome then 1 else 0) + (if cr.List.isSome then 1 else 0) +
    (if cr.Null then 1 else 0)

/-- Number of populated states of a `DefinitionResponse`. -/
def DefinitionResponse.populated (dr : DefinitionResponse) : Nat :=
  (if dr.Location.isSome then 1 else 0) + (if dr.LocationList.isSome then 1 else 0) +
    (if dr.LocationLinks.isSome then 1 else 0) + (if dr.Null then 1 else 0)

/-- Number of populated variants of a `DocumentDiagnosticReport`. -/
def DocumentDiagnosticReport.populated (r : DocumentDiagnosticReport) : Nat :=
  (if r.Full.isSome then 1 else 0) + (if r.Unchanged.isSome then 1 else 0)

/-- Number of populated states of a `HoverResult`. -/
def HoverResult.populated (h : HoverResult) : Nat :=
  (if h.Hover.isSome then 1 else 0) + (if h.Null then 1 else 0)

/-- Number of populated (non-nil) variants of a `MarkupContentOrMarkedString`. -/
def MarkupContentOrMarkedString.populated (m : MarkupContentOrMarkedString) : Nat :=
  (if m.Markup.isSome then 1 else 0) + (if m.MarkedString.isSome then 1 else 0) +
    (if m.MarkedStrings.isSome then 1 else 0)

/-! ## Example values -/

/-- A location link without origin range. -/
def exampleLinkA : LocationLink :=
  ⟨none, "file:///a", ⟨⟨1, 2⟩, ⟨3, 4⟩⟩, ⟨⟨1, 2⟩, ⟨1, 5⟩⟩⟩

/-- A location link with an origin range. -/
def exampleLinkB : LocationLink :=
  ⟨some ⟨⟨0, 0⟩, ⟨0, 1⟩⟩, "file:///b", ⟨⟨7, 0⟩, ⟨9, 0⟩⟩, ⟨⟨7, 4⟩, ⟨7, 8⟩⟩⟩

/-- The JSON array of two objects that each hold only a `targetUri` member. -/
def exampleTargetUriArray : Json :=
  .arr [.obj [("targetUri", .str "file:///a")], .obj [("targetUri", .str "file:///b")]]

/-- A hover whose contents are the markup `markdown` / `x`, without range. -/
def exampleHover : Hover :=
  ⟨⟨some ⟨"markdown", "x"⟩, none, none⟩, none⟩

/-- A location in `file:///a`. -/
def exampleLocation : Location :=
  ⟨"file:///a", ⟨⟨1, 2⟩, ⟨3, 4⟩⟩⟩

/-- A diagnostic with a severity, a string code, one tag and one related information. -/
def exampleDiagnostic : Diagnostic :=
  { Range := ⟨⟨1, 2⟩, ⟨1, 9⟩⟩, Severity := 2, Code := .str "E100", CodeDescription := none,
    Source := "php", Message := "unused variable", Tags := some [1],
    RelatedInformation := some [⟨exampleLocation, "declared here"⟩], Data := .null }

/-- A completion item with every field set. -/
def exampleCompletionItem : CompletionItem :=
  { Label := "foo", LabelDetails := some ⟨some "(x)", none⟩, Kind := 3, Tags := some [1],
    Detail := "func foo", Documentation := "does foo", Deprecated := some false,
    Preselect := some true, SortText := "a", FilterText := "fo", InsertText := "foo()",
    InsrtTextFormat := some 2, InsertTextMode := some 1,
    TextEdit := some ⟨⟨⟨1, 2⟩, ⟨1, 5⟩⟩, "foo"⟩, TextEditText := "foo",
    AdditionalTextEdits := some [⟨⟨⟨0, 0⟩, ⟨0, 0⟩⟩, "use x;"⟩], CommitCharacters := ".",
    Command := some ⟨"Run", "run", some [.str "a"]⟩, Data := .obj [("id", .str "x")] }

/-! ## Theorems -/

/-! ### The decoding primitives on encoded values -/

@[simp] theorem Status_merge_ok (st : Status) : st.merge .ok = st := by
  cases st <;> rfl

@[simp] theorem Status_ok_merge (st : Status) : Status.merge .ok st = st := rfl

@[simp] theorem unmarshalFields_nil {α : Type} (f : String → Json → α → α × Status) (v : α)
    (st : Status) : unmarshalFields f [] v st = (v, st) := rfl

@[simp] theorem unmarshalStruct_obj {α : Type} (t : String) (f : String → Json → α → α × Status)
    (kvs : List (String × Json)) (v : α) :
    unmarshalStruct t f (.obj kvs) v = unmarshalFields f kvs v .ok := rfl

@[simp] theorem unmarshalStruct_arr {α : Type} (t : String) (f : String → Json → α → α × Status)
    (xs : List Json) (v : α) :
    unmarshalStruct t f (.arr xs) v = (v, .saved (.unmarshalType "array" t)) := rfl

@[simp] theorem unmarshalString_str (s w : String) : unmarshalString (.str s) w = (s, .ok) := rfl

theorem unmarshalUint32_marshalUint (n w : Nat) (h : IsUint32 n) :
    unmarshalUint32 (marshalUint n) w = (n, .ok) := by
  unfold IsUint32 at h
  simpa [unmarshalUint32, marshalUint, NumLit.isInteger] using h

theorem unmarshalElems_map {α : Type} (zero : α) (dec : Json → α → α × Status) (enc : α → Json)
    (l : List α) (h : ∀ x ∈ l, dec (enc x) zero = (x, .ok)) :
    unmarshalElems zero dec (l.map enc) [] = (l, .ok) := by
  induction l with
  | nil => rfl
  | cons a t ih =>
    have ha := h a (List.mem_cons_self _ _)
    have ht := ih (fun x hx => h x (List.mem_cons_of_mem _ hx))
    simp [unmarshalElems, ha, ht]

theorem unmarshalElems_map_const {α β : Type} (zero c : α) (dec : Json → α → α × Status)
    (enc : β → Json) (l : List β) (h : ∀ x ∈ l, dec (enc x) zero = (c, .ok)) :
    unmarshalElems zero dec (l.map enc) [] = (l.map (fun _ => c), .ok) := by
  induction l with
  | nil => rfl
  | cons a t ih =>
    have ha := h a (List.mem_cons_self _ _)
    have ht := ih (fun x hx => h x (List.mem_cons_of_mem _ hx))
    simp [unmarshalElems, ha, ht]

theorem unmarshalSlice_marshalSlice {α : Type} (t : String) (zero : α)
    (dec : Json → α → α × Status) (enc : α → Json) (s : Option (List α))
    (h : ∀ l, s = some l → ∀ x ∈ l, dec (enc x) zero = (x, .ok)) :
    unmarshalSlice t zero dec (marshalSlice enc s) none = (s, .ok) := by
  cases s with
  | none => rfl
  | some l =>
    have e := unmarshalElems_map zero dec enc l (h l rfl)
    simp [unmarshalSlice, marshalSlice, e]

/-! ### Members decoded one after the other -/

theorem unmarshalFields_cons {α : Type} (f : String → Json → α → α × Status) (k : String)
    (j : Json) (rest : List (String × Json)) (v : α) (st : Status) :
    unmarshalFields f ((k, j) :: rest) v st =
      match f k j v with
      | (v', .abort e) => (v', .abort e)
      | (v', st') => unmarshalFields f rest v' (st.merge st') := rfl

theorem unmarshalFields_status_ne_ok {α : Type} (f : String → Json → α → α × Status) :
    ∀ (l : List (String × Json)) (v : α) (st : Status), st ≠ .ok →
      (unmarshalFields f l v st).2 ≠ .ok := by
  intro l
  induction l with
  | nil => intro v st h; exact h
  | cons kj t ih =>
    intro v st h
    obtain ⟨k, j⟩ := kj
    rw [unmarshalFields_cons]
    rcases hf : f k j v with ⟨v', st'⟩
    cases st' with
    | ok => simpa using ih v' st h
    | saved e =>
      simp only
      apply ih
      cases st <;> simp [Status.merge] at h ⊢
    | abort e => simp

theorem unmarshalFields_append {α : Type} (f : String → Json → α → α × Status)
    (l1 l2 : List (String × Json)) :
    ∀ (v v1 : α), unmarshalFields f l1 v .ok = (v1, .ok) →
      unmarshalFields f (l1 ++ l2) v .ok = unmarshalFields f l2 v1 .ok := by
  induction l1 with
  | nil =>
    intro v v1 h
    simp only [unmarshalFields_nil, Prod.mk.injEq, and_true] at h
    simp [h]
  | cons kj t ih =>
    intro v v1 h
    obtain ⟨k, j⟩ := kj
    simp only [List.cons_append]
    rw [unmarshalFields_cons] at h ⊢
    rcases hf : f k j v with ⟨v', st'⟩
    rw [hf] at h
    cases st' with
    | ok =>
      simp only [Status_ok_merge] at h ⊢
      exact ih v' v1 h
    | saved e =>
      simp only [Status_ok_merge] at h
      have := unmarshalFields_status_ne_ok f t v' (.saved e) (by simp)
      rw [h] at this
      exact absurd rfl this
    | abort e => simp at h

/-- A member tagged `omitempty` over a state that already holds the zero value. -/
theorem unmarshalFields_omitEmpty {α : Type} (f : String → Json → α → α × Status)
    (c : Bool) (k : String) (j : Json) (w w' : α)
    (h0 : c = true → w' = w) (h1 : c = false → f k j w = (w', .ok)) :
    unmarshalFields f (omitEmpty c k j) w .ok = (w', .ok) := by
  cases c with
  | true => simp [omitEmpty, h0 rfl]
  | false => simp [omitEmpty, unmarshalFields, h1 rfl]

/-! ### Values of type `any` and Go integers -/

mutual
theorem interfaceValue_of_representable :
    ∀ j : Json, j.representable = true → interfaceValue j = (j, true)
  | .null, _ => rfl
  | .bool _, _ => rfl
  | .num n, h => by
    simp only [Json.representable] at h
    simp [interfaceValue, h]
  | .str _, _ => rfl
  | .arr xs, h => by
    simp only [Json.representable] at h
    simp [interfaceValue, interfaceElems_of_representable xs h]
  | .obj kvs, h => by
    simp only [Json.representable] at h
    simp [interfaceValue, interfaceMembers_of_representable kvs h]
theorem interfaceElems_of_representable :
    ∀ xs : List Json, Json.representableElems xs = true → interfaceElems xs = (xs, true)
  | [], _ => rfl
  | x :: xs, h => by
    simp only [Json.representableElems, Bool.and_eq_true] at h
    simp [interfaceElems, interfaceValue_of_representable x h.1,
      interfaceElems_of_representable xs h.2]
theorem interfaceMembers_of_representable :
    ∀ kvs : List (String × Json), Json.representableMembers kvs = true →
      interfaceMembers kvs = (kvs, true)
  | [], _ => rfl
  | (k, x) :: xs, h => by
    simp only [Json.representableMembers, Bool.and_eq_true] at h
    simp [interfaceMembers, interfaceValue_of_representable x h.1,
      interfaceMembers_of_representable xs h.2]
end

theorem unmarshalAny_of_representable (j w : Json) (h : j.representable = true) :
    unmarshalAny j w = (j, .ok) := by
  cases j with
  | num n =>
    simp only [Json.representable] at h
    simp [unmarshalAny, h]
  | null => rfl
  | bool b => rfl
  | str s => rfl
  | arr xs => simp [unmarshalAny, interfaceValue_of_representable _ h]
  | obj kvs => simp [unmarshalAny, interfaceValue_of_representable _ h]

theorem NumLit_toInt_marshal (i : Int) :
    NumLit.toInt ⟨decide (i < 0), i.natAbs, [], none⟩ = i := by
  unfold NumLit.toInt
  by_cases h : i < 0
  · have e : decide (i < 0) = true := by simpa using h
    rw [e]
    show -((i.natAbs : Nat) : Int) = i
    omega
  · have e : decide (i < 0) = false := by simpa using h
    rw [e]
    show ((i.natAbs : Nat) : Int) = i
    omega

theorem unmarshalInt_marshalInt (i w : Int) (h : IsInt i) :
    unmarshalInt (marshalInt i) w = (i, .ok) := by
  unfold IsInt at h
  unfold unmarshalInt unmarshalSigned marshalInt
  simp only [NumLit_toInt_marshal]
  have : (NumLit.isInteger ⟨decide (i < 0), i.natAbs, [], none⟩) = true := rfl
  simpa [this] using h

/-! ### Round trips of the records of base.go -/

theorem Position_setField_line (j : Json) (w : Position) :
    Position.setField "line" j w =
      ({ w with Line := (unmarshalUint32 j w.Line).1 }, (unmarshalUint32 j w.Line).2) := rfl

theorem Position_setField_character (j : Json) (w : Position) :
    Position.setField "character" j w =
      ({ w with Character := (unmarshalUint32 j w.Character).1 },
        (unmarshalUint32 j w.Character).2) := rfl

theorem unmarshalPosition_marshalPosition (p w : Position) (h : p.wf) :
    unmarshalPosition (marshalPosition p) w = (p, .ok) := by
  obtain ⟨h1, h2⟩ := h
  simp [unmarshalPosition, marshalPosition, unmarshalFields, Position_setField_line,
    Position_setField_character, unmarshalUint32_marshalUint, h1, h2]

theorem Range_setField_start (j : Json) (w : Protocol.Range) :
    Range.setField "start" j w =
      ({ w with Start := (unmarshalPosition j w.Start).1 }, (unmarshalPosition j w.Start).2) := rfl

theorem Range_setField_end (j : Json) (w : Protocol.Range) :
    Range.setField "end" j w =
      ({ w with End := (unmarshalPosition j w.End).1 }, (unmarshalPosition j w.End).2) := rfl

theorem unmarshalRange_marshalRange (r w : Protocol.Range) (h : r.wf) :
    unmarshalRange (marshalRange r) w = (r, .ok) := by
  obtain ⟨h1, h2⟩ := h
  simp [unmarshalRange, marshalRange, unmarshalFields, Range_setField_start,
    Range_setField_end, unmarshalPosition_marshalPosition, h1, h2]

theorem Location_setField_uri (j : Json) (w : Location) :
    Location.setField "uri" j w =
      ({ w with URI := (unmarshalString j w.URI).1 }, (unmarshalString j w.URI).2) := rfl

theorem Location_setField_range (j : Json) (w : Location) :
    Location.setField "range" j w =
      ({ w with Range := (unmarshalRange j w.Range).1 }, (unmarshalRange j w.Range).2) := rfl

theorem unmarshalLocation_marshalLocation (l w : Location) (h : l.wf) :
    unmarshalLocation (marshalLocation l) w = (l, .ok) := by
  unfold Location.wf at h
  simp [unmarshalLocation, marshalLocation, unmarshalFields, Location_setField_uri,
    Location_setField_range, unmarshalRange_marshalRange, h]

/-! ### `DefinitionResponse` -/

theorem DefinitionResponse_UnmarshalJSON_location (r : DefinitionResponse) (loc : Location)
    (hu : loc.URI ≠ "") (hw : loc.wf) :
    DefinitionResponse.UnmarshalJSON r (marshalLocation loc) =
      (⟨some loc, none, none, false⟩, none) := by
  have e := unmarshalLocation_marshalLocation loc Location.zero hw
  unfold marshalLocation at e
  simp [DefinitionResponse.UnmarshalJSON, marshalLocation, e, Status.isOk, hu,
    DefinitionResponse.zero]

theorem DefinitionResponse_UnmarshalJSON_locationList (r : DefinitionResponse) (l : List Location)
    (hw : ∀ x ∈ l, x.wf) :
    DefinitionResponse.UnmarshalJSON r (marshalSlice marshalLocation (some l)) =
      (⟨none, some l, none, false⟩, none) := by
  have e := unmarshalSlice_marshalSlice "[]protocol.Location" Location.zero unmarshalLocation
    marshalLocation (some l)
    (fun l' hl x hx => unmarshalLocation_marshalLocation x Location.zero
      (hw x (by cases hl; exact hx)))
  unfold marshalSlice at e
  simp only at e
  have e0 : ∀ xs w, unmarshalLocation (.arr xs) w =
      (w, .saved (.unmarshalType "array" "protocol.Location")) := fun _ _ => rfl
  simp [DefinitionResponse.UnmarshalJSON, marshalSlice, e0, e, Status.isOk,
    DefinitionResponse.zero]

/-- Decoding an encoded `LocationLink` as a `Location` succeeds and sets nothing:
none of its keys selects a field of `Location`. -/
theorem unmarshalLocation_marshalLocationLink (l : LocationLink) :
    unmarshalLocation (marshalLocationLink l) Location.zero = (Location.zero, .ok) := by
  cases h : l.OriginSelectionRange with
  | none => simp [unmarshalLocation, marshalLocationLink, h, omitEmpty]; rfl
  | some r => simp [unmarshalLocation, marshalLocationLink, h, omitEmpty]; rfl

theorem DefinitionResponse_UnmarshalJSON_links (r : DefinitionResponse) (l : List LocationLink) :
    DefinitionResponse.UnmarshalJSON r (marshalSlice marshalLocationLink (some l)) =
      (⟨none, some (l.map (fun _ => Location.zero)), none, false⟩, none) := by
  have e := unmarshalElems_map_const Location.zero Location.zero unmarshalLocation
    marshalLocationLink l (fun x _ => unmarshalLocation_marshalLocationLink x)
  have e0 : ∀ xs w, unmarshalLocation (.arr xs) w =
      (w, .saved (.unmarshalType "array" "protocol.Location")) := fun _ _ => rfl
  simp [DefinitionResponse.UnmarshalJSON, marshalSlice, unmarshalSlice, e0, e, Status.isOk,
    DefinitionResponse.zero]

/-! ### `MarkupContentOrMarkedString` -/

theorem MarkupContent_setField_kind (j : Json) (w : MarkupContent) :
    MarkupContent.setField "kind" j w =
      ({ w with Kind := (unmarshalString j w.Kind).1 }, (unmarshalString j w.Kind).2) := rfl

theorem MarkupContent_setField_value (j : Json) (w : MarkupContent) :
    MarkupContent.setField "value" j w =
      ({ w with Value := (unmarshalString j w.Value).1 }, (unmarshalString j w.Value).2) := rfl

theorem MarkupContent_setField_language (j : Json) (w : MarkupContent) :
    MarkupContent.setField "language" j w = (w, .ok) := rfl

theorem MarkedString_setField_language (j : Json) (w : MarkedString) :
    MarkedString.setField "language" j w =
      ({ w with Language := (unmarshalString j w.Language).1 },
        (unmarshalString j w.Language).2) := rfl

theorem MarkedString_setField_value (j : Json) (w : MarkedString) :
    MarkedString.setField "value" j w =
      ({ w with Value := (unmarshalString j w.Value).1 }, (unmarshalString j w.Value).2) := rfl

theorem unmarshalMarkupContent_marshalMarkupContent (m w : MarkupContent) :
    unmarshalMarkupContent (marshalMarkupContent m) w = (m, .ok) := rfl

theorem unmarshalMarkedString_marshalMarkedString (m : MarkedString) :
    unmarshalMarkedString (marshalMarkedString m) MarkedString.zero = (m, .ok) := by
  by_cases h : m.Language = ""
  · cases m with
    | mk l v =>
      simp only at h
      subst h
      rfl
  · simp [unmarshalMarkedString, marshalMarkedString, omitEmpty, h, unmarshalFields,
      MarkedString_setField_language, MarkedString_setField_value]

/-- Decoding an encoded `MarkedString` as a `MarkupContent` succeeds with an empty kind. -/
theorem unmarshalMarkupContent_marshalMarkedString (m : MarkedString) :
    unmarshalMarkupContent (marshalMarkedString m) MarkupContent.zero = (⟨"", m.Value⟩, .ok) := by
  by_cases h : m.Language = ""
  · simp [unmarshalMarkupContent, marshalMarkedString, omitEmpty, h, unmarshalFields,
      MarkupContent_setField_value, MarkupContent.zero]
  · simp [unmarshalMarkupContent, marshalMarkedString, omitEmpty, h, unmarshalFields,
      MarkupContent_setField_value, MarkupContent_setField_language, MarkupContent.zero]

/-! ### Round trip of `Diagnostic` -/

theorem unmarshalCodeDescription_marshalCodeDescription (c w : Protocol.CodeDescription) :
    unmarshalCodeDescription (marshalCodeDescription c) w = (c, .ok) := rfl

theorem DiagnosticRelatedInformation_setField_location (j : Json)
    (w : DiagnosticRelatedInformation) :
    DiagnosticRelatedInformation.setField "location" j w =
      ({ w with Location := (unmarshalLocation j w.Location).1 },
        (unmarshalLocation j w.Location).2) := rfl

theorem DiagnosticRelatedInformation_setField_message (j : Json)
    (w : DiagnosticRelatedInformation) :
    DiagnosticRelatedInformation.setField "message" j w =
      ({ w with Message := (unmarshalString j w.Message).1 },
        (unmarshalString j w.Message).2) := rfl

theorem unmarshalDiagnosticRelatedInformation_marshal (x w : DiagnosticRelatedInformation)
    (h : x.Location.wf) :
    unmarshalDiagnosticRelatedInformation (marshalDiagnosticRelatedInformation x) w =
      (x, .ok) := by
  simp [unmarshalDiagnosticRelatedInformation, marshalDiagnosticRelatedInformation,
    unmarshalFields_cons, DiagnosticRelatedInformation_setField_location,
    DiagnosticRelatedInformation_setField_message, unmarshalLocation_marshalLocation, h]

theorem Diagnostic_setField_range (j : Json) (w : Diagnostic) :
    Diagnostic.setField "range" j w =
      ({ w with Range := (unmarshalRange j w.Range).1 }, (unmarshalRange j w.Range).2) := rfl

theorem Diagnostic_setField_severity (j : Json) (w : Diagnostic) :
    Diagnostic.setField "severity" j w =
      ({ w with Severity := (unmarshalInt j w.Severity).1 }, (unmarshalInt j w.Severity).2) := rfl

theorem Diagnostic_setField_code (j : Json) (w : Diagnostic) :
    Diagnostic.setField "code" j w =
      ({ w with Code := (unmarshalAny j w.Code).1 }, (unmarshalAny j w.Code).2) := rfl

theorem Diagnostic_setField_codeDescription (j : Json) (w : Diagnostic) :
    Diagnostic.setField "codeDescription" j w =
      ({ w with CodeDescription :=
          (unmarshalPtr CodeDescription.zero unmarshalCodeDescription j w.CodeDescription).1 },
        (unmarshalPtr CodeDescription.zero unmarshalCodeDescription j w.CodeDescription).2) := rfl

theorem Diagnostic_setField_source (j : Json) (w : Diagnostic) :
    Diagnostic.setField "source" j w =
      ({ w with Source := (unmarshalString j w.Source).1 }, (unmarshalString j w.Source).2) := rfl

theorem Diagnostic_setField_message (j : Json) (w : Diagnostic) :
    Diagnostic.setField "message" j w =
      ({ w with Message := (unmarshalString j w.Message).1 },
        (unmarshalString j w.Message).2) := rfl

theorem Diagnostic_setField_tags (j : Json) (w : Diagnostic) :
    Diagnostic.setField "tags" j w =
      ({ w with Tags := (unmarshalSlice "[]protocol.DiagnosticTag" 0 unmarshalInt j w.Tags).1 },
        (unmarshalSlice "[]protocol.DiagnosticTag" 0 unmarshalInt j w.Tags).2) := rfl

theorem Diagnostic_setField_relatedInformation (j : Json) (w : Diagnostic) :
    Diagnostic.setField "relatedInformation" j w =
      ({ w with RelatedInformation :=
          (unmarshalSlice "[]protocol.DiagnosticRelatedInformation"
            DiagnosticRelatedInformation.zero unmarshalDiagnosticRelatedInformation
            j w.RelatedInformation).1 },
        (unmarshalSlice "[]protocol.DiagnosticRelatedInformation"
            DiagnosticRelatedInformation.zero unmarshalDiagnosticRelatedInformation
            j w.RelatedInformation).2) := rfl

theorem Diagnostic_setField_data (j : Json) (w : Diagnostic) :
    Diagnostic.setField "data" j w =
      ({ w with Data := (unmarshalAny j w.Data).1 }, (unmarshalAny j w.Data).2) := rfl

theorem sliceEmpty_eq_true {α : Type} (s : Option (List α)) (h : sliceEmpty s = true)
    (h0 : s ≠ some []) : s = none := by
  cases s with
  | none => rfl
  | some l =>
    cases l with
    | nil => exact absurd rfl h0
    | cons a t => simp [sliceEmpty] at h

theorem unmarshalDiagnostic_marshalDiagnostic (d : Diagnostic) (hw : d.wf)
    (hs : d.noEmptySlice) :
    unmarshalDiagnostic (marshalDiagnostic d) Diagnostic.zero = (d, .ok) := by
  obtain ⟨hr, hsev, hcode, hdata, htags, hrel⟩ := hw
  obtain ⟨ht0, hr0⟩ := hs
  obtain ⟨range, sev, code, cd, src, msg, tags, rel, data⟩ := d
  simp only at hr hsev hcode hdata htags hrel ht0 hr0
  have t1 : unmarshalFields Diagnostic.setField [("range", marshalRange range)]
      Diagnostic.zero .ok = (⟨range, 0, .null, none, "", "", none, none, .null⟩, .ok) := by
    simp [unmarshalFields_cons, Diagnostic_setField_range, unmarshalRange_marshalRange, hr,
      Diagnostic.zero]
  have s2 : unmarshalFields Diagnostic.setField
      (omitEmpty (decide (sev = 0)) "severity" (marshalInt sev))
      ⟨range, 0, .null, none, "", "", none, none, .null⟩ .ok =
      (⟨range, sev, .null, none, "", "", none, none, .null⟩, .ok) := by
    apply unmarshalFields_omitEmpty
    · intro h
      rw [of_decide_eq_true h]
    · intro _
      simp [Diagnostic_setField_severity, unmarshalInt_marshalInt, hsev]
  have s3 : unmarshalFields Diagnostic.setField (omitEmpty (anyEmpty code) "code" code)
      ⟨range, sev, .null, none, "", "", none, none, .null⟩ .ok =
      (⟨range, sev, code, none, "", "", none, none, .null⟩, .ok) := by
    apply unmarshalFields_omitEmpty
    · intro h
      cases code <;> simp [anyEmpty] at h ⊢
    · intro _
      simp [Diagnostic_setField_code, unmarshalAny_of_representable, hcode]
  have s4 : unmarshalFields Diagnostic.setField
      (omitEmpty cd.isNone "codeDescription" (marshalPtr marshalCodeDescription cd))
      ⟨range, sev, code, none, "", "", none, none, .null⟩ .ok =
      (⟨range, sev, code, cd, "", "", none, none, .null⟩, .ok) := by
    apply unmarshalFields_omitEmpty
    · intro h
      cases cd <;> simp at h ⊢
    · intro h
      cases cd with
      | none => simp at h
      | some c => rfl
  have s5 : unmarshalFields Diagnostic.setField
      (omitEmpty (decide (src = "")) "source" (.str src))
      ⟨range, sev, code, cd, "", "", none, none, .null⟩ .ok =
      (⟨range, sev, code, cd, src, "", none, none, .null⟩, .ok) := by
    apply unmarshalFields_omitEmpty
    · intro h
      rw [of_decide_eq_true h]
    · intro _
      rfl
  have s6 : unmarshalFields Diagnostic.setField [("message", .str msg)]
      ⟨range, sev, code, cd, src, "", none, none, .null⟩ .ok =
      (⟨range, sev, code, cd, src, msg, none, none, .null⟩, .ok) := rfl
  have s7 : unmarshalFields Diagnostic.setField
      (omitEmpty (sliceEmpty tags) "tags" (marshalSlice marshalInt tags))
      ⟨range, sev, code, cd, src, msg, none, none, .null⟩ .ok =
      (⟨range, sev, code, cd, src, msg, tags, none, .null⟩, .ok) := by
    apply unmarshalFields_omitEmpty
    · intro h
      rw [sliceEmpty_eq_true tags h ht0]
    · intro _
      have e := unmarshalSlice_marshalSlice "[]protocol.DiagnosticTag" 0 unmarshalInt
        marshalInt tags (fun l hl x hx => unmarshalInt_marshalInt x 0
          (htags x (by rw [hl]; exact hx)))
      simp [Diagnostic_setField_tags, e]
  have s8 : unmarshalFields Diagnostic.setField
      (omitEmpty (sliceEmpty rel) "relatedInformation"
        (marshalSlice marshalDiagnosticRelatedInformation rel))
      ⟨range, sev, code, cd, src, msg, tags, none, .null⟩ .ok =
      (⟨range, sev, code, cd, src, msg, tags, rel, .null⟩, .ok) := by
    apply unmarshalFields_omitEmpty
    · intro h
      rw [sliceEmpty_eq_true rel h hr0]
    · intro _
      have e := unmarshalSlice_marshalSlice "[]protocol.DiagnosticRelatedInformation"
        DiagnosticRelatedInformation.zero unmarshalDiagnosticRelatedInformation
        marshalDiagnosticRelatedInformation rel
        (fun l hl x hx => unmarshalDiagnosticRelatedInformation_marshal x _
          (hrel x (by rw [hl]; exact hx)))
      simp [Diagnostic_setField_relatedInformation, e]
  have s9 : unmarshalFields Diagnostic.setField (omitEmpty (anyEmpty data) "data" data)
      ⟨range, sev, code, cd, src, msg, tags, rel, .null⟩ .ok =
      (⟨range, sev, code, cd, src, msg, tags, rel, data⟩, .ok) := by
    apply unmarshalFields_omitEmpty
    · intro h
      cases data <;> simp [anyEmpty] at h ⊢
    · intro _
      simp [Diagnostic_setField_data, unmarshalAny_of_representable, hdata]
  have t2 := (unmarshalFields_append Diagnostic.setField _ _ _ _ t1).trans s2
  have t3 := (unmarshalFields_append Diagnostic.setField _ _ _ _ t2).trans s3
  have t4 := (unmarshalFields_append Diagnostic.setField _ _ _ _ t3).trans s4
  have t5 := (unmarshalFields_append Diagnostic.setField _ _ _ _ t4).trans s5
  have t6 := (unmarshalFields_append Diagnostic.setField _ _ _ _ t5).trans s6
  have t7 := (unmarshalFields_append Diagnostic.setField _ _ _ _ t6).trans s7
  have t8 := (unmarshalFields_append Diagnostic.setField _ _ _ _ t7).trans s8
  have t9 := (unmarshalFields_append Diagnostic.setField _ _ _ _ t8).trans s9
  exact t9

/-! ### `DocumentDiagnosticReport` -/

theorem FullDocumentDiagnosticReport_setField_kind (j : Json) (w : FullDocumentDiagnosticReport) :
    FullDocumentDiagnosticReport.setField "kind" j w =
      ({ w with Kind := (unmarshalString j w.Kind).1 }, (unmarshalString j w.Kind).2) := rfl

theorem FullDocumentDiagnosticReport_setField_resultId (j : Json)
    (w : FullDocumentDiagnosticReport) :
    FullDocumentDiagnosticReport.setField "resultId" j w =
      ({ w with ResultID := (unmarshalString j w.ResultID).1 },
        (unmarshalString j w.ResultID).2) := rfl

theorem FullDocumentDiagnosticReport_setField_items (j : Json)
    (w : FullDocumentDiagnosticReport) :
    FullDocumentDiagnosticReport.setField "items" j w =
      ({ w with Items :=
          (unmarshalSlice "[]protocol.Diagnostic" Diagnostic.zero unmarshalDiagnostic j w.Items).1 },
        (unmarshalSlice "[]protocol.Diagnostic" Diagnostic.zero unmarshalDiagnostic
          j w.Items).2) := rfl

theorem unmarshalFull_marshalFull (f : FullDocumentDiagnosticReport)
    (h : ∀ d ∈ f.Items.getD [], d.wf ∧ d.noEmptySlice) :
    unmarshalFullDocumentDiagnosticReport (marshalFullDocumentDiagnosticReport f)
      FullDocumentDiagnosticReport.zero = (f, .ok) := by
  obtain ⟨kind, rid, items⟩ := f
  simp only at h
  have t1 : unmarshalFields FullDocumentDiagnosticReport.setField [("kind", .str kind)]
      FullDocumentDiagnosticReport.zero .ok = (⟨kind, "", none⟩, .ok) := rfl
  have s2 : unmarshalFields FullDocumentDiagnosticReport.setField
      (omitEmpty (decide (rid = "")) "resultId" (.str rid)) ⟨kind, "", none⟩ .ok =
      (⟨kind, rid, none⟩, .ok) := by
    apply unmarshalFields_omitEmpty
    · intro h
      rw [of_decide_eq_true h]
    · intro _
      rfl
  have s3 : unmarshalFields FullDocumentDiagnosticReport.setField
      [("items", marshalSlice marshalDiagnostic items)] ⟨kind, rid, none⟩ .ok =
      (⟨kind, rid, items⟩, .ok) := by
    have e := unmarshalSlice_marshalSlice "[]protocol.Diagnostic" Diagnostic.zero
      unmarshalDiagnostic marshalDiagnostic items
      (fun l hl x hx => unmarshalDiagnostic_marshalDiagnostic x
        (h x (by rw [hl]; exact hx)).1 (h x (by rw [hl]; exact hx)).2)
    simp [unmarshalFields_cons, FullDocumentDiagnosticReport_setField_items, e]
  have t2 := (unmarshalFields_append FullDocumentDiagnosticReport.setField _ _ _ _ t1).trans s2
  have t3 := (unmarshalFields_append FullDocumentDiagnosticReport.setField _ _ _ _ t2).trans s3
  exact t3

/-- The first pass of `DocumentDiagnosticReport.UnmarshalJSON` reads the kind of an
encoded full report. -/
theorem diagnosticKind_marshalFull (f : FullDocumentDiagnosticReport) :
    unmarshalStruct "struct { Kind string }" diagnosticKindSetField
      (marshalFullDocumentDiagnosticReport f) "" = (f.Kind, .ok) := by
  have t1 : unmarshalFields diagnosticKindSetField [("kind", .str f.Kind)] "" .ok =
      (f.Kind, .ok) := rfl
  have s2 : unmarshalFields diagnosticKindSetField
      (omitEmpty (decide (f.ResultID = "")) "resultId" (.str f.ResultID)) f.Kind .ok =
      (f.Kind, .ok) := by
    apply unmarshalFields_omitEmpty
    · intro _
      rfl
    · intro _
      rfl
  have s3 : unmarshalFields diagnosticKindSetField
      [("items", marshalSlice marshalDiagnostic f.Items)] f.Kind .ok = (f.Kind, .ok) := rfl
  have t2 := (unmarshalFields_append diagnosticKindSetField _ _ _ _ t1).trans s2
  have t3 := (unmarshalFields_append diagnosticKindSetField _ _ _ _ t2).trans s3
  exact t3

/-! ### Keys and fields -/

theorem matchField_mem (names : List String) (key n : String)
    (h : matchField names key = some n) : n ∈ names := by
  unfold matchField at h
  split at h
  · rename_i hk
    cases h
    exact hk
  · exact List.mem_of_find?_eq_some h

/-- A state read off the struct is carried along: when every member that is decoded
without error into the struct has the same effect on the state, decoding the
members into the state alone gives the state of the decoded struct. -/
theorem unmarshalFields_project {α β : Type} (f : String → Json → α → α × Status)
    (g : String → Json → β → β × Status) (π : α → β)
    (hstep : ∀ k j v v1, f k j v = (v1, .ok) → g k j (π v) = (π v1, .ok)) :
    ∀ (l : List (String × Json)) (v v' : α), unmarshalFields f l v .ok = (v', .ok) →
      unmarshalFields g l (π v) .ok = (π v', .ok) := by
  intro l
  induction l with
  | nil =>
    intro v v' h
    simp only [unmarshalFields_nil, Prod.mk.injEq, and_true] at h
    simp [h]
  | cons kj t ih =>
    intro v v' h
    obtain ⟨k, j⟩ := kj
    rw [unmarshalFields_cons] at h ⊢
    rcases hf : f k j v with ⟨v1, s1⟩
    rw [hf] at h
    cases s1 with
    | ok =>
      rw [hstep k j v v1 hf]
      simp only [Status_ok_merge] at h ⊢
      exact ih v1 v' h
    | saved e =>
      simp only [Status_ok_merge] at h
      have := unmarshalFields_status_ne_ok f t v1 (.saved e) (by simp)
      rw [h] at this
      exact absurd rfl this
    | abort e => simp at h

/-- Members none of which is a member `kind` leave the kind read by the first pass of
`DocumentDiagnosticReport.UnmarshalJSON` as it is. -/
theorem unmarshalFields_noKindMember (kvs : List (String × Json)) (h : noKindMember kvs) :
    ∀ (s : String) (st : Status),
      unmarshalFields diagnosticKindSetField kvs s st = (s, st) := by
  induction kvs with
  | nil => intro s st; rfl
  | cons kj t ih =>
    intro s st
    obtain ⟨k, j⟩ := kj
    have hk : matchField ["kind"] k = none := h (k, j) (List.mem_cons_self _ _)
    have ht : noKindMember t := fun kv hkv => h kv (List.mem_cons_of_mem _ hkv)
    have e : diagnosticKindSetField k j s = (s, .ok) := by
      simp [diagnosticKindSetField, hk]
    rw [unmarshalFields_cons, e]
    simp only [Status_merge_ok]
    exact ih ht s st

theorem diagnosticKindSetField_kind (j : Json) (s : String) :
    diagnosticKindSetField "kind" j s = unmarshalString j s := rfl

/-- The first pass on an object whose only member `kind` is the string `k`. -/
theorem diagnosticKind_of_member (pre post : List (String × Json)) (k : String)
    (hpre : noKindMember pre) (hpost : noKindMember post) :
    unmarshalStruct "struct { Kind string }" diagnosticKindSetField
      (.obj (pre ++ ("kind", .str k) :: post)) "" = (k, .ok) := by
  rw [unmarshalStruct_obj,
    unmarshalFields_append _ _ _ _ _ (unmarshalFields_noKindMember pre hpre "" .ok),
    unmarshalFields_cons, diagnosticKindSetField_kind, unmarshalString_str]
  simp only [Status_merge_ok]
  exact unmarshalFields_noKindMember post hpost k .ok

/-- The first pass on an object without member `kind`. -/
theorem diagnosticKind_of_absent (kvs : List (String × Json)) (h : noKindMember kvs) :
    unmarshalStruct "struct { Kind string }" diagnosticKindSetField (.obj kvs) "" = ("", .ok) := by
  rw [unmarshalStruct_obj]
  exact unmarshalFields_noKindMember kvs h "" .ok

/-- A key is the member `kind` for the first pass exactly when it selects the field
`Kind` of a full report. -/
theorem matchField_kind_full (k : String) :
    (matchField ["kind"] k = some "kind" ∧
        matchField ["kind", "resultId", "items"] k = some "kind") ∨
    (matchField ["kind"] k = none ∧
        matchField ["kind", "resultId", "items"] k ≠ some "kind") := by
  by_cases h1 : k = "kind"
  · left
    subst h1
    exact ⟨rfl, rfl⟩
  · by_cases h2 : k = "resultId"
    · right
      subst h2
      exact ⟨by decide, by decide⟩
    · by_cases h3 : k = "items"
      · right
        subst h3
        exact ⟨by decide, by decide⟩
      · by_cases hf : (foldName "kind" == foldName k) = true
        · left
          simp [matchField, h1, h2, h3, hf, List.find?]
        · right
          refine ⟨by simp [matchField, h1, hf, List.find?], ?_⟩
          intro h
          simp only [matchField, List.mem_cons, h1, h2, h3, List.mem_singleton, or_self,
            List.not_mem_nil, if_false, List.find?, hf] at h
          split at h
          · simp at h
          · split at h <;> simp at h

/-- The same for an unchanged report. -/
theorem matchField_kind_unchanged (k : String) :
    (matchField ["kind"] k = some "kind" ∧ matchField ["kind", "resultId"] k = some "kind") ∨
    (matchField ["kind"] k = none ∧ matchField ["kind", "resultId"] k ≠ some "kind") := by
  by_cases h1 : k = "kind"
  · left
    subst h1
    exact ⟨rfl, rfl⟩
  · by_cases h2 : k = "resultId"
    · right
      subst h2
      exact ⟨by decide, by decide⟩
    · by_cases hf : (foldName "kind" == foldName k) = true
      · left
        simp [matchField, h1, h2, hf, List.find?]
      · right
        refine ⟨by simp [matchField, h1, hf, List.find?], ?_⟩
        intro h
        simp only [matchField, List.mem_cons, h1, h2, List.mem_singleton, or_self,
          List.not_mem_nil, if_false, List.find?, hf] at h
        split at h <;> simp at h

/-- A member decoded without error into a full report has the same effect on the
kind as in the first pass. -/
theorem FullDocumentDiagnosticReport_setField_kindStep (k : String) (j : Json)
    (v v1 : FullDocumentDiagnosticReport)
    (h : FullDocumentDiagnosticReport.setField k j v = (v1, .ok)) :
    diagnosticKindSetField k j v.Kind = (v1.Kind, .ok) := by
  unfold FullDocumentDiagnosticReport.setField at h
  unfold diagnosticKindSetField
  rcases matchField_kind_full k with ⟨a, b⟩ | ⟨a, b⟩
  · rw [a]
    rw [b] at h
    simp only [Prod.mk.injEq] at h
    obtain ⟨h1, h2⟩ := h
    rw [← h1]
    exact Prod.ext rfl h2
  · rw [a]
    rcases hm : matchField ["kind", "resultId", "items"] k with _ | n
    · rw [hm] at h
      simp only [Prod.mk.injEq] at h
      rw [← h.1]
    · have hn := matchField_mem _ _ _ hm
      rw [hm] at h b
      simp only [List.mem_cons, List.mem_singleton, List.not_mem_nil, or_false] at hn
      rcases hn with rfl | rfl | rfl
      · exact absurd rfl b
      · simp only [Prod.mk.injEq] at h
        rw [← h.1]
      · simp only [Prod.mk.injEq] at h
        rw [← h.1]

theorem UnchangedDocumentDiagnosticReport_setField_kindStep (k : String) (j : Json)
    (v v1 : UnchangedDocumentDiagnosticReport)
    (h : UnchangedDocumentDiagnosticReport.setField k j v = (v1, .ok)) :
    diagnosticKindSetField k j v.Kind = (v1.Kind, .ok) := by
  unfold UnchangedDocumentDiagnosticReport.setField at h
  unfold diagnosticKindSetField
  rcases matchField_kind_unchanged k with ⟨a, b⟩ | ⟨a, b⟩
  · rw [a]
    rw [b] at h
    simp only [Prod.mk.injEq] at h
    obtain ⟨h1, h2⟩ := h
    rw [← h1]
    exact Prod.ext rfl h2
  · rw [a]
    rcases hm : matchField ["kind", "resultId"] k with _ | n
    · rw [hm] at h
      simp only [Prod.mk.injEq] at h
      rw [← h.1]
    · have hn := matchField_mem _ _ _ hm
      rw [hm] at h b
      simp only [List.mem_cons, List.mem_singleton, List.not_mem_nil, or_false] at hn
      rcases hn with rfl | rfl
      · exact absurd rfl b
      · simp only [Prod.mk.injEq] at h
        rw [← h.1]

/-- The two passes agree: when the second pass decodes a value without error into a
full report, the first pass reads the kind of that report without error. -/
theorem diagnosticKind_of_full (data : Json) (full : FullDocumentDiagnosticReport)
    (h : unmarshalFullDocumentDiagnosticReport data FullDocumentDiagnosticReport.zero =
      (full, .ok)) :
    unmarshalStruct "struct { Kind string }" diagnosticKindSetField data "" =
      (full.Kind, .ok) := by
  cases data with
  | obj kvs =>
    exact unmarshalFields_project FullDocumentDiagnosticReport.setField diagnosticKindSetField
      (fun v => v.Kind) FullDocumentDiagnosticReport_setField_kindStep kvs
      FullDocumentDiagnosticReport.zero full h
  | null =>
    have e : full = FullDocumentDiagnosticReport.zero := by
      have := congrArg Prod.fst h
      exact this.symm
    rw [e]
    rfl
  | bool b => exact absurd (congrArg Prod.snd h) (by simp [unmarshalFullDocumentDiagnosticReport, unmarshalStruct])
  | num n => exact absurd (congrArg Prod.snd h) (by simp [unmarshalFullDocumentDiagnosticReport, unmarshalStruct])
  | str s => exact absurd (congrArg Prod.snd h) (by simp [unmarshalFullDocumentDiagnosticReport, unmarshalStruct])
  | arr xs => exact absurd (congrArg Prod.snd h) (by simp [unmarshalFullDocumentDiagnosticReport, unmarshalStruct])

theorem diagnosticKind_of_unchanged (data : Json) (u : UnchangedDocumentDiagnosticReport)
    (h : unmarshalUnchangedDocumentDiagnosticReport data UnchangedDocumentDiagnosticReport.zero =
      (u, .ok)) :
    unmarshalStruct "struct { Kind string }" diagnosticKindSetField data "" = (u.Kind, .ok) := by
  cases data with
  | obj kvs =>
    exact unmarshalFields_project UnchangedDocumentDiagnosticReport.setField
      diagnosticKindSetField (fun v => v.Kind) UnchangedDocumentDiagnosticReport_setField_kindStep
      kvs UnchangedDocumentDiagnosticReport.zero u h
  | null =>
    have e : u = UnchangedDocumentDiagnosticReport.zero := by
      have := congrArg Prod.fst h
      exact this.symm
    rw [e]
    rfl
  | bool b => exact absurd (congrArg Prod.snd h) (by simp [unmarshalUnchangedDocumentDiagnosticReport, unmarshalStruct])
  | num n => exact absurd (congrArg Prod.snd h) (by simp [unmarshalUnchangedDocumentDiagnosticReport, unmarshalStruct])
  | str s => exact absurd (congrArg Prod.snd h) (by simp [unmarshalUnchangedDocumentDiagnosticReport, unmarshalStruct])
  | arr xs => exact absurd (congrArg Prod.snd h) (by simp [unmarshalUnchangedDocumentDiagnosticReport, unmarshalStruct])

theorem DocumentDiagnosticReport_UnmarshalJSON_full (r : DocumentDiagnosticReport) (data : Json)
    (full : FullDocumentDiagnosticReport)
    (h : unmarshalFullDocumentDiagnosticReport data FullDocumentDiagnosticReport.zero =
      (full, .ok))
    (hk : full.Kind = "full") :
    DocumentDiagnosticReport.UnmarshalJSON r data = (⟨some full, none⟩, none) := by
  have e := diagnosticKind_of_full data full h
  rw [hk] at e
  simp [DocumentDiagnosticReport.UnmarshalJSON, e, h, Status.isOk,
    DocumentDiagnosticReport.zero]

theorem DocumentDiagnosticReport_UnmarshalJSON_unchanged (r : DocumentDiagnosticReport)
    (data : Json) (u : UnchangedDocumentDiagnosticReport)
    (h : unmarshalUnchangedDocumentDiagnosticReport data UnchangedDocumentDiagnosticReport.zero =
      (u, .ok))
    (hk : u.Kind = "unchanged") :
    DocumentDiagnosticReport.UnmarshalJSON r data = (⟨none, some u⟩, none) := by
  have e := diagnosticKind_of_unchanged data u h
  rw [hk] at e
  simp [DocumentDiagnosticReport.UnmarshalJSON, e, h, Status.isOk,
    DocumentDiagnosticReport.zero]

theorem DefinitionResponse_Null_iff (dr : DefinitionResponse) (data : Json) :
    (DefinitionResponse.UnmarshalJSON dr data).1.Null = true ↔ data = .null := by
  cases data <;>
    simp only [DefinitionResponse.UnmarshalJSON, DefinitionResponse.zero, reduceCtorEq,
      iff_false, iff_true] <;>
    (try split_ifs) <;> simp

theorem HoverResult_Null_iff (h : HoverResult) (data : Json) :
    (HoverResult.UnmarshalJSON h data).1.Null = true ↔ data = .null := by
  cases data <;>
    simp only [HoverResult.UnmarshalJSON, HoverResult.zero, reduceCtorEq,
      iff_false, iff_true] <;>
    (try split_ifs) <;> simp

theorem CompletionResponse_Null_or_error (cr : CompletionResponse) (data : Json) :
    (CompletionResponse.UnmarshalJSON cr data).1.Null = true ∨
    CompletionResponse.UnmarshalJSON cr data = (cr, some (.message
      "invalid CompletionResponse: not a CompletionList, []CompletionItem or null")) := by
  cases data <;> simp only [CompletionResponse.UnmarshalJSON] <;> (try split_ifs) <;> simp

/-! ### `CompletionResponse` -/

/-- Members that set nothing are skipped. -/
theorem unmarshalFields_skip {α : Type} (f : String → Json → α → α × Status)
    (l : List (String × Json)) (h : ∀ kv ∈ l, ∀ v, f kv.1 kv.2 v = (v, .ok)) :
    ∀ (v : α) (st : Status), unmarshalFields f l v st = (v, st) := by
  induction l with
  | nil => intro v st; rfl
  | cons kj t ih =>
    intro v st
    obtain ⟨k, j⟩ := kj
    rw [unmarshalFields_cons, h (k, j) (List.mem_cons_self _ _) v]
    simp only [Status_merge_ok]
    exact ih (fun kv hkv => h kv (List.mem_cons_of_mem _ hkv)) v st

/-- A member that is not `items` bound to an array leaves a nil `Items` nil. -/
theorem CompletionList_setField_Items_none (k : String) (j : Json) (v : CompletionList)
    (hv : v.Items = none)
    (h : (matchField ["isIncomplete", "items"] k == some "items" && j.isArray) = false) :
    (CompletionList.setField k j v).1.Items = none := by
  unfold CompletionList.setField
  rcases hm : matchField ["isIncomplete", "items"] k with _ | n
  · exact hv
  · have hn := matchField_mem _ _ _ hm
    simp only [List.mem_cons, List.mem_singleton, List.not_mem_nil, or_false] at hn
    rcases hn with rfl | rfl
    · exact hv
    · rw [hm] at h
      simp only [beq_self_eq_true, Bool.true_and] at h
      cases j <;> simp [Json.isArray, unmarshalSlice, hv] at h ⊢

theorem CompletionList_unmarshalFields_Items_none :
    ∀ (l : List (String × Json)) (v : CompletionList) (st : Status), v.Items = none →
      (∀ kv ∈ l,
        (matchField ["isIncomplete", "items"] kv.1 == some "items" && kv.2.isArray) = false) →
      (unmarshalFields CompletionList.setField l v st).1.Items = none := by
  intro l
  induction l with
  | nil => intro v st hv _; exact hv
  | cons kj t ih =>
    intro v st hv h
    obtain ⟨k, j⟩ := kj
    have h1 := CompletionList_setField_Items_none k j v hv (h (k, j) (List.mem_cons_self _ _))
    rw [unmarshalFields_cons]
    rcases hf : CompletionList.setField k j v with ⟨v1, s1⟩
    rw [hf] at h1
    cases s1 with
    | abort e => exact h1
    | ok => exact ih v1 _ h1 (fun kv hkv => h kv (List.mem_cons_of_mem _ hkv))
    | saved e => exact ih v1 _ h1 (fun kv hkv => h kv (List.mem_cons_of_mem _ hkv))

/-- An array decodes to a non-nil slice. -/
theorem unmarshalSlice_arr_isSome {α : Type} (t : String) (zero : α)
    (dec : Json → α → α × Status) (xs : List Json) (old s : Option (List α)) (st : Status)
    (h : unmarshalSlice t zero dec (.arr xs) old = (s, st)) : s.isSome = true := by
  simp only [unmarshalSlice, Prod.mk.injEq] at h
  rw [← h.1]
  rfl

theorem MarkupContentOrMarkedString_UnmarshalJSON_markup (data : Json) (m : MarkupContent)
    (h : unmarshalMarkupContent data MarkupContent.zero = (m, .ok)) (hk : m.Kind ≠ "") :
    MarkupContentOrMarkedString.UnmarshalJSON MarkupContentOrMarkedString.zero data =
      (⟨some m, none, none⟩, none) := by
  simp [MarkupContentOrMarkedString.UnmarshalJSON, h, Status.isOk, hk,
    MarkupContentOrMarkedString.zero]

theorem MarkupContentOrMarkedString_UnmarshalJSON_single (data : Json) (v : String)
    (m : MarkedString)
    (h0 : unmarshalMarkupContent data MarkupContent.zero = (⟨"", v⟩, .ok))
    (h : unmarshalMarkedString data MarkedString.zero = (m, .ok))
    (hm : m.Language ≠ "" ∨ m.Value ≠ "") :
    MarkupContentOrMarkedString.UnmarshalJSON MarkupContentOrMarkedString.zero data =
      (⟨none, some m, none⟩, none) := by
  simp [MarkupContentOrMarkedString.UnmarshalJSON, h0, h, Status.isOk, hm,
    MarkupContentOrMarkedString.zero]

theorem MarkupContentOrMarkedString_UnmarshalJSON_array (xs : List Json)
    (ms : Option (List MarkedString))
    (h : unmarshalSlice "[]protocol.MarkedString" MarkedString.zero unmarshalMarkedString
      (.arr xs) none = (ms, .ok)) :
    MarkupContentOrMarkedString.UnmarshalJSON MarkupContentOrMarkedString.zero (.arr xs) =
      (⟨none, none, ms⟩, none) := by
  have e1 : ∀ w, unmarshalMarkupContent (.arr xs) w =
      (w, .saved (.unmarshalType "array" "protocol.MarkupContent")) := fun _ => rfl
  have e2 : ∀ w, unmarshalMarkedString (.arr xs) w =
      (w, .saved (.unmarshalType "array" "protocol.MarkedString")) := fun _ => rfl
  simp [MarkupContentOrMarkedString.UnmarshalJSON, e1, e2, h, Status.isOk,
    MarkupContentOrMarkedString.zero]

/-! ### Populated states after a decode -/

/-- A slice decode without error of a value other than `null` gives a non-nil slice. -/
theorem unmarshalSlice_isSome {α : Type} (goType : String) (zero : α)
    (dec : Json → α → α × Status) (data : Json) (v : Option (List α))
    (h : (unmarshalSlice goType zero dec data v).2.isOk = true) :
    data = .null ∨ (unmarshalSlice goType zero dec data v).1.isSome = true := by
  cases data <;> simp_all [unmarshalSlice, Status.isOk]

/-- A successful `DefinitionResponse.UnmarshalJSON` populates exactly one state. -/
theorem DefinitionResponse_populated (dr : DefinitionResponse) (data : Json) :
    (DefinitionResponse.UnmarshalJSON dr data).2.isSome = true ∨
      (DefinitionResponse.UnmarshalJSON dr data).1.populated = 1 := by
  by_cases hn : data = .null
  · subst hn
    exact Or.inr rfl
  · have e : DefinitionResponse.UnmarshalJSON dr data =
        (let loc := unmarshalLocation data Location.zero
         if loc.2.isOk = true ∧ loc.1.URI ≠ "" then
           ({ DefinitionResponse.zero with Location := some loc.1 }, none)
         else
           let locList :=
             unmarshalSlice "[]protocol.Location" Location.zero unmarshalLocation data none
           if locList.2.isOk then
             ({ DefinitionResponse.zero with LocationList := locList.1 }, none)
           else
             let linkList := unmarshalSlice "[]protocol.LocationLink" LocationLink.zero
               unmarshalLocationLink data none
             if linkList.2.isOk then
               ({ DefinitionResponse.zero with LocationLinks := linkList.1 }, none)
             else
               (DefinitionResponse.zero, some (.message
                 "invalid definition response: not null, Location, []Location, or []LocationLink"))) := by
      cases data <;> first | exact absurd rfl hn | rfl
    rw [e]
    simp only
    split_ifs with h1 h2 h3
    · exact Or.inr rfl
    · right
      rcases unmarshalSlice_isSome _ _ _ _ _ h2 with h | h
      · exact absurd h hn
      · simp [DefinitionResponse.populated, DefinitionResponse.zero, h]
    · right
      rcases unmarshalSlice_isSome _ _ _ _ _ h3 with h | h
      · exact absurd h hn
      · simp [DefinitionResponse.populated, DefinitionResponse.zero, h]
    · exact Or.inl rfl

/-- A successful `DocumentDiagnosticReport.UnmarshalJSON` populates exactly one
variant. -/
theorem DocumentDiagnosticReport_populated (r : DocumentDiagnosticReport) (data : Json) :
    (DocumentDiagnosticReport.UnmarshalJSON r data).2.isSome = true ∨
      (DocumentDiagnosticReport.UnmarshalJSON r data).1.populated = 1 := by
  unfold DocumentDiagnosticReport.UnmarshalJSON
  simp only
  split_ifs with h1 h2 h3 h4 h5
  · left
    revert h1
    cases (unmarshalStruct "struct { Kind string }" diagnosticKindSetField data "").2 <;>
      simp [Status.isOk, Status.err]
  · left
    revert h3
    cases (unmarshalFullDocumentDiagnosticReport data FullDocumentDiagnosticReport.zero).2 <;>
      simp [Status.isOk, Status.err]
  · exact Or.inr rfl
  · left
    revert h5
    cases (unmarshalUnchangedDocumentDiagnosticReport data
      UnchangedDocumentDiagnosticReport.zero).2 <;> simp [Status.isOk, Status.err]
  · exact Or.inr rfl
  · exact Or.inl rfl

/-- A successful `CompletionResponse.UnmarshalJSON` of a value other than `null` into
the empty receiver populates two states: a variant and the null marker. -/
theorem CompletionResponse_populated (data : Json) :
    (CompletionResponse.UnmarshalJSON CompletionResponse.zero data).2.isSome = true ∨
      data = .null ∨
      (CompletionResponse.UnmarshalJSON CompletionResponse.zero data).1.populated = 2 := by
  by_cases hn : data = .null
  · exact Or.inr (Or.inl hn)
  · have e : CompletionResponse.UnmarshalJSON CompletionResponse.zero data =
        (let cr := CompletionResponse.zero
         let list := unmarshalCompletionList data CompletionList.zero
         if list.2.isOk = true ∧ list.1.Items.isSome = true then
           ({ cr with Null := true, List := some list.1, Items := none }, none)
         else
           let items := unmarshalSlice "[]protocol.CompletionItem" CompletionItem.zero
             unmarshalCompletionItem data none
           if items.2.isOk then
             ({ cr with Null := true, List := none, Items := items.1 }, none)
           else
             (cr, some (.message
               "invalid CompletionResponse: not a CompletionList, []CompletionItem or null"))) := by
      cases data <;> first | exact absurd rfl hn | rfl
    rw [e]
    simp only
    split_ifs with h1 h2
    · exact Or.inr (Or.inr rfl)
    · right; right
      rcases unmarshalSlice_isSome _ _ _ _ _ h2 with h | h
      · exact absurd h hn
      · simp [CompletionResponse.populated, h]
    · exact Or.inl rfl

/-- A successful `MarkupContentOrMarkedString.UnmarshalJSON` of a value other than
`null` into the empty receiver populates exactly one variant. -/
theorem MarkupContentOrMarkedString_populated (data : Json) :
    (MarkupContentOrMarkedString.UnmarshalJSON MarkupContentOrMarkedString.zero data).2.isSome
        = true ∨
      data = .null ∨
      (MarkupContentOrMarkedString.UnmarshalJSON
        MarkupContentOrMarkedString.zero data).1.populated = 1 := by
  by_cases hn : data = .null
  · exact Or.inr (Or.inl hn)
  · unfold MarkupContentOrMarkedString.UnmarshalJSON
    simp only
    split_ifs with h1 h2 h3
    · exact Or.inr (Or.inr rfl)
    · exact Or.inr (Or.inr rfl)
    · right; right
      rcases unmarshalSlice_isSome _ _ _ _ _ h3 with h | h
      · exact absurd h hn
      · simp [MarkupContentOrMarkedString.populated, MarkupContentOrMarkedString.zero, h]
    · exact Or.inl rfl

/-- The number of populated states after `HoverResult.UnmarshalJSON` of a value other
than `null`: none when the value decodes as a `Hover`, one when it does not. -/
theorem HoverResult_populated (h : HoverResult) (data : Json) :
    data = .null ∨
      (HoverResult.UnmarshalJSON h data).1.populated =
        if (unmarshalHover data Hover.zero).2.isOk then 0 else 1 := by
  by_cases hn : data = .null
  · exact Or.inl hn
  · right
    have e : HoverResult.UnmarshalJSON h data =
        (let hover := unmarshalHover data Hover.zero
         if hover.2.isOk then (HoverResult.zero, hover.2.err)
         else ({ HoverResult.zero with Hover := some hover.1 }, none)) := by
      cases data <;> first | exact absurd rfl hn | rfl
    rw [e]
    simp only
    split_ifs <;> rfl

/-- `HoverResult.UnmarshalJSON` never returns an error. -/
theorem HoverResult_UnmarshalJSON_no_error (h : HoverResult) (data : Json) :
    (HoverResult.UnmarshalJSON h data).2 = none := by
  cases data <;> first
    | rfl
    | (simp only [HoverResult.UnmarshalJSON]
       split_ifs with hk
       · revert hk
         generalize (unmarshalHover _ Hover.zero).2 = st
         cases st <;> simp [Status.isOk, Status.err]
       · rfl)

/-- An error of `CompletionResponse.UnmarshalJSON` leaves the receiver as it was. -/
theorem CompletionResponse_error_keeps_receiver (cr : CompletionResponse) (data : Json) :
    (CompletionResponse.UnmarshalJSON cr data).2 = none ∨
      (CompletionResponse.UnmarshalJSON cr data).1 = cr := by
  cases data <;> first
    | exact Or.inl rfl
    | (simp only [CompletionResponse.UnmarshalJSON]
       split_ifs
       · exact Or.inl rfl
       · exact Or.inl rfl
       · exact Or.inr rfl)

/-- Two successful decodes of one input by `CompletionResponse.UnmarshalJSON` give the
same result, whatever the receivers held. -/
theorem CompletionResponse_receiver_independent (r1 r2 : CompletionResponse) (data : Json) :
    (CompletionResponse.UnmarshalJSON r1 data).2.isSome = true ∨
      CompletionResponse.UnmarshalJSON r1 data = CompletionResponse.UnmarshalJSON r2 data := by
  cases data <;> first
    | exact Or.inr rfl
    | (simp only [CompletionResponse.UnmarshalJSON]
       split_ifs
       · exact Or.inr rfl
       · exact Or.inr rfl
       · exact Or.inl rfl)

/-- An error of `DefinitionResponse.UnmarshalJSON` leaves the empty value. -/
theorem DefinitionResponse_error_leaves_zero (dr : DefinitionResponse) (data : Json) :
    (DefinitionResponse.UnmarshalJSON dr data).2 = none ∨
      (DefinitionResponse.UnmarshalJSON dr data).1 = DefinitionResponse.zero := by
  cases data <;> first
    | exact Or.inl rfl
    | (simp only [DefinitionResponse.UnmarshalJSON]
       split_ifs
       · exact Or.inl rfl
       · exact Or.inl rfl
       · exact Or.inl rfl
       · exact Or.inr rfl)

/-- An error of `DocumentDiagnosticReport.UnmarshalJSON` leaves the empty value. -/
theorem DocumentDiagnosticReport_error_leaves_zero (r : DocumentDiagnosticReport)
    (data : Json) :
    (DocumentDiagnosticReport.UnmarshalJSON r data).2 = none ∨
      (DocumentDiagnosticReport.UnmarshalJSON r data).1 = DocumentDiagnosticReport.zero := by
  unfold DocumentDiagnosticReport.UnmarshalJSON
  simp only
  split_ifs
  · exact Or.inr rfl
  · exact Or.inr rfl
  · exact Or.inl rfl
  · exact Or.inr rfl
  · exact Or.inl rfl
  · exact Or.inr rfl

/-- An error of `MarkupContentOrMarkedString.UnmarshalJSON` leaves the receiver as it
was. -/
theorem MarkupContentOrMarkedString_error_keeps_receiver (m : MarkupContentOrMarkedString)
    (data : Json) :
    (MarkupContentOrMarkedString.UnmarshalJSON m data).2 = none ∨
      (MarkupContentOrMarkedString.UnmarshalJSON m data).1 = m := by
  unfold MarkupContentOrMarkedString.UnmarshalJSON
  simp only
  split_ifs
  · exact Or.inl rfl
  · exact Or.inl rfl
  · exact Or.inl rfl
  · exact Or.inr rfl

/-- An error of `ProgressToken.UnmarshalJSON` leaves the zero token. -/
theorem ProgressToken_error_leaves_zero (v : ProgressToken) (data : Json) :
    (ProgressToken.UnmarshalJSON v data).2 = none ∨
      (ProgressToken.UnmarshalJSON v data).1 = ProgressToken.zero := by
  cases data with
  | null => exact Or.inl rfl
  | bool b => exact Or.inr rfl
  | str s => exact Or.inl rfl
  | arr xs => exact Or.inr rfl
  | obj kvs => exact Or.inr rfl
  | num lit =>
    by_cases hr : lit.isInteger = true ∧ -(2 ^ 31) ≤ lit.toInt ∧ lit.toInt ≤ 2 ^ 31 - 1
    · left
      have e : unmarshalInt32 (.num lit) 0 = (lit.toInt, .ok) := by
        unfold unmarshalInt32 unmarshalSigned
        simp only
        rw [if_pos hr]
      simp [ProgressToken.UnmarshalJSON, ProgressToken.zero, e, Status.isOk]
    · right
      have e : unmarshalInt32 (.num lit) 0 =
          (0, .saved (.unmarshalType "number" "int32")) := by
        unfold unmarshalInt32 unmarshalSigned
        simp only
        rw [if_neg hr]
      simp [ProgressToken.UnmarshalJSON, ProgressToken.zero, e, Status.isOk, unmarshalString]

/-! ### Decoding of byte sequences and the decoded kind -/

/-- A status that passes the test `err == nil` is `ok`. -/
theorem Status_eq_ok_of_isOk (s : Status) (h : s.isOk = true) : s = .ok := by
  cases s <;> simp_all [Status.isOk]

/-- On the text of a value written without blanks, the decoder of byte sequences is
`HoverResult.UnmarshalJSON`. -/
theorem HoverResult_UnmarshalJSONBytes_text (h : HoverResult) (j : Json) :
    HoverResult.UnmarshalJSONBytes h (.text false j) = HoverResult.UnmarshalJSON h j := by
  cases j <;> rfl

/-- The decoder of byte sequences never returns an error. -/
theorem HoverResult_UnmarshalJSONBytes_no_error (h : HoverResult) (data : Input) :
    (HoverResult.UnmarshalJSONBytes h data).2 = none := by
  unfold HoverResult.UnmarshalJSONBytes
  simp only
  split_ifs with h1 h2
  · rfl
  · rw [Status_eq_ok_of_isOk _ h2]
    rfl
  · rfl

/-! ### Round trips of values whose strings are Unicode strings -/

/-- Round trip of a `MarkupContentOrMarkedString` whose strings are Unicode strings: a
value that holds exactly a markup with a non-empty kind, or exactly a marked string
whose language or value is non-empty, or exactly a non-empty array of marked strings,
is encoded without error and decoded back from its encoding. -/
theorem MarkupContentOrMarkedString_roundtrip_strings (v : MarkupContentOrMarkedString)
    (h : (∃ m : MarkupContent, m.Kind ≠ "" ∧ v = ⟨some m, none, none⟩) ∨
      (∃ m : MarkedString, (m.Language ≠ "" ∨ m.Value ≠ "") ∧ v = ⟨none, some m, none⟩) ∨
      (∃ l : List MarkedString, l ≠ [] ∧ v = ⟨none, none, some l⟩)) :
    v.MarshalJSON.map (MarkupContentOrMarkedString.UnmarshalJSON MarkupContentOrMarkedString.zero) =
      .ok (v, none) := by
  rcases h with ⟨m, hk, rfl⟩ | ⟨m, hm, rfl⟩ | ⟨l, hl, rfl⟩
  · have e := unmarshalMarkupContent_marshalMarkupContent m MarkupContent.zero
    simp [MarkupContentOrMarkedString.MarshalJSON, marshalPtr, Except.map,
      MarkupContentOrMarkedString.UnmarshalJSON, e, Status.isOk, hk,
      MarkupContentOrMarkedString.zero]
  · have e1 := unmarshalMarkupContent_marshalMarkedString m
    have e2 := unmarshalMarkedString_marshalMarkedString m
    simp [MarkupContentOrMarkedString.MarshalJSON, marshalPtr, Except.map,
      MarkupContentOrMarkedString.UnmarshalJSON, e1, e2, Status.isOk, hm,
      MarkupContentOrMarkedString.zero]
  · have e := unmarshalSlice_marshalSlice "[]protocol.MarkedString" MarkedString.zero
      unmarshalMarkedString marshalMarkedString (some l)
      (fun _ _ x _ => unmarshalMarkedString_marshalMarkedString x)
    have e1 : ∀ xs w, unmarshalMarkupContent (.arr xs) w =
        (w, .saved (.unmarshalType "array" "protocol.MarkupContent")) := fun _ _ => rfl
    have e2 : ∀ xs w, unmarshalMarkedString (.arr xs) w =
        (w, .saved (.unmarshalType "array" "protocol.MarkedString")) := fun _ _ => rfl
    have hlen : 0 < l.length := List.length_pos.mpr hl
    unfold marshalSlice at e
    simp only at e
    simp [MarkupContentOrMarkedString.MarshalJSON, marshalSlice, Except.map,
      MarkupContentOrMarkedString.UnmarshalJSON, e, e1, e2, Status.isOk, hlen,
      MarkupContentOrMarkedString.zero]

/-- Round trip of a `DefinitionResponse` whose strings are Unicode strings: a value that
holds exactly one location with a non-empty URI, or exactly a non-nil location list,
or exactly the null marker, is encoded without error and decoded back from its
encoding. -/
theorem DefinitionResponse_roundtrip_strings (r v : DefinitionResponse)
    (h : (∃ loc : Location, loc.URI ≠ "" ∧ loc.wf ∧ v = ⟨some loc, none, none, false⟩) ∨
      (∃ l : List Location, (∀ x ∈ l, x.wf) ∧ v = ⟨none, some l, none, false⟩) ∨
      v = ⟨none, none, none, true⟩) :
    v.MarshalJSON.map (DefinitionResponse.UnmarshalJSON r) = .ok (v, none) := by
  rcases h with ⟨loc, hu, hw, rfl⟩ | ⟨l, hw, rfl⟩ | rfl
  · have e := DefinitionResponse_UnmarshalJSON_location r loc hu hw
    simp [DefinitionResponse.MarshalJSON, marshalPtr, Except.map, e]
  · have e := DefinitionResponse_UnmarshalJSON_locationList r l hw
    simp [DefinitionResponse.MarshalJSON, Except.map, e]
  · rfl

/-- Round trip of a `DocumentDiagnosticReport` whose strings are Unicode strings: a
value that holds exactly a full report of kind `full` whose diagnostics are well
formed and hold no empty non-nil slice tagged `omitempty`, or exactly an unchanged
report of kind `unchanged`, is encoded without error and decoded back from its
encoding. -/
theorem DocumentDiagnosticReport_roundtrip_strings (r v : DocumentDiagnosticReport)
    (h : (∃ (rid : String) (items : Option (List Diagnostic)),
        (∀ d ∈ items.getD [], d.wf ∧ d.noEmptySlice) ∧ v = ⟨some ⟨"full", rid, items⟩, none⟩) ∨
      (∃ rid : String, v = ⟨none, some ⟨"unchanged", rid⟩⟩)) :
    v.MarshalJSON.map (DocumentDiagnosticReport.UnmarshalJSON r) = .ok (v, none) := by
  rcases h with ⟨rid, items, hd, rfl⟩ | ⟨rid, rfl⟩
  · have e1 := diagnosticKind_marshalFull ⟨"full", rid, items⟩
    have e2 := unmarshalFull_marshalFull ⟨"full", rid, items⟩ hd
    simp [DocumentDiagnosticReport.MarshalJSON, marshalPtr, Except.map,
      DocumentDiagnosticReport.UnmarshalJSON, e1, e2, Status.isOk,
      DocumentDiagnosticReport.zero]
  · rfl

/-! ### UTF-8 -/

theorem char_valid (c : Char) : c.toNat < 0xD800 ∨ (0xDFFF < c.toNat ∧ c.toNat < 0x110000) := by
  have h := c.valid
  simpa [UInt32.isValidChar, Nat.isValidChar, Char.toNat] using h

theorem decodeRune_encodeRune (c : Char) (rest : GoString) :
    decodeRune (encodeRune c ++ rest) = (c.toNat, (encodeRune c).length) := by
  have hv := char_valid c
  unfold encodeRune
  split_ifs with h1 h2 h3
  · have e0 : c.toNat % 256 = c.toNat := by omega
    simp only [List.cons_append, List.nil_append, decodeRune, byte, List.length_singleton, e0]
    rw [if_pos h1]
  · have e0 : (192 + c.toNat / 64) % 256 = 192 + c.toNat / 64 := by omega
    have e1 : (128 + c.toNat % 64) % 256 = 128 + c.toNat % 64 := by omega
    simp only [List.cons_append, List.nil_append, decodeRune, byte, isSecond, isCont, e0, e1]
    rw [if_neg (by omega), if_pos (by omega), if_pos (by constructor <;> first | omega | (split_ifs <;> omega))]
    simp only [List.length_cons, List.length_nil, Prod.mk.injEq, and_true]
    omega
  · have e0 : (224 + c.toNat / 4096) % 256 = 224 + c.toNat / 4096 := by omega
    have e1 : (128 + c.toNat / 64 % 64) % 256 = 128 + c.toNat / 64 % 64 := by omega
    have e2 : (128 + c.toNat % 64) % 256 = 128 + c.toNat % 64 := by omega
    simp only [List.cons_append, List.nil_append, decodeRune, byte, isSecond, isCont, e0, e1, e2]
    rw [if_neg (by omega), if_neg (by omega), if_pos (by omega),
      if_pos (by refine ⟨⟨?_, ?_⟩, ?_, ?_⟩ <;> first | omega | (split_ifs <;> omega))]
    simp only [List.length_cons, List.length_nil, Prod.mk.injEq, and_true]
    omega
  · have e0 : (240 + c.toNat / 262144) % 256 = 240 + c.toNat / 262144 := by omega
    have e1 : (128 + c.toNat / 4096 % 64) % 256 = 128 + c.toNat / 4096 % 64 := by omega
    have e2 : (128 + c.toNat / 64 % 64) % 256 = 128 + c.toNat / 64 % 64 := by omega
    have e3 : (128 + c.toNat % 64) % 256 = 128 + c.toNat % 64 := by omega
    simp only [List.cons_append, List.nil_append, decodeRune, byte, isSecond, isCont,
      e0, e1, e2, e3]
    rw [if_neg (by omega), if_neg (by omega), if_neg (by omega), if_pos (by omega),
      if_pos (by refine ⟨⟨?_, ?_⟩, ⟨?_, ?_⟩, ?_, ?_⟩ <;> first | omega | (split_ifs <;> omega))]
    simp only [List.length_cons, List.length_nil, Prod.mk.injEq, and_true]
    omega

theorem encodeRune_length (c : Char) :
    ∃ b bs, encodeRune c = b :: bs := by
  unfold encodeRune
  split_ifs <;> exact ⟨_, _, rfl⟩

theorem decodeRunes_drop : ∀ (k : Nat) (bs : GoString),
    decodeRunes k bs = decodeRunes 0 (bs.drop k)
  | 0, bs => rfl
  | k + 1, [] => rfl
  | k + 1, _ :: bs => by
    rw [decodeRunes, List.drop_succ_cons]
    exact decodeRunes_drop k bs

theorem validRunes_drop : ∀ (k : Nat) (bs : GoString),
    validRunes k bs = validRunes 0 (bs.drop k)
  | 0, bs => rfl
  | k + 1, [] => rfl
  | k + 1, _ :: bs => by
    rw [validRunes, List.drop_succ_cons]
    exact validRunes_drop k bs

theorem decodeRunes_encodeRune (c : Char) (rest : GoString) :
    decodeRunes 0 (encodeRune c ++ rest) = c :: decodeRunes 0 rest := by
  have h := decodeRune_encodeRune c rest
  obtain ⟨b, bs, e⟩ := encodeRune_length c
  rw [e] at h ⊢
  rw [List.cons_append] at h ⊢
  rw [decodeRunes, h, decodeRunes_drop]
  simp only [List.length_cons, Nat.add_sub_cancel, List.drop_left, Char.ofNat_toNat]

/-- The string `json.Unmarshal` stores is read back by `json.Marshal` as it is. -/
theorem GoString_toJson_ofJson (s : String) : GoString.toJson (GoString.ofJson s) = s := by
  have key : ∀ l : List Char, decodeRunes 0 (l.flatMap encodeRune) = l := by
    intro l
    induction l with
    | nil => rfl
    | cons c t ih => rw [List.flatMap_cons, decodeRunes_encodeRune, ih]
  unfold GoString.toJson GoString.ofJson
  rw [key]

theorem Char_toNat_ofNat (n : Nat) (h : n < 0xD800 ∨ (0xDFFF < n ∧ n < 0x110000)) :
    (Char.ofNat n).toNat = n := by
  have hv : n.isValidChar := h
  simp [Char.ofNat, hv, Char.ofNatAux, Char.toNat, UInt32.toNat]

theorem byte_val (b : Fin 256) : byte b.val = b := by
  apply Fin.ext
  simp only [byte]
  omega

theorem byte_eq (n : Nat) (b : Fin 256) (h : n = b.val) : byte n = b := by
  subst h
  exact byte_val b

/-- A rune that `decodeRune` reads without error is encoded by the bytes it was read
from. -/
theorem encodeRune_decodeRune (b : Fin 256) (bs : GoString)
    (h : (decodeRune (b :: bs)).1 ≠ runeError ∨ (decodeRune (b :: bs)).2 ≠ 1) :
    encodeRune (Char.ofNat (decodeRune (b :: bs)).1) =
        (b :: bs).take (decodeRune (b :: bs)).2 ∧
      1 ≤ (decodeRune (b :: bs)).2 := by
  have hb := b.isLt
  simp only [decodeRune] at h ⊢
  split_ifs at h ⊢ with h1 h2 h3 h4
  · refine ⟨?_, le_refl _⟩
    have e := Char_toNat_ofNat b.val (by omega)
    simp only [encodeRune, e, if_pos h1, List.take_succ_cons, List.take_zero]
    rw [byte_val]
  · cases bs with
    | nil => simp [runeError] at h
    | cons b1 t =>
      simp only at h ⊢
      split_ifs at h ⊢ with h5
      · refine ⟨?_, by omega⟩
        have hb1 := b1.isLt
        simp only [isSecond] at h5
        have hr : (b.val - 0xC0) * 64 + (b1.val - 0x80) < 0x800 ∧
            0x80 ≤ (b.val - 0xC0) * 64 + (b1.val - 0x80) := by
          split_ifs at h5 <;> omega
        have e := Char_toNat_ofNat ((b.val - 0xC0) * 64 + (b1.val - 0x80)) (by omega)
        simp only [encodeRune, e, List.take_succ_cons, List.take_zero]
        rw [if_neg (by omega), if_pos (by omega)]
        rw [byte_eq _ b (by split_ifs at h5 <;> omega), byte_eq _ b1 (by split_ifs at h5 <;> omega)]
      · simp [runeError] at h
  · rcases bs with _ | ⟨b1, _ | ⟨b2, t⟩⟩
    · simp [runeError] at h
    · simp [runeError] at h
    · simp only at h ⊢
      split_ifs at h ⊢ with h5
      · refine ⟨?_, by omega⟩
        have hb1 := b1.isLt
        have hb2 := b2.isLt
        simp only [isSecond, isCont] at h5
        have hr : (b.val - 0xE0) * 4096 + (b1.val - 0x80) * 64 + (b2.val - 0x80) < 0x10000 ∧
            0x800 ≤ (b.val - 0xE0) * 4096 + (b1.val - 0x80) * 64 + (b2.val - 0x80) ∧
            ((b.val - 0xE0) * 4096 + (b1.val - 0x80) * 64 + (b2.val - 0x80) < 0xD800 ∨
              0xDFFF < (b.val - 0xE0) * 4096 + (b1.val - 0x80) * 64 + (b2.val - 0x80)) := by
          split_ifs at h5 <;> omega
        have e := Char_toNat_ofNat
          ((b.val - 0xE0) * 4096 + (b1.val - 0x80) * 64 + (b2.val - 0x80)) (by omega)
        simp only [encodeRune, e, List.take_succ_cons, List.take_zero]
        rw [if_neg (by omega), if_neg (by omega), if_pos (by omega)]
        rw [byte_eq _ b (by split_ifs at h5 <;> omega), byte_eq _ b1 (by split_ifs at h5 <;> omega),
          byte_eq _ b2 (by split_ifs at h5 <;> omega)]
      · simp [runeError] at h
  · rcases bs with _ | ⟨b1, _ | ⟨b2, _ | ⟨b3, t⟩⟩⟩
    · simp [runeError] at h
    · simp [runeError] at h
    · simp [runeError] at h
    · simp only at h ⊢
      split_ifs at h ⊢ with h5
      · refine ⟨?_, by omega⟩
        have hb1 := b1.isLt
        have hb2 := b2.isLt
        have hb3 := b3.isLt
        simp only [isSecond, isCont] at h5
        have hr : (b.val - 0xF0) * 262144 + (b1.val - 0x80) * 4096 + (b2.val - 0x80) * 64 +
              (b3.val - 0x80) < 0x110000 ∧
            0x10000 ≤ (b.val - 0xF0) * 262144 + (b1.val - 0x80) * 4096 + (b2.val - 0x80) * 64 +
              (b3.val - 0x80) := by
          split_ifs at h5 <;> omega
        have e := Char_toNat_ofNat
          ((b.val - 0xF0) * 262144 + (b1.val - 0x80) * 4096 + (b2.val - 0x80) * 64 +
            (b3.val - 0x80)) (by omega)
        simp only [encodeRune, e, List.take_succ_cons, List.take_zero]
        rw [if_neg (by omega), if_neg (by omega), if_neg (by omega)]
        rw [byte_eq _ b (by split_ifs at h5 <;> omega), byte_eq _ b1 (by split_ifs at h5 <;> omega),
          byte_eq _ b2 (by split_ifs at h5 <;> omega), byte_eq _ b3 (by split_ifs at h5 <;> omega)]
      · simp [runeError] at h
  · simp [runeError] at h

theorem encodeRunes_decodeRunes : ∀ (n : Nat) (s : GoString), s.length ≤ n →
    validRunes 0 s = true → (decodeRunes 0 s).flatMap encodeRune = s
  | _, [], _, _ => rfl
  | 0, _ :: _, hn, _ => by simp at hn
  | n + 1, b :: bs, hn, hv => by
    rw [validRunes, Bool.and_eq_true, decide_eq_true_eq, validRunes_drop] at hv
    obtain ⟨h1, h2⟩ := encodeRune_decodeRune b bs hv.1
    have hlen : (bs.drop ((decodeRune (b :: bs)).2 - 1)).length ≤ n := by
      rw [List.length_drop]
      simp only [List.length_cons] at hn
      omega
    have ih := encodeRunes_decodeRunes n _ hlen hv.2
    rw [decodeRunes, List.flatMap_cons, decodeRunes_drop, ih, h1]
    have e : bs.drop ((decodeRune (b :: bs)).2 - 1) = (b :: bs).drop (decodeRune (b :: bs)).2 := by
      obtain ⟨k, hk⟩ : ∃ k, (decodeRune (b :: bs)).2 = k + 1 := ⟨_, (Nat.sub_add_cancel h2).symm⟩
      rw [hk]
      rfl
    rw [e, List.take_append_drop]

/-- A Go string that is valid UTF-8 is stored back as it was. -/
theorem GoString_ofJson_toJson (s : GoString) (h : s.valid = true) :
    GoString.ofJson (GoString.toJson s) = s :=
  encodeRunes_decodeRunes s.length s (le_refl _) h

/-! ### Values with byte strings -/

theorem GoString_toJson_ne_empty (s : GoString) (h : s ≠ []) : GoString.toJson s ≠ "" := by
  cases s with
  | nil => exact absurd rfl h
  | cons b bs =>
    intro e
    have e2 := congrArg String.data e
    simp [GoString.toJson, decodeRunes] at e2

theorem List_map_store_coerce {α β : Type} (f : α → β) (g : β → α) (p : α → Bool)
    (hp : ∀ x, p x = true → g (f x) = x) (l : List α) (h : l.all p = true) :
    (l.map f).map g = l := by
  induction l with
  | nil => rfl
  | cons a t ih =>
    simp only [List.all_cons, Bool.and_eq_true] at h
    simp only [List.map_cons, hp a h.1, ih h.2]

theorem Option_map_store_coerce {α β : Type} (f : α → β) (g : β → α) (p : α → Bool)
    (hp : ∀ x, p x = true → g (f x) = x) (o : Option α) (h : o.all p = true) :
    (o.map f).map g = o := by
  cases o with
  | none => rfl
  | some a => simp only [Option.map_some', hp a (by simpa using h)]

theorem Slice_map_store_coerce {α β : Type} (f : α → β) (g : β → α) (p : α → Bool)
    (hp : ∀ x, p x = true → g (f x) = x) (o : Option (List α)) (h : (o.getD []).all p = true) :
    (o.map (List.map f)).map (List.map g) = o := by
  cases o with
  | none => rfl
  | some l => simp only [Option.map_some', List_map_store_coerce f g p hp l (by simpa using h)]

theorem RawMarkedString_store_coerce (v : RawMarkedString) (h : v.valid = true) :
    v.coerce.store = v := by
  simp only [RawMarkedString.valid, Bool.and_eq_true] at h
  simp [RawMarkedString.coerce, MarkedString.store, GoString_ofJson_toJson, h]

theorem RawMarkupContent_store_coerce (v : RawMarkupContent) (h : v.valid = true) :
    v.coerce.store = v := by
  simp only [RawMarkupContent.valid, Bool.and_eq_true] at h
  simp [RawMarkupContent.coerce, MarkupContent.store, GoString_ofJson_toJson, h]

theorem RawMarkupContentOrMarkedString_store_coerce (v : RawMarkupContentOrMarkedString)
    (h : v.valid = true) : v.coerce.store = v := by
  simp only [RawMarkupContentOrMarkedString.valid, Bool.and_eq_true] at h
  obtain ⟨a, b, c⟩ := v
  simp only [RawMarkupContentOrMarkedString.coerce, MarkupContentOrMarkedString.store]
  rw [Option_map_store_coerce _ _ _ RawMarkupContent_store_coerce a h.1.1,
    Option_map_store_coerce _ _ _ RawMarkedString_store_coerce b h.1.2,
    Slice_map_store_coerce _ _ _ RawMarkedString_store_coerce c h.2]

theorem RawLocation_store_coerce (v : RawLocation) (h : v.valid = true) :
    v.coerce.store = v := by
  simp only [RawLocation.valid] at h
  simp [RawLocation.coerce, Location.store, GoString_ofJson_toJson, h]

theorem RawLocationLink_store_coerce (v : RawLocationLink) (h : v.valid = true) :
    v.coerce.store = v := by
  simp only [RawLocationLink.valid] at h
  simp [RawLocationLink.coerce, LocationLink.store, GoString_ofJson_toJson, h]

theorem RawDefinitionResponse_store_coerce (v : RawDefinitionResponse) (h : v.valid = true) :
    v.coerce.store = v := by
  simp only [RawDefinitionResponse.valid, Bool.and_eq_true] at h
  obtain ⟨a, b, c, d⟩ := v
  simp only [RawDefinitionResponse.coerce, DefinitionResponse.store]
  rw [Option_map_store_coerce _ _ _ RawLocation_store_coerce a h.1.1,
    Slice_map_store_coerce _ _ _ RawLocation_store_coerce b h.1.2,
    Slice_map_store_coerce _ _ _ RawLocationLink_store_coerce c h.2]

theorem RawCodeDescription_store_coerce (v : RawCodeDescription) (h : v.valid = true) :
    v.coerce.store = v := by
  simp only [RawCodeDescription.valid] at h
  simp [RawCodeDescription.coerce, CodeDescription.store, GoString_ofJson_toJson, h]

theorem RawDiagnosticRelatedInformation_store_coerce (v : RawDiagnosticRelatedInformation)
    (h : v.valid = true) : v.coerce.store = v := by
  simp only [RawDiagnosticRelatedInformation.valid, Bool.and_eq_true] at h
  simp [RawDiagnosticRelatedInformation.coerce, DiagnosticRelatedInformation.store,
    GoString_ofJson_toJson, RawLocation_store_coerce, h]

theorem RawDiagnostic_store_coerce (v : RawDiagnostic) (h : v.valid = true) :
    v.coerce.store = v := by
  simp only [RawDiagnostic.valid, Bool.and_eq_true] at h
  simp only [RawDiagnostic.coerce, Diagnostic.store]
  rw [Option_map_store_coerce _ _ _ RawCodeDescription_store_coerce _ h.1.1.1,
    Slice_map_store_coerce _ _ _ RawDiagnosticRelatedInformation_store_coerce _ h.2,
    GoString_ofJson_toJson _ h.1.1.2, GoString_ofJson_toJson _ h.1.2]

theorem RawFullDocumentDiagnosticReport_store_coerce (v : RawFullDocumentDiagnosticReport)
    (h : v.valid = true) : v.coerce.store = v := by
  simp only [RawFullDocumentDiagnosticReport.valid, Bool.and_eq_true] at h
  simp only [RawFullDocumentDiagnosticReport.coerce, FullDocumentDiagnosticReport.store]
  rw [Slice_map_store_coerce _ _ _ RawDiagnostic_store_coerce _ h.2,
    GoString_ofJson_toJson _ h.1.1, GoString_ofJson_toJson _ h.1.2]

theorem RawUnchangedDocumentDiagnosticReport_store_coerce
    (v : RawUnchangedDocumentDiagnosticReport) (h : v.valid = true) : v.coerce.store = v := by
  simp only [RawUnchangedDocumentDiagnosticReport.valid, Bool.and_eq_true] at h
  simp [RawUnchangedDocumentDiagnosticReport.coerce, UnchangedDocumentDiagnosticReport.store,
    GoString_ofJson_toJson, h]

theorem RawDocumentDiagnosticReport_store_coerce (v : RawDocumentDiagnosticReport)
    (h : v.valid = true) : v.coerce.store = v := by
  simp only [RawDocumentDiagnosticReport.valid, Bool.and_eq_true] at h
  obtain ⟨a, b⟩ := v
  simp only [RawDocumentDiagnosticReport.coerce, DocumentDiagnosticReport.store]
  rw [Option_map_store_coerce _ _ _ RawFullDocumentDiagnosticReport_store_coerce a h.1,
    Option_map_store_coerce _ _ _ RawUnchangedDocumentDiagnosticReport_store_coerce b h.2]

/-- Decoding into the empty receiver with byte strings stores what the decoder of the
record gives. -/
theorem RawMarkupContentOrMarkedString_UnmarshalJSON_zero (data : Json) :
    RawMarkupContentOrMarkedString.UnmarshalJSON ⟨none, none, none⟩ data =
      ((MarkupContentOrMarkedString.UnmarshalJSON MarkupContentOrMarkedString.zero data).1.store,
        (MarkupContentOrMarkedString.UnmarshalJSON MarkupContentOrMarkedString.zero data).2) := by
  unfold RawMarkupContentOrMarkedString.UnmarshalJSON MarkupContentOrMarkedString.UnmarshalJSON
  simp only
  split_ifs <;> rfl

/-- A round trip of the record carries over to the value with byte strings that
`json.Marshal` reads as this record. -/
theorem roundtrip_store {α β : Type} (e : Except JsonError Json)
    (dec : Json → α × Option JsonError) (g : α → β) (a : α) (b : β)
    (h : e.map dec = .ok (a, none)) (hg : g a = b) :
    e.map (fun j => (g (dec j).1, (dec j).2)) = .ok (b, (none : Option JsonError)) := by
  cases e with
  | error x => simp [Except.map] at h
  | ok j =>
    simp only [Except.map, Except.ok.injEq] at h ⊢
    rw [h, hg]

/-! ### Objects with members in any order -/

theorem lastMember_cons (names : List String) (name k : String) (j : Json)
    (rest : List (String × Json)) :
    lastMember names name ((k, j) :: rest) =
      match lastMember names name rest with
      | some v => some v
      | none => if matchField names k = some name then some j else none := rfl

/-- Among members that are strings, the last member `name` is a string. -/
theorem lastMember_isString (names : List String) (name : String) :
    ∀ (kvs : List (String × Json)), stringMembers names kvs →
      ∀ v, lastMember names name kvs = some v → v.isString = true := by
  intro kvs
  induction kvs with
  | nil => intro _ v h; simp [lastMember] at h
  | cons kj t ih =>
    intro h v hv
    obtain ⟨k, j⟩ := kj
    rw [lastMember_cons] at hv
    have ht : stringMembers names t := fun kv hkv => h kv (List.mem_cons_of_mem _ hkv)
    cases hl : lastMember names name t with
    | some w =>
      rw [hl] at hv
      simp only [Option.some.injEq] at hv
      exact hv ▸ ih ht w hl
    | none =>
      rw [hl] at hv
      simp only at hv
      split at hv
      · rename_i hm
        simp only [Option.some.injEq] at hv
        rcases h (k, j) (List.mem_cons_self _ _) with h1 | h1
        · simp [hm] at h1
        · exact hv ▸ h1
      · simp at hv

theorem strOr_step (o x : Option Json) (d : String) :
    (∀ v, o = some v → v.isString = true) →
    Json.strOr (match o with | some v => some v | none => x) d =
      Json.strOr o (Json.strOr x d) := by
  intro ho
  cases o with
  | none => cases x <;> rfl
  | some v =>
    have := ho v rfl
    cases v <;> simp [Json.isString] at this
    rfl

/-- Members of an object are decoded into two string fields: each field ends up with the
string of its last member. -/
theorem MarkupContent_unmarshalFields_strings (kvs : List (String × Json))
    (h : stringMembers ["kind", "value"] kvs) :
    ∀ v : MarkupContent, unmarshalFields MarkupContent.setField kvs v .ok =
      (⟨Json.strOr (lastMember ["kind", "value"] "kind" kvs) v.Kind,
        Json.strOr (lastMember ["kind", "value"] "value" kvs) v.Value⟩, .ok) := by
  induction kvs with
  | nil => intro v; rfl
  | cons kj t ih =>
    intro v
    obtain ⟨k, j⟩ := kj
    have ht : stringMembers ["kind", "value"] t := fun kv hkv => h kv (List.mem_cons_of_mem _ hkv)
    have hh := h (k, j) (List.mem_cons_self _ _)
    rw [unmarshalFields_cons, lastMember_cons, lastMember_cons,
      strOr_step _ _ _ (lastMember_isString _ _ t ht),
      strOr_step _ _ _ (lastMember_isString _ _ t ht)]
    rcases hm : matchField ["kind", "value"] k with _ | n
    · have e : MarkupContent.setField k j v = (v, .ok) := by simp [MarkupContent.setField, hm]
      rw [e]
      simp only [Status_merge_ok]
      rw [ih ht v]
      simp [Json.strOr]
    · have hn := matchField_mem _ _ _ hm
      simp only [hm] at hh
      rcases hh with hh | hh
      · simp at hh
      · cases j with
        | str s =>
          simp only [List.mem_cons, List.mem_singleton, List.not_mem_nil, or_false] at hn
          rcases hn with rfl | rfl
          · have e : MarkupContent.setField k (.str s) v = ({ v with Kind := s }, .ok) := by
              simp [MarkupContent.setField, hm, unmarshalString]
            rw [e]
            simp only [Status_merge_ok]
            rw [ih ht]
            simp [Json.strOr]
          · have e : MarkupContent.setField k (.str s) v = ({ v with Value := s }, .ok) := by
              simp [MarkupContent.setField, hm, unmarshalString]
            rw [e]
            simp only [Status_merge_ok]
            rw [ih ht]
            simp [Json.strOr]
        | _ => simp [Json.isString] at hh

theorem MarkedString_unmarshalFields_strings (kvs : List (String × Json))
    (h : stringMembers ["language", "value"] kvs) :
    ∀ v : MarkedString, unmarshalFields MarkedString.setField kvs v .ok =
      (⟨Json.strOr (lastMember ["language", "value"] "language" kvs) v.Language,
        Json.strOr (lastMember ["language", "value"] "value" kvs) v.Value⟩, .ok) := by
  induction kvs with
  | nil => intro v; rfl
  | cons kj t ih =>
    intro v
    obtain ⟨k, j⟩ := kj
    have ht : stringMembers ["language", "value"] t :=
      fun kv hkv => h kv (List.mem_cons_of_mem _ hkv)
    have hh := h (k, j) (List.mem_cons_self _ _)
    rw [unmarshalFields_cons, lastMember_cons, lastMember_cons,
      strOr_step _ _ _ (lastMember_isString _ _ t ht),
      strOr_step _ _ _ (lastMember_isString _ _ t ht)]
    rcases hm : matchField ["language", "value"] k with _ | n
    · have e : MarkedString.setField k j v = (v, .ok) := by simp [MarkedString.setField, hm]
      rw [e]
      simp only [Status_merge_ok]
      rw [ih ht v]
      simp [Json.strOr]
    · have hn := matchField_mem _ _ _ hm
      simp only [hm] at hh
      rcases hh with hh | hh
      · simp at hh
      · cases j with
        | str s =>
          simp only [List.mem_cons, List.mem_singleton, List.not_mem_nil, or_false] at hn
          rcases hn with rfl | rfl
          · have e : MarkedString.setField k (.str s) v = ({ v with Language := s }, .ok) := by
              simp [MarkedString.setField, hm, unmarshalString]
            rw [e]
            simp only [Status_merge_ok]
            rw [ih ht]
            simp [Json.strOr]
          · have e : MarkedString.setField k (.str s) v = ({ v with Value := s }, .ok) := by
              simp [MarkedString.setField, hm, unmarshalString]
            rw [e]
            simp only [Status_merge_ok]
            rw [ih ht]
            simp [Json.strOr]
        | _ => simp [Json.isString] at hh

/-- A key that is no member `kind` on its own is no member `kind` of a markup. -/
theorem matchField_kind_markup (k : String) (h : matchField ["kind"] k = none) :
    matchField ["kind", "value"] k ≠ some "kind" := by
  by_cases h1 : k = "kind"
  · subst h1
    simp [matchField] at h
  · by_cases h2 : k = "value"
    · subst h2
      decide
    · have hf : ¬ (foldName "kind" == foldName k) = true := by
        intro hf
        simp [matchField, h1, hf, List.find?] at h
      intro h'
      simp only [matchField, List.mem_cons, h1, h2, List.mem_singleton, or_self,
        List.not_mem_nil, if_false, List.find?, hf] at h'
      split at h' <;> simp at h'

/-- A key that is the member `value` of a markup is the member `value` of a marked
string. -/
theorem matchField_value_markup (k : String)
    (h : matchField ["kind", "value"] k = some "value") :
    matchField ["language", "value"] k = some "value" := by
  by_cases h1 : k = "kind"
  · subst h1
    simp [matchField] at h
  · by_cases h2 : k = "value"
    · subst h2
      rfl
    · by_cases h3 : k = "language"
      · subst h3
        exact absurd h (by decide)
      · have hv : (foldName "value" == foldName k) = true := by
          simp only [matchField, List.mem_cons, h1, h2, List.mem_singleton, or_self,
            List.not_mem_nil, if_false, List.find?] at h
          split at h
          · simp at h
          · split at h
            · assumption
            · simp at h
        have hl : ¬ (foldName "language" == foldName k) = true := by
          intro hl
          have e1 := beq_iff_eq.mp hv
          have e2 := beq_iff_eq.mp hl
          exact absurd (e2.trans e1.symm) (by decide)
        simp [matchField, h2, h3, hv, hl, List.find?]

theorem lastMember_none (names : List String) (name : String) :
    ∀ (kvs : List (String × Json)), (∀ kv ∈ kvs, matchField names kv.1 ≠ some name) →
      lastMember names name kvs = none := by
  intro kvs
  induction kvs with
  | nil => intro _; rfl
  | cons kj t ih =>
    intro h
    obtain ⟨k, j⟩ := kj
    rw [lastMember_cons, ih (fun kv hkv => h kv (List.mem_cons_of_mem _ hkv))]
    simp [h (k, j) (List.mem_cons_self _ _)]

/-- An object without member `kind` whose members `language` and `value` are strings
is, for the decoder of a markup, an object with string members and no kind. -/
theorem stringMembers_markup_of_markedString (kvs : List (String × Json))
    (hnk : noKindMember kvs) (hs : stringMembers ["language", "value"] kvs) :
    stringMembers ["kind", "value"] kvs ∧ lastMember ["kind", "value"] "kind" kvs = none := by
  constructor
  · intro kv hkv
    rcases hm : matchField ["kind", "value"] kv.1 with _ | n
    · exact Or.inl rfl
    · right
      have hn := matchField_mem _ _ _ hm
      simp only [List.mem_cons, List.mem_singleton, List.not_mem_nil, or_false] at hn
      rcases hn with rfl | rfl
      · exact absurd hm (matchField_kind_markup _ (hnk kv hkv))
      · rcases hs kv hkv with h1 | h1
        · rw [matchField_value_markup _ hm] at h1
          simp at h1
        · exact h1
  · exact lastMember_none _ _ kvs (fun kv hkv => matchField_kind_markup _ (hnk kv hkv))

/-- Elements decoded into a fresh slice, each one without error. -/
theorem unmarshalElems_of_each {α : Type} (zero : α) (dec : Json → α → α × Status)
    (f : Json → α) (xs : List Json) (h : ∀ x ∈ xs, dec x zero = (f x, .ok)) :
    unmarshalElems zero dec xs [] = (xs.map f, .ok) := by
  induction xs with
  | nil => rfl
  | cons a t ih =>
    have ha := h a (List.mem_cons_self _ _)
    have ht := ih (fun x hx => h x (List.mem_cons_of_mem _ hx))
    simp [unmarshalElems, ha, ht]

/-- An object whose members `language` and `value` are strings decodes to the marked
string it denotes. -/
theorem unmarshalMarkedString_of_object (j : Json) (h : markedStringObject j = true) :
    unmarshalMarkedString j MarkedString.zero = (markedStringOf j, .ok) := by
  cases j with
  | obj kvs =>
    simp only [markedStringObject, decide_eq_true_eq] at h
    unfold unmarshalMarkedString
    rw [unmarshalStruct_obj, MarkedString_unmarshalFields_strings kvs h]
    rfl
  | _ => simp [markedStringObject] at h

/-! ### `CompletionItem` -/

theorem TextEdit_setField_range (j : Json) (w : TextEdit) :
    TextEdit.setField "range" j w =
      ({ w with Range := (unmarshalRange j w.Range).1 }, (unmarshalRange j w.Range).2) := rfl

theorem TextEdit_setField_newText (j : Json) (w : TextEdit) :
    TextEdit.setField "newText" j w =
      ({ w with NewText := (unmarshalString j w.NewText).1 }, (unmarshalString j w.NewText).2) :=
  rfl

theorem unmarshalTextEdit_marshalTextEdit (t w : TextEdit) (h : t.Range.wf) :
    unmarshalTextEdit (marshalTextEdit t) w = (t, .ok) := by
  simp [unmarshalTextEdit, marshalTextEdit, unmarshalFields_cons, TextEdit_setField_range,
    TextEdit_setField_newText, unmarshalRange_marshalRange, h, unmarshalString]

theorem Command_setField_title (j : Json) (w : Protocol.Command) :
    Command.setField "title" j w =
      ({ w with Title := (unmarshalString j w.Title).1 }, (unmarshalString j w.Title).2) := rfl

theorem Command_setField_command (j : Json) (w : Protocol.Command) :
    Command.setField "command" j w =
      ({ w with Command := (unmarshalString j w.Command).1 }, (unmarshalString j w.Command).2) :=
  rfl

theorem Command_setField_arguments (j : Json) (w : Protocol.Command) :
    Command.setField "arguments" j w =
      ({ w with Arguments := (unmarshalSlice "[]interface {}" Json.null unmarshalAny j
          w.Arguments).1 },
        (unmarshalSlice "[]interface {}" Json.null unmarshalAny j w.Arguments).2) := rfl

theorem unmarshalCommand_marshalCommand (c : Protocol.Command) (h : c.wf) :
    unmarshalCommand (marshalCommand c) Command.zero = (c, .ok) := by
  obtain ⟨hrep, hne⟩ := h
  obtain ⟨title, command, args⟩ := c
  simp only at hrep hne
  have t1 : unmarshalFields Command.setField [("title", .str title), ("command", .str command)]
      Command.zero .ok = (⟨title, command, none⟩, .ok) := rfl
  have s2 : unmarshalFields Command.setField
      (omitEmpty (sliceEmpty args) "arguments" (marshalSlice id args))
      ⟨title, command, none⟩ .ok = (⟨title, command, args⟩, .ok) := by
    apply unmarshalFields_omitEmpty
    · intro h
      rw [sliceEmpty_eq_true args h hne]
    · intro _
      have e := unmarshalSlice_marshalSlice "[]interface {}" Json.null unmarshalAny id args
        (fun l hl x hx => unmarshalAny_of_representable x _ (hrep x (by rw [hl]; exact hx)))
      simp [Command_setField_arguments, e]
  unfold unmarshalCommand marshalCommand
  rw [unmarshalStruct_obj]
  exact (unmarshalFields_append Command.setField _ _ _ _ t1).trans s2

theorem unmarshalPtr_of_obj {α : Type} (zero : α) (dec : Json → α → α × Status)
    (kvs : List (String × Json)) (a : α) (h : dec (.obj kvs) zero = (a, .ok)) :
    unmarshalPtr zero dec (.obj kvs) none = (some a, .ok) := by
  simp [unmarshalPtr, h]

theorem unmarshalPtr_of_num {α : Type} (zero : α) (dec : Json → α → α × Status)
    (n : NumLit) (a : α) (h : dec (.num n) zero = (a, .ok)) :
    unmarshalPtr zero dec (.num n) none = (some a, .ok) := by
  simp [unmarshalPtr, h]

theorem unmarshalCompletionItemLabelDetails_marshal (c : CompletionItemLabelDetails) :
    unmarshalCompletionItemLabelDetails (marshalCompletionItemLabelDetails c)
      CompletionItemLabelDetails.zero = (c, .ok) := by
  obtain ⟨d, e⟩ := c
  cases d <;> cases e <;> rfl

theorem CompletionItem_setField_label (j : Json) (w : CompletionItem) :
    CompletionItem.setField "label" j w =
      ({ w with Label := (unmarshalString j w.Label).1 },
        (unmarshalString j w.Label).2) := rfl

theorem CompletionItem_setField_labelDetails (j : Json) (w : CompletionItem) :
    CompletionItem.setField "labelDetails" j w =
      ({ w with LabelDetails := (unmarshalPtr CompletionItemLabelDetails.zero unmarshalCompletionItemLabelDetails j w.LabelDetails).1 },
        (unmarshalPtr CompletionItemLabelDetails.zero unmarshalCompletionItemLabelDetails j w.LabelDetails).2) := rfl

theorem CompletionItem_setField_kind (j : Json) (w : CompletionItem) :
    CompletionItem.setField "kind" j w =
      ({ w with Kind := (unmarshalInt j w.Kind).1 },
        (unmarshalInt j w.Kind).2) := rfl

theorem CompletionItem_setField_tags (j : Json) (w : CompletionItem) :
    CompletionItem.setField "tags" j w =
      ({ w with Tags := (unmarshalSlice "[]protocol.CompletionItemTag" 0 unmarshalInt j w.Tags).1 },
        (unmarshalSlice "[]protocol.CompletionItemTag" 0 unmarshalInt j w.Tags).2) := rfl

theorem CompletionItem_setField_detail (j : Json) (w : CompletionItem) :
    CompletionItem.setField "detail" j w =
      ({ w with Detail := (unmarshalString j w.Detail).1 },
        (unmarshalString j w.Detail).2) := rfl

theorem CompletionItem_setField_documentation (j : Json) (w : CompletionItem) :
    CompletionItem.setField "documentation" j w =
      ({ w with Documentation := (unmarshalString j w.Documentation).1 },
        (unmarshalString j w.Documentation).2) := rfl

theorem CompletionItem_setField_deprecated (j : Json) (w : CompletionItem) :
    CompletionItem.setField "deprecated" j w =
      ({ w with Deprecated := (unmarshalPtr false unmarshalBool j w.Deprecated).1 },
        (unmarshalPtr false unmarshalBool j w.Deprecated).2) := rfl

theorem CompletionItem_setField_preselect (j : Json) (w : CompletionItem) :
    CompletionItem.setField "preselect" j w =
      ({ w with Preselect := (unmarshalPtr false unmarshalBool j w.Preselect).1 },
        (unmarshalPtr false unmarshalBool j w.Preselect).2) := rfl

theorem CompletionItem_setField_sortText (j : Json) (w : CompletionItem) :
    CompletionItem.setField "sortText" j w =
      ({ w with SortText := (unmarshalString j w.SortText).1 },
        (unmarshalString j w.SortText).2) := rfl

theorem CompletionItem_setField_filterText (j : Json) (w : CompletionItem) :
    CompletionItem.setField "filterText" j w =
      ({ w with FilterText := (unmarshalString j w.FilterText).1 },
        (unmarshalString j w.FilterText).2) := rfl

theorem CompletionItem_setField_insertText (j : Json) (w : CompletionItem) :
    CompletionItem.setField "insertText" j w =
      ({ w with InsertText := (unmarshalString j w.InsertText).1 },
        (unmarshalString j w.InsertText).2) := rfl

theorem CompletionItem_setField_insertTextFormat (j : Json) (w : CompletionItem) :
    CompletionItem.setField "insertTextFormat" j w =
      ({ w with InsrtTextFormat := (unmarshalPtr 0 unmarshalInt j w.InsrtTextFormat).1 },
        (unmarshalPtr 0 unmarshalInt j w.InsrtTextFormat).2) := rfl

theorem CompletionItem_setField_insertTextMode (j : Json) (w : CompletionItem) :
    CompletionItem.setField "insertTextMode" j w =
      ({ w with InsertTextMode := (unmarshalPtr 0 unmarshalInt j w.InsertTextMode).1 },
        (unmarshalPtr 0 unmarshalInt j w.InsertTextMode).2) := rfl

theorem CompletionItem_setField_textEdit (j : Json) (w : CompletionItem) :
    CompletionItem.setField "textEdit" j w =
      ({ w with TextEdit := (unmarshalPtr TextEdit.zero unmarshalTextEdit j w.TextEdit).1 },
        (unmarshalPtr TextEdit.zero unmarshalTextEdit j w.TextEdit).2) := rfl

theorem CompletionItem_setField_textEditText (j : Json) (w : CompletionItem) :
    CompletionItem.setField "textEditText" j w =
      ({ w with TextEditText := (unmarshalString j w.TextEditText).1 },
        (unmarshalString j w.TextEditText).2) := rfl

theorem CompletionItem_setField_additionalTextEdits (j : Json) (w : CompletionItem) :
    CompletionItem.setField "additionalTextEdits" j w =
      ({ w with AdditionalTextEdits := (unmarshalSlice "[]protocol.TextEdit" TextEdit.zero unmarshalTextEdit j w.AdditionalTextEdits).1 },
        (unmarshalSlice "[]protocol.TextEdit" TextEdit.zero unmarshalTextEdit j w.AdditionalTextEdits).2) := rfl

theorem CompletionItem_setField_commitCharacters (j : Json) (w : CompletionItem) :
    CompletionItem.setField "commitCharacters" j w =
      ({ w with CommitCharacters := (unmarshalString j w.CommitCharacters).1 },
        (unmarshalString j w.CommitCharacters).2) := rfl

theorem CompletionItem_setField_command (j : Json) (w : CompletionItem) :
    CompletionItem.setField "command" j w =
      ({ w with Command := (unmarshalPtr Protocol.Command.zero unmarshalCommand j w.Command).1 },
        (unmarshalPtr Protocol.Command.zero unmarshalCommand j w.Command).2) := rfl

theorem CompletionItem_setField_data (j : Json) (w : CompletionItem) :
    CompletionItem.setField "data" j w =
      ({ w with Data := (unmarshalAny j w.Data).1 },
        (unmarshalAny j w.Data).2) := rfl

/-- A well-formed completion item is decoded back from its encoding. -/
theorem unmarshalCompletionItem_marshalCompletionItem (it : CompletionItem) (hw : it.wf) :
    unmarshalCompletionItem (marshalCompletionItem it) CompletionItem.zero = (it, .ok) := by
  obtain ⟨hkind, htags, htags0, hfmt, hmode, hte, hate, hate0, hcmd, hdata⟩ := hw
  obtain ⟨label, ld, kind, tags, detail, doc, dep, pre, sortText, filterText, insertText, fmt, mode, te, teText, ate, commit, cmd, data⟩ := it
  simp only at hkind htags htags0 hfmt hmode hte hate hate0 hcmd hdata
  have t1 : unmarshalFields CompletionItem.setField [("label", .str label)]
      CompletionItem.zero .ok = (⟨label, none, 0, none, "", "", none, none, "", "", "", none, none, none, "", none, "", none, .null⟩, .ok) := rfl
  have s2 : unmarshalFields CompletionItem.setField
      (omitEmpty ld.isNone "labelDetails" (marshalPtr marshalCompletionItemLabelDetails ld))
      ⟨label, none, 0, none, "", "", none, none, "", "", "", none, none, none, "", none, "", none, .null⟩ .ok =
      (⟨label, ld, 0, none, "", "", none, none, "", "", "", none, none, none, "", none, "", none, .null⟩, .ok) := by
    apply unmarshalFields_omitEmpty
    · intro h
      cases ld <;> simp at h ⊢
    · intro h
      cases ld with
      | none => simp at h
      | some c =>
        have e : unmarshalPtr CompletionItemLabelDetails.zero unmarshalCompletionItemLabelDetails
            (marshalCompletionItemLabelDetails c) none = (some c, .ok) :=
          unmarshalPtr_of_obj _ _ _ _ (unmarshalCompletionItemLabelDetails_marshal c)
        simp [CompletionItem_setField_labelDetails, marshalPtr, e]
  have s3 : unmarshalFields CompletionItem.setField
      (omitEmpty (decide (kind = 0)) "kind" (marshalInt kind))
      ⟨label, ld, 0, none, "", "", none, none, "", "", "", none, none, none, "", none, "", none, .null⟩ .ok =
      (⟨label, ld, kind, none, "", "", none, none, "", "", "", none, none, none, "", none, "", none, .null⟩, .ok) := by
    apply unmarshalFields_omitEmpty
    · intro h
      rw [of_decide_eq_true h]
    · intro _
      simp [CompletionItem_setField_kind, unmarshalInt_marshalInt, hkind]
  have s4 : unmarshalFields CompletionItem.setField
      (omitEmpty (sliceEmpty tags) "tags" (marshalSlice marshalInt tags))
      ⟨label, ld, kind, none, "", "", none, none, "", "", "", none, none, none, "", none, "", none, .null⟩ .ok =
      (⟨label, ld, kind, tags, "", "", none, none, "", "", "", none, none, none, "", none, "", none, .null⟩, .ok) := by
    apply unmarshalFields_omitEmpty
    · intro h
      rw [sliceEmpty_eq_true tags h htags0]
    · intro _
      have e := unmarshalSlice_marshalSlice "[]protocol.CompletionItemTag" 0 unmarshalInt
        marshalInt tags (fun l hl x hx => unmarshalInt_marshalInt x 0
          (htags x (by rw [hl]; exact hx)))
      simp [CompletionItem_setField_tags, e]
  have s5 : unmarshalFields CompletionItem.setField
      (omitEmpty (decide (detail = "")) "detail" (.str detail))
      ⟨label, ld, kind, tags, "", "", none, none, "", "", "", none, none, none, "", none, "", none, .null⟩ .ok =
      (⟨label, ld, kind, tags, detail, "", none, none, "", "", "", none, none, none, "", none, "", none, .null⟩, .ok) := by
    apply unmarshalFields_omitEmpty
    · intro h
      rw [of_decide_eq_true h]
    · intro _
      rfl
  have s6 : unmarshalFields CompletionItem.setField
      (omitEmpty (decide (doc = "")) "documentation" (.str doc))
      ⟨label, ld, kind, tags, detail, "", none, none, "", "", "", none, none, none, "", none, "", none, .null⟩ .ok =
      (⟨label, ld, kind, tags, detail, doc, none, none, "", "", "", none, none, none, "", none, "", none, .null⟩, .ok) := by
    apply unmarshalFields_omitEmpty
    · intro h
      rw [of_decide_eq_true h]
    · intro _
      rfl
  have s7 : unmarshalFields CompletionItem.setField
      (omitEmpty dep.isNone "deprecated" (marshalPtr Json.bool dep))
      ⟨label, ld, kind, tags, detail, doc, none, none, "", "", "", none, none, none, "", none, "", none, .null⟩ .ok =
      (⟨label, ld, kind, tags, detail, doc, dep, none, "", "", "", none, none, none, "", none, "", none, .null⟩, .ok) := by
    apply unmarshalFields_omitEmpty
    · intro h
      cases dep <;> simp at h ⊢
    · intro h
      cases dep with
      | none => simp at h
      | some c => rfl
  have s8 : unmarshalFields CompletionItem.setField
      (omitEmpty pre.isNone "preselect" (marshalPtr Json.bool pre))
      ⟨label, ld, kind, tags, detail, doc, dep, none, "", "", "", none, none, none, "", none, "", none, .null⟩ .ok =
      (⟨label, ld, kind, tags, detail, doc, dep, pre, "", "", "", none, none, none, "", none, "", none, .null⟩, .ok) := by
    apply unmarshalFields_omitEmpty
    · intro h
      cases pre <;> simp at h ⊢
    · intro h
      cases pre with
      | none => simp at h
      | some c => rfl
  have s9 : unmarshalFields CompletionItem.setField
      (omitEmpty (decide (sortText = "")) "sortText" (.str sortText))
      ⟨label, ld, kind, tags, detail, doc, dep, pre, "", "", "", none, none, none, "", none, "", none, .null⟩ .ok =
      (⟨label, ld, kind, tags, detail, doc, dep, pre, sortText, "", "", none, none, none, "", none, "", none, .null⟩, .ok) := by
    apply unmarshalFields_omitEmpty
    · intro h
      rw [of_decide_eq_true h]
    · intro _
      rfl
  have s10 : unmarshalFields CompletionItem.setField
      (omitEmpty (decide (filterText = "")) "filterText" (.str filterText))
      ⟨label, ld, kind, tags, detail, doc, dep, pre, sortText, "", "", none, none, none, "", none, "", none, .null⟩ .ok =
      (⟨label, ld, kind, tags, detail, doc, dep, pre, sortText, filterText, "", none, none, none, "", none, "", none, .null⟩, .ok) := by
    apply unmarshalFields_omitEmpty
    · intro h
      rw [of_decide_eq_true h]
    · intro _
      rfl
  have s11 : unmarshalFields CompletionItem.setField
      (omitEmpty (decide (insertText = "")) "insertText" (.str insertText))
      ⟨label, ld, kind, tags, detail, doc, dep, pre, sortText, filterText, "", none, none, none, "", none, "", none, .null⟩ .ok =
      (⟨label, ld, kind, tags, detail, doc, dep, pre, sortText, filterText, insertText, none, none, none, "", none, "", none, .null⟩, .ok) := by
    apply unmarshalFields_omitEmpty
    · intro h
      rw [of_decide_eq_true h]
    · intro _
      rfl
  have s12 : unmarshalFields CompletionItem.setField
      (omitEmpty fmt.isNone "insertTextFormat" (marshalPtr marshalInt fmt))
      ⟨label, ld, kind, tags, detail, doc, dep, pre, sortText, filterText, insertText, none, none, none, "", none, "", none, .null⟩ .ok =
      (⟨label, ld, kind, tags, detail, doc, dep, pre, sortText, filterText, insertText, fmt, none, none, "", none, "", none, .null⟩, .ok) := by
    apply unmarshalFields_omitEmpty
    · intro h
      cases fmt <;> simp at h ⊢
    · intro h
      cases fmt with
      | none => simp at h
      | some c =>
        have e : unmarshalPtr 0 unmarshalInt (marshalInt c) none = (some c, .ok) :=
          unmarshalPtr_of_num _ _ _ _ (unmarshalInt_marshalInt c 0 (hfmt c rfl))
        simp [CompletionItem_setField_insertTextFormat, marshalPtr, e]
  have s13 : unmarshalFields CompletionItem.setField
      (omitEmpty mode.isNone "insertTextMode" (marshalPtr marshalInt mode))
      ⟨label, ld, kind, tags, detail, doc, dep, pre, sortText, filterText, insertText, fmt, none, none, "", none, "", none, .null⟩ .ok =
      (⟨label, ld, kind, tags, detail, doc, dep, pre, sortText, filterText, insertText, fmt, mode, none, "", none, "", none, .null⟩, .ok) := by
    apply unmarshalFields_omitEmpty
    · intro h
      cases mode <;> simp at h ⊢
    · intro h
      cases mode with
      | none => simp at h
      | some c =>
        have e : unmarshalPtr 0 unmarshalInt (marshalInt c) none = (some c, .ok) :=
          unmarshalPtr_of_num _ _ _ _ (unmarshalInt_marshalInt c 0 (hmode c rfl))
        simp [CompletionItem_setField_insertTextMode, marshalPtr, e]
  have s14 : unmarshalFields CompletionItem.setField
      (omitEmpty te.isNone "textEdit" (marshalPtr marshalTextEdit te))
      ⟨label, ld, kind, tags, detail, doc, dep, pre, sortText, filterText, insertText, fmt, mode, none, "", none, "", none, .null⟩ .ok =
      (⟨label, ld, kind, tags, detail, doc, dep, pre, sortText, filterText, insertText, fmt, mode, te, "", none, "", none, .null⟩, .ok) := by
    apply unmarshalFields_omitEmpty
    · intro h
      cases te <;> simp at h ⊢
    · intro h
      cases te with
      | none => simp at h
      | some c =>
        have e : unmarshalPtr TextEdit.zero unmarshalTextEdit (marshalTextEdit c) none =
            (some c, .ok) :=
          unmarshalPtr_of_obj _ _ _ _ (unmarshalTextEdit_marshalTextEdit c TextEdit.zero (hte c rfl))
        simp [CompletionItem_setField_textEdit, marshalPtr, e]
  have s15 : unmarshalFields CompletionItem.setField
      (omitEmpty (decide (teText = "")) "textEditText" (.str teText))
      ⟨label, ld, kind, tags, detail, doc, dep, pre, sortText, filterText, insertText, fmt, mode, te, "", none, "", none, .null⟩ .ok =
      (⟨label, ld, kind, tags, detail, doc, dep, pre, sortText, filterText, insertText, fmt, mode, te, teText, none, "", none, .null⟩, .ok) := by
    apply unmarshalFields_omitEmpty
    · intro h
      rw [of_decide_eq_true h]
    · intro _
      rfl
  have s16 : unmarshalFields CompletionItem.setField
      (omitEmpty (sliceEmpty ate) "additionalTextEdits" (marshalSlice marshalTextEdit ate))
      ⟨label, ld, kind, tags, detail, doc, dep, pre, sortText, filterText, insertText, fmt, mode, te, teText, none, "", none, .null⟩ .ok =
      (⟨label, ld, kind, tags, detail, doc, dep, pre, sortText, filterText, insertText, fmt, mode, te, teText, ate, "", none, .null⟩, .ok) := by
    apply unmarshalFields_omitEmpty
    · intro h
      rw [sliceEmpty_eq_true ate h hate0]
    · intro _
      have e := unmarshalSlice_marshalSlice "[]protocol.TextEdit" TextEdit.zero unmarshalTextEdit
        marshalTextEdit ate (fun l hl x hx => unmarshalTextEdit_marshalTextEdit x _
          (hate x (by rw [hl]; exact hx)))
      simp [CompletionItem_setField_additionalTextEdits, e]
  have s17 : unmarshalFields CompletionItem.setField
      (omitEmpty (decide (commit = "")) "commitCharacters" (.str commit))
      ⟨label, ld, kind, tags, detail, doc, dep, pre, sortText, filterText, insertText, fmt, mode, te, teText, ate, "", none, .null⟩ .ok =
      (⟨label, ld, kind, tags, detail, doc, dep, pre, sortText, filterText, insertText, fmt, mode, te, teText, ate, commit, none, .null⟩, .ok) := by
    apply unmarshalFields_omitEmpty
    · intro h
      rw [of_decide_eq_true h]
    · intro _
      rfl
  have s18 : unmarshalFields CompletionItem.setField
      (omitEmpty cmd.isNone "command" (marshalPtr marshalCommand cmd))
      ⟨label, ld, kind, tags, detail, doc, dep, pre, sortText, filterText, insertText, fmt, mode, te, teText, ate, commit, none, .null⟩ .ok =
      (⟨label, ld, kind, tags, detail, doc, dep, pre, sortText, filterText, insertText, fmt, mode, te, teText, ate, commit, cmd, .null⟩, .ok) := by
    apply unmarshalFields_omitEmpty
    · intro h
      cases cmd <;> simp at h ⊢
    · intro h
      cases cmd with
      | none => simp at h
      | some c =>
        have e : unmarshalPtr Protocol.Command.zero unmarshalCommand (marshalCommand c) none =
            (some c, .ok) :=
          unmarshalPtr_of_obj _ _ _ _ (unmarshalCommand_marshalCommand c (hcmd c rfl))
        simp [CompletionItem_setField_command, marshalPtr, e]
  have s19 : unmarshalFields CompletionItem.setField
      (omitEmpty (anyEmpty data) "data" data)
      ⟨label, ld, kind, tags, detail, doc, dep, pre, sortText, filterText, insertText, fmt, mode, te, teText, ate, commit, cmd, .null⟩ .ok =
      (⟨label, ld, kind, tags, detail, doc, dep, pre, sortText, filterText, insertText, fmt, mode, te, teText, ate, commit, cmd, data⟩, .ok) := by
    apply unmarshalFields_omitEmpty
    · intro h
      cases data <;> simp [anyEmpty] at h ⊢
    · intro _
      simp [CompletionItem_setField_data, unmarshalAny_of_representable, hdata]
  have t2 := (unmarshalFields_append CompletionItem.setField _ _ _ _ t1).trans s2
  have t3 := (unmarshalFields_append CompletionItem.setField _ _ _ _ t2).trans s3
  have t4 := (unmarshalFields_append CompletionItem.setField _ _ _ _ t3).trans s4
  have t5 := (unmarshalFields_append CompletionItem.setField _ _ _ _ t4).trans s5
  have t6 := (unmarshalFields_append CompletionItem.setField _ _ _ _ t5).trans s6
  have t7 := (unmarshalFields_append CompletionItem.setField _ _ _ _ t6).trans s7
  have t8 := (unmarshalFields_append CompletionItem.setField _ _ _ _ t7).trans s8
  have t9 := (unmarshalFields_append CompletionItem.setField _ _ _ _ t8).trans s9
  have t10 := (unmarshalFields_append CompletionItem.setField _ _ _ _ t9).trans s10
  have t11 := (unmarshalFields_append CompletionItem.setField _ _ _ _ t10).trans s11
  have t12 := (unmarshalFields_append CompletionItem.setField _ _ _ _ t11).trans s12
  have t13 := (unmarshalFields_append CompletionItem.setField _ _ _ _ t12).trans s13
  have t14 := (unmarshalFields_append CompletionItem.setField _ _ _ _ t13).trans s14
  have t15 := (unmarshalFields_append CompletionItem.setField _ _ _ _ t14).trans s15
  have t16 := (unmarshalFields_append CompletionItem.setField _ _ _ _ t15).trans s16
  have t17 := (unmarshalFields_append CompletionItem.setField _ _ _ _ t16).trans s17
  have t18 := (unmarshalFields_append CompletionItem.setField _ _ _ _ t17).trans s18
  have t19 := (unmarshalFields_append CompletionItem.setField _ _ _ _ t18).trans s19
  exact t19

/-! ### `CompletionList` with members in any order -/

theorem lastMember_append (names : List String) (name : String)
    (l1 l2 : List (String × Json)) :
    lastMember names name (l1 ++ l2) =
      match lastMember names name l2 with
      | some v => some v
      | none => lastMember names name l1 := by
  induction l1 with
  | nil =>
    rw [List.nil_append]
    cases lastMember names name l2 <;> rfl
  | cons kj t ih =>
    obtain ⟨k, j⟩ := kj
    rw [List.cons_append, lastMember_cons, lastMember_cons, ih]
    cases lastMember names name l2 <;> rfl

/-- Among members `name` that are booleans, the last member `name` is a boolean. -/
theorem lastMember_isBool (names : List String) (name : String) :
    ∀ (kvs : List (String × Json)), boolMembersNamed names name kvs →
      ∀ v, lastMember names name kvs = some v → v.isBool = true := by
  intro kvs
  induction kvs with
  | nil => intro _ v h; simp [lastMember] at h
  | cons kj t ih =>
    intro h v hv
    obtain ⟨k, j⟩ := kj
    rw [lastMember_cons] at hv
    have ht : boolMembersNamed names name t := fun kv hkv => h kv (List.mem_cons_of_mem _ hkv)
    cases hl : lastMember names name t with
    | some w =>
      rw [hl] at hv
      simp only [Option.some.injEq] at hv
      exact hv ▸ ih ht w hl
    | none =>
      rw [hl] at hv
      simp only at hv
      split at hv
      · rename_i hm
        simp only [Option.some.injEq] at hv
        exact hv ▸ h (k, j) (List.mem_cons_self _ _) hm
      · simp at hv

theorem boolOr_step (o x : Option Json) (d : Bool) :
    (∀ v, o = some v → v.isBool = true) →
    Json.boolOr (match o with | some v => some v | none => x) d =
      Json.boolOr o (Json.boolOr x d) := by
  intro ho
  cases o with
  | none => cases x <;> rfl
  | some v =>
    have := ho v rfl
    cases v <;> simp [Json.isBool] at this
    rfl

/-- Members that are not `items`, and whose `isIncomplete` are booleans, leave the items
and set the flag to the last of them. -/
theorem CompletionList_unmarshalFields_flag (kvs : List (String × Json))
    (hn : noMemberNamed ["isIncomplete", "items"] "items" kvs)
    (hb : boolMembersNamed ["isIncomplete", "items"] "isIncomplete" kvs) :
    ∀ v : CompletionList, unmarshalFields CompletionList.setField kvs v .ok =
      ({ v with IsIncomplete :=
          Json.boolOr (lastMember ["isIncomplete", "items"] "isIncomplete" kvs) v.IsIncomplete },
        .ok) := by
  induction kvs with
  | nil => intro v; rfl
  | cons kj t ih =>
    intro v
    obtain ⟨k, j⟩ := kj
    have htn : noMemberNamed ["isIncomplete", "items"] "items" t :=
      fun kv hkv => hn kv (List.mem_cons_of_mem _ hkv)
    have htb : boolMembersNamed ["isIncomplete", "items"] "isIncomplete" t :=
      fun kv hkv => hb kv (List.mem_cons_of_mem _ hkv)
    have hkn := hn (k, j) (List.mem_cons_self _ _)
    have hkb := hb (k, j) (List.mem_cons_self _ _)
    rw [unmarshalFields_cons, lastMember_cons, boolOr_step _ _ _ (lastMember_isBool _ _ t htb)]
    rcases hm : matchField ["isIncomplete", "items"] k with _ | n
    · have e : CompletionList.setField k j v = (v, .ok) := by simp [CompletionList.setField, hm]
      rw [e]
      simp only [Status_merge_ok]
      rw [ih htn htb v]
      simp [Json.boolOr]
    · have hmem := matchField_mem _ _ _ hm
      simp only [List.mem_cons, List.mem_singleton, List.not_mem_nil, or_false] at hmem
      rcases hmem with rfl | rfl
      · have hj := hkb hm
        cases j with
        | bool b =>
          have e : CompletionList.setField k (.bool b) v = ({ v with IsIncomplete := b }, .ok) := by
            simp [CompletionList.setField, hm, unmarshalBool]
          rw [e]
          simp only [Status_merge_ok]
          rw [ih htn htb]
          simp [Json.boolOr]
        | _ => simp [Json.isBool] at hj
      · exact absurd hm hkn

/-- Decoding as a `CompletionList` an object whose one member `items` is an array,
among members `isIncomplete` that are booleans and any other members. -/
theorem unmarshalCompletionList_of_items (pre post : List (String × Json)) (key : String)
    (xs : List Json) (its : Option (List CompletionItem))
    (hkey : matchField ["isIncomplete", "items"] key = some "items")
    (hpre : noMemberNamed ["isIncomplete", "items"] "items" pre)
    (hpost : noMemberNamed ["isIncomplete", "items"] "items" post)
    (hbpre : boolMembersNamed ["isIncomplete", "items"] "isIncomplete" pre)
    (hbpost : boolMembersNamed ["isIncomplete", "items"] "isIncomplete" post)
    (hxs : unmarshalSlice "[]protocol.CompletionItem" CompletionItem.zero unmarshalCompletionItem
      (.arr xs) none = (its, .ok)) :
    unmarshalCompletionList (.obj (pre ++ (key, .arr xs) :: post)) CompletionList.zero =
      (⟨Json.boolOr (lastMember ["isIncomplete", "items"] "isIncomplete" (pre ++ post)) false,
        its⟩, .ok) := by
  have e1 := CompletionList_unmarshalFields_flag pre hpre hbpre CompletionList.zero
  have e2 : CompletionList.setField key (.arr xs)
      ⟨Json.boolOr (lastMember ["isIncomplete", "items"] "isIncomplete" pre) false, none⟩ =
      (⟨Json.boolOr (lastMember ["isIncomplete", "items"] "isIncomplete" pre) false, its⟩,
        .ok) := by
    simp only [CompletionList.setField, hkey, CompletionList.zero, hxs]
  unfold unmarshalCompletionList
  rw [unmarshalStruct_obj, unmarshalFields_append _ _ _ _ _ e1, unmarshalFields_cons]
  simp only [CompletionList.zero] at e2 ⊢
  rw [e2]
  simp only [Status_merge_ok]
  rw [CompletionList_unmarshalFields_flag post hpost hbpost, lastMember_append,
    boolOr_step _ _ _ (lastMember_isBool _ _ post hbpost)]

/-! ### The claims -/

/-- C1: `IsLspRPCErrorCode code` is true exactly when `-32899 ≤ code ≤ -32800`, or
`code = -32002`, or `code = -32001`, for every integer (so for every 64-bit one);
5000 and -9000 are rejected and -32899, -32840, -32800, -32001, -32002 accepted. -/
theorem IsLspRPCErrorCode_iff :
    (∀ code : Int, IsLspRPCErrorCode code = true ↔
      ((-32899 ≤ code ∧ code ≤ -32800) ∨ code = -32002 ∨ code = -32001)) ∧
    IsLspRPCErrorCode 5000 = false ∧ IsLspRPCErrorCode (-9000) = false ∧
    IsLspRPCErrorCode (-32899) = true ∧ IsLspRPCErrorCode (-32840) = true ∧
    IsLspRPCErrorCode (-32800) = true ∧ IsLspRPCErrorCode (-32001) = true ∧
    IsLspRPCErrorCode (-32002) = true := by
  refine ⟨?_, by decide, by decide, by decide, by decide, by decide, by decide, by decide⟩
  intro code
  unfold IsLspRPCErrorCode LspReservedErrorRangeStart LspReservedErrorRangeEnd
    RPCServerNotInitialized RPCUnknownErrorCode
  by_cases h1 : code ≥ -32899 ∧ code ≤ -32800
  · simp [h1]
  · by_cases h2 : code = -32002 ∨ code = -32001
    · simp [h1, h2]
    · simp only [h1, h2, if_false]
      constructor
      · intro h; cases h
      · rintro (h | h) <;> exact h.elim

/-- C2 (the code departs from the claim): an array of location-link objects is
taken by the `[]Location` attempt, which accepts every array of objects. The
array of two objects holding only `targetUri`, and the encoding of a response
that holds the two links `exampleLinkA`, `exampleLinkB`, both decode with success
to a `LocationList` of two zero locations and a nil `LocationLinks`; and so does
the encoding of every response that holds only a `LocationLinks` list, with one
zero location for each link. -/
theorem DefinitionResponse_links_decode_as_LocationList :
    DefinitionResponse.UnmarshalJSON DefinitionResponse.zero exampleTargetUriArray =
      (⟨none, some [Location.zero, Location.zero], none, false⟩, none) ∧
    DefinitionResponse.MarshalJSON ⟨none, none, some [exampleLinkA, exampleLinkB], false⟩ =
      .ok (.arr [marshalLocationLink exampleLinkA, marshalLocationLink exampleLinkB]) ∧
    DefinitionResponse.UnmarshalJSON DefinitionResponse.zero
        (.arr [marshalLocationLink exampleLinkA, marshalLocationLink exampleLinkB]) =
      (⟨none, some [Location.zero, Location.zero], none, false⟩, none) ∧
    (∀ (r : DefinitionResponse) (links : List LocationLink),
      (DefinitionResponse.MarshalJSON ⟨none, none, some links, false⟩).map
          (DefinitionResponse.UnmarshalJSON r) =
        .ok (⟨none, some (links.map (fun _ => Location.zero)), none, false⟩, none)) :=
  ⟨rfl, rfl, rfl, fun r links => by
    have e := DefinitionResponse_UnmarshalJSON_links r links
    simp [DefinitionResponse.MarshalJSON, Except.map, e]⟩

/-- C3 (the code departs from the claim): the response holding only the completion
list with `isIncomplete = false` and an empty non-nil items array encodes to the
object with members `isIncomplete` and `items`, and decoding that object gives
back the list but with `Null = true`, where the encoded value had `Null = false`.
The same happens for the response holding only an empty non-nil `Items`. -/
theorem CompletionResponse_roundtrip_sets_Null :
    CompletionResponse.MarshalJSON ⟨none, some ⟨false, some []⟩, false⟩ =
      .ok (.obj [("isIncomplete", .bool false), ("items", .arr [])]) ∧
    CompletionResponse.UnmarshalJSON CompletionResponse.zero
        (.obj [("isIncomplete", .bool false), ("items", .arr [])]) =
      (⟨none, some ⟨false, some []⟩, true⟩, none) ∧
    CompletionResponse.MarshalJSON ⟨some [], none, false⟩ = .ok (.arr []) ∧
    CompletionResponse.UnmarshalJSON CompletionResponse.zero (.arr []) =
      (⟨some [], none, true⟩, none) :=
  ⟨rfl, rfl, rfl, rfl⟩

/-- C4 (the code departs from the claim): the result holding `exampleHover` encodes
to an object with the member `contents`; decoding that object returns no error and
leaves `Hover` nil and `Null` false, so the hover is lost. -/
theorem HoverResult_roundtrip_drops_hover :
    HoverResult.MarshalJSON ⟨some exampleHover, false⟩ =
      .ok (.obj [("contents", .obj [("kind", .str "markdown"), ("value", .str "x")])]) ∧
    HoverResult.UnmarshalJSON HoverResult.zero
        (.obj [("contents", .obj [("kind", .str "markdown"), ("value", .str "x")])]) =
      (⟨none, false⟩, none) :=
  ⟨rfl, rfl⟩

/-- C5, as stated, fails at the empty string: the token decoded from the JSON string
`""` encodes to the JSON number `0`, not to a JSON string. -/
theorem ProgressToken_empty_string_reencodes_as_number :
    ProgressToken.UnmarshalJSON ProgressToken.zero (.str "") = (⟨"", 0⟩, none) ∧
    ProgressToken.MarshalJSON ⟨"", 0⟩ = .ok (.num ⟨false, 0, [], none⟩) ∧
    ProgressToken.MarshalJSON ⟨"", 0⟩ ≠ .ok (.str "") := by
  refine ⟨rfl, rfl, ?_⟩
  intro h
  cases h

/-- C5, amended: for every non-empty string `s` (digit-only ones included) and every
receiver, decoding the JSON string `s` succeeds and encoding the decoded token
gives the JSON string `s` again, not a number. -/
theorem ProgressToken_string_roundtrip (r : ProgressToken) (s : String) (h : s ≠ "") :
    (ProgressToken.UnmarshalJSON r (.str s)).2 = none ∧
    (ProgressToken.UnmarshalJSON r (.str s)).1.MarshalJSON = .ok (.str s) := by
  refine ⟨rfl, ?_⟩
  show ProgressToken.MarshalJSON ⟨s, 0⟩ = .ok (.str s)
  simp [ProgressToken.MarshalJSON, h]

/-- Witness of `ProgressToken_string_roundtrip` at the digit-only string `123`. -/
theorem ProgressToken_string_roundtrip_witness :
    (ProgressToken.UnmarshalJSON ProgressToken.zero (.str "123")).2 = none ∧
    (ProgressToken.UnmarshalJSON ProgressToken.zero (.str "123")).1.MarshalJSON =
      .ok (.str "123") :=
  ProgressToken_string_roundtrip ProgressToken.zero "123" (by decide)

/-- C6, as stated, fails at both boundary values it names, at a markup with an empty
kind, and at a string that is not valid UTF-8. The `MarkedString` with empty language
and value is encoded, but its encoding is rejected by the decoder, which leaves the
receiver empty; the empty non-nil `MarkedStrings` array is rejected by the encoder;
the markup with kind `""` and value `x` comes back as a marked string; and the marked
string whose value is the byte 0xFF is emitted with the value U+FFFD and comes back
with the three bytes of U+FFFD. -/
theorem MarkupContentOrMarkedString_boundary_values_fail :
    (RawMarkupContentOrMarkedString.MarshalJSON ⟨none, some ⟨[], []⟩, none⟩).map
        (RawMarkupContentOrMarkedString.UnmarshalJSON ⟨none, none, none⟩) =
      .ok (⟨none, none, none⟩,
        some (.message "invalid contents: not MarkupContent, MarkedString or []MarkedString")) ∧
    RawMarkupContentOrMarkedString.MarshalJSON ⟨none, none, some []⟩ =
      .error (.message "one of MarkupContent, MarkedString or MarkedStrings needs to be set") ∧
    (RawMarkupContentOrMarkedString.MarshalJSON ⟨some ⟨[], [0x78]⟩, none, none⟩).map
        (RawMarkupContentOrMarkedString.UnmarshalJSON ⟨none, none, none⟩) =
      .ok (⟨none, some ⟨[], [0x78]⟩, none⟩, none) ∧
    RawMarkupContentOrMarkedString.MarshalJSON ⟨none, some ⟨[], [0xFF]⟩, none⟩ =
      .ok (.obj [("value", .str "�")]) ∧
    (RawMarkupContentOrMarkedString.MarshalJSON ⟨none, some ⟨[], [0xFF]⟩, none⟩).map
        (RawMarkupContentOrMarkedString.UnmarshalJSON ⟨none, none, none⟩) =
      .ok (⟨none, some ⟨[], [0xEF, 0xBF, 0xBD]⟩, none⟩, none) :=
  ⟨rfl, rfl, rfl, rfl, rfl⟩

/-- C6, amended: a `MarkupContentOrMarkedString` whose strings are valid UTF-8 and that
holds exactly a markup with a non-empty kind, or exactly a marked string whose
language or value is non-empty, or exactly a non-empty array of marked strings, is
encoded without error, and decoding the encoding into an empty receiver returns no
error and gives the value back. -/
theorem RawMarkupContentOrMarkedString_roundtrip (v : RawMarkupContentOrMarkedString)
    (hv : v.valid = true)
    (h : (∃ m : RawMarkupContent, m.Kind ≠ [] ∧ v = ⟨some m, none, none⟩) ∨
      (∃ m : RawMarkedString, (m.Language ≠ [] ∨ m.Value ≠ []) ∧ v = ⟨none, some m, none⟩) ∨
      (∃ l : List RawMarkedString, l ≠ [] ∧ v = ⟨none, none, some l⟩)) :
    v.MarshalJSON.map (RawMarkupContentOrMarkedString.UnmarshalJSON ⟨none, none, none⟩) =
      .ok (v, none) := by
  have key : v.coerce.MarshalJSON.map
      (MarkupContentOrMarkedString.UnmarshalJSON MarkupContentOrMarkedString.zero) =
      .ok (v.coerce, none) := by
    apply MarkupContentOrMarkedString_roundtrip_strings
    rcases h with ⟨m, hk, rfl⟩ | ⟨m, hm, rfl⟩ | ⟨l, hl, rfl⟩
    · exact Or.inl ⟨m.coerce, GoString_toJson_ne_empty _ hk, rfl⟩
    · refine Or.inr (Or.inl ⟨m.coerce, ?_, rfl⟩)
      rcases hm with hm | hm
      · exact Or.inl (GoString_toJson_ne_empty _ hm)
      · exact Or.inr (GoString_toJson_ne_empty _ hm)
    · refine Or.inr (Or.inr ⟨l.map RawMarkedString.coerce, ?_, rfl⟩)
      simpa using hl
  have e : RawMarkupContentOrMarkedString.UnmarshalJSON ⟨none, none, none⟩ =
      fun data =>
        ((MarkupContentOrMarkedString.UnmarshalJSON MarkupContentOrMarkedString.zero data).1.store,
          (MarkupContentOrMarkedString.UnmarshalJSON MarkupContentOrMarkedString.zero data).2) :=
    funext RawMarkupContentOrMarkedString_UnmarshalJSON_zero
  rw [e]
  exact roundtrip_store _ _ MarkupContentOrMarkedString.store _ _ key
    (RawMarkupContentOrMarkedString_store_coerce v hv)

/-- Witness of `RawMarkupContentOrMarkedString_roundtrip` at the marked string with the
language `go` and the value `é`, the bytes 0xC3 0xA9. -/
theorem RawMarkupContentOrMarkedString_roundtrip_witness :
    RawMarkupContentOrMarkedString.valid ⟨none, some ⟨[0x67, 0x6F], [0xC3, 0xA9]⟩, none⟩ = true ∧
    (RawMarkupContentOrMarkedString.MarshalJSON
        ⟨none, some ⟨[0x67, 0x6F], [0xC3, 0xA9]⟩, none⟩).map
        (RawMarkupContentOrMarkedString.UnmarshalJSON ⟨none, none, none⟩) =
      .ok (⟨none, some ⟨[0x67, 0x6F], [0xC3, 0xA9]⟩, none⟩, none) :=
  ⟨by decide,
    RawMarkupContentOrMarkedString_roundtrip ⟨none, some ⟨[0x67, 0x6F], [0xC3, 0xA9]⟩, none⟩
      (by decide) (Or.inr (Or.inl ⟨⟨[0x67, 0x6F], [0xC3, 0xA9]⟩, by decide, rfl⟩))⟩

/-- C7, as stated, fails for a location whose URI is not valid UTF-8: the URI of the
bytes `file:` followed by the byte 0xFF is emitted as `file:` followed by U+FFFD,
and decoding gives the URI `file:` followed by the three bytes of U+FFFD, not the
value that was encoded. -/
theorem DefinitionResponse_invalid_utf8_not_restored :
    RawDefinitionResponse.MarshalJSON
        ⟨some ⟨[0x66, 0x69, 0x6C, 0x65, 0x3A, 0xFF], Range.zero⟩, none, none, false⟩ =
      .ok (.obj [("uri", .str "file:�"), ("range", marshalRange Range.zero)]) ∧
    (RawDefinitionResponse.MarshalJSON
        ⟨some ⟨[0x66, 0x69, 0x6C, 0x65, 0x3A, 0xFF], Range.zero⟩, none, none, false⟩).map
        (RawDefinitionResponse.UnmarshalJSON ⟨none, none, none, false⟩) =
      .ok (⟨some ⟨[0x66, 0x69, 0x6C, 0x65, 0x3A, 0xEF, 0xBF, 0xBD], Range.zero⟩, none, none,
        false⟩, none) ∧
    (⟨some ⟨[0x66, 0x69, 0x6C, 0x65, 0x3A, 0xEF, 0xBF, 0xBD], Range.zero⟩, none, none, false⟩ :
        RawDefinitionResponse) ≠
      ⟨some ⟨[0x66, 0x69, 0x6C, 0x65, 0x3A, 0xFF], Range.zero⟩, none, none, false⟩ :=
  ⟨rfl, rfl, by decide⟩

/-- C7, amended: a `DefinitionResponse` whose URIs are valid UTF-8 and that holds
exactly one location with a non-empty URI, or exactly a non-nil location list (the
empty one included), or exactly the null marker, is encoded without error, and
decoding the encoding into any receiver returns no error and gives the value back.
The numbers of the positions are `uint32` values. -/
theorem RawDefinitionResponse_roundtrip (r v : RawDefinitionResponse)
    (h : (∃ loc : RawLocation, loc.URI ≠ [] ∧ loc.valid = true ∧ loc.Range.wf ∧
        v = ⟨some loc, none, none, false⟩) ∨
      (∃ l : List RawLocation, (∀ x ∈ l, x.valid = true ∧ x.Range.wf) ∧
        v = ⟨none, some l, none, false⟩) ∨
      v = ⟨none, none, none, true⟩) :
    v.MarshalJSON.map (RawDefinitionResponse.UnmarshalJSON r) = .ok (v, none) := by
  have hv : v.valid = true := by
    rcases h with ⟨loc, _, hl, _, rfl⟩ | ⟨l, hl, rfl⟩ | rfl
    · simpa [RawDefinitionResponse.valid] using hl
    · simpa [RawDefinitionResponse.valid] using fun x hx => (hl x hx).1
    · rfl
  have key : v.coerce.MarshalJSON.map (DefinitionResponse.UnmarshalJSON DefinitionResponse.zero) =
      .ok (v.coerce, none) := by
    apply DefinitionResponse_roundtrip_strings
    rcases h with ⟨loc, hu, _, hw, rfl⟩ | ⟨l, hl, rfl⟩ | rfl
    · exact Or.inl ⟨loc.coerce, GoString_toJson_ne_empty _ hu, hw, rfl⟩
    · refine Or.inr (Or.inl ⟨l.map RawLocation.coerce, ?_, rfl⟩)
      intro x hx
      obtain ⟨y, hy, rfl⟩ := List.mem_map.mp hx
      exact (hl y hy).2
    · exact Or.inr (Or.inr rfl)
  exact roundtrip_store _ _ DefinitionResponse.store _ _ key
    (RawDefinitionResponse_store_coerce v hv)

/-- Witness of `RawDefinitionResponse_roundtrip` at the response holding the location
with the URI `file:///a` and the range (1, 2) to (3, 4). -/
theorem RawDefinitionResponse_roundtrip_witness :
    (GoString.ofJson "file:///a" ≠ [] ∧
      RawLocation.valid ⟨GoString.ofJson "file:///a", ⟨⟨1, 2⟩, ⟨3, 4⟩⟩⟩ = true ∧
      Range.wf ⟨⟨1, 2⟩, ⟨3, 4⟩⟩) ∧
    (RawDefinitionResponse.MarshalJSON
        ⟨some ⟨GoString.ofJson "file:///a", ⟨⟨1, 2⟩, ⟨3, 4⟩⟩⟩, none, none, false⟩).map
        (RawDefinitionResponse.UnmarshalJSON ⟨none, none, none, false⟩) =
      .ok (⟨some ⟨GoString.ofJson "file:///a", ⟨⟨1, 2⟩, ⟨3, 4⟩⟩⟩, none, none, false⟩, none) :=
  ⟨⟨by decide, by decide, by decide⟩,
    RawDefinitionResponse_roundtrip ⟨none, none, none, false⟩
      ⟨some ⟨GoString.ofJson "file:///a", ⟨⟨1, 2⟩, ⟨3, 4⟩⟩⟩, none, none, false⟩
      (Or.inl ⟨⟨GoString.ofJson "file:///a", ⟨⟨1, 2⟩, ⟨3, 4⟩⟩⟩, by decide, by decide, by decide,
        rfl⟩)⟩

/-- C8, as stated, fails for a full report that holds a diagnostic with an empty
non-nil `Tags` slice, and for a report whose result id is not valid UTF-8. The
member `tags` is tagged `omitempty`: the encoding leaves it out and the decoded
diagnostic has a nil `Tags`. The result id of the one byte 0xFF is emitted as
U+FFFD and comes back as the three bytes of U+FFFD. -/
theorem DocumentDiagnosticReport_empty_tags_not_restored :
    (RawDocumentDiagnosticReport.MarshalJSON
        ⟨some ⟨GoString.ofJson "full", [],
          some [⟨Range.zero, 0, .null, none, [], [], some [], none, .null⟩]⟩, none⟩).map
        (RawDocumentDiagnosticReport.UnmarshalJSON ⟨none, none⟩) =
      .ok (⟨some ⟨GoString.ofJson "full", [],
        some [⟨Range.zero, 0, .null, none, [], [], none, none, .null⟩]⟩, none⟩, none) ∧
    (RawDocumentDiagnosticReport.MarshalJSON
        ⟨none, some ⟨GoString.ofJson "unchanged", [0xFF]⟩⟩).map
        (RawDocumentDiagnosticReport.UnmarshalJSON ⟨none, none⟩) =
      .ok (⟨none, some ⟨GoString.ofJson "unchanged", [0xEF, 0xBF, 0xBD]⟩⟩, none) :=
  ⟨rfl, rfl⟩

/-- C8, amended: a `DocumentDiagnosticReport` whose strings are valid UTF-8 and that
holds exactly a full report of kind `full` (items nil, empty or non-empty, any
result id) whose diagnostics are well formed and hold no empty non-nil `Tags` or
`RelatedInformation` slice, or exactly an unchanged report of kind `unchanged` (any
result id), is encoded without error, and decoding the encoding into any receiver
returns no error and gives the value back. -/
theorem RawDocumentDiagnosticReport_roundtrip (r v : RawDocumentDiagnosticReport)
    (h : (∃ (rid : GoString) (items : Option (List RawDiagnostic)),
        GoString.valid rid = true ∧
        (∀ d ∈ items.getD [], d.valid = true ∧ d.coerce.wf ∧ d.coerce.noEmptySlice) ∧
        v = ⟨some ⟨GoString.ofJson "full", rid, items⟩, none⟩) ∨
      (∃ rid : GoString, GoString.valid rid = true ∧
        v = ⟨none, some ⟨GoString.ofJson "unchanged", rid⟩⟩)) :
    v.MarshalJSON.map (RawDocumentDiagnosticReport.UnmarshalJSON r) = .ok (v, none) := by
  have hfull : GoString.valid (GoString.ofJson "full") = true := by decide
  have hunch : GoString.valid (GoString.ofJson "unchanged") = true := by decide
  have hv : v.valid = true := by
    rcases h with ⟨rid, items, hr, hd, rfl⟩ | ⟨rid, hr, rfl⟩
    · simp only [RawDocumentDiagnosticReport.valid, Option.all_some, Option.all_none,
        Bool.and_true, RawFullDocumentDiagnosticReport.valid, hfull, hr, Bool.true_and,
        List.all_eq_true]
      exact fun d hd' => (hd d hd').1
    · simp [RawDocumentDiagnosticReport.valid, RawUnchangedDocumentDiagnosticReport.valid,
        hunch, hr]
  have key : v.coerce.MarshalJSON.map
      (DocumentDiagnosticReport.UnmarshalJSON DocumentDiagnosticReport.zero) =
      .ok (v.coerce, none) := by
    apply DocumentDiagnosticReport_roundtrip_strings
    rcases h with ⟨rid, items, _, hd, rfl⟩ | ⟨rid, _, rfl⟩
    · refine Or.inl ⟨GoString.toJson rid, items.map (List.map RawDiagnostic.coerce), ?_, ?_⟩
      · intro d hd'
        cases items with
        | none => simp at hd'
        | some l =>
          simp only [Option.map_some', Option.getD_some] at hd'
          obtain ⟨y, hy, rfl⟩ := List.mem_map.mp hd'
          exact (hd y hy).2
      · simp [RawDocumentDiagnosticReport.coerce, RawFullDocumentDiagnosticReport.coerce,
          GoString_toJson_ofJson]
    · refine Or.inr ⟨GoString.toJson rid, ?_⟩
      simp [RawDocumentDiagnosticReport.coerce, RawUnchangedDocumentDiagnosticReport.coerce,
        GoString_toJson_ofJson]
  exact roundtrip_store _ _ DocumentDiagnosticReport.store _ _ key
    (RawDocumentDiagnosticReport_store_coerce v hv)

/-- Witness of `RawDocumentDiagnosticReport_roundtrip` at the full report with result id
`r1` and the example diagnostic. -/
theorem RawDocumentDiagnosticReport_roundtrip_witness :
    (GoString.valid (GoString.ofJson "r1") = true ∧
      ∀ d ∈ (some [Diagnostic.store exampleDiagnostic]).getD [],
        d.valid = true ∧ d.coerce.wf ∧ d.coerce.noEmptySlice) ∧
    (RawDocumentDiagnosticReport.MarshalJSON
        ⟨some ⟨GoString.ofJson "full", GoString.ofJson "r1",
          some [Diagnostic.store exampleDiagnostic]⟩, none⟩).map
        (RawDocumentDiagnosticReport.UnmarshalJSON ⟨none, none⟩) =
      .ok (⟨some ⟨GoString.ofJson "full", GoString.ofJson "r1",
        some [Diagnostic.store exampleDiagnostic]⟩, none⟩, none) :=
  ⟨⟨by decide, by decide⟩,
    RawDocumentDiagnosticReport_roundtrip ⟨none, none⟩
      ⟨some ⟨GoString.ofJson "full", GoString.ofJson "r1",
        some [Diagnostic.store exampleDiagnostic]⟩, none⟩
      (Or.inl ⟨GoString.ofJson "r1", some [Diagnostic.store exampleDiagnostic], by decide,
        by decide, rfl⟩)⟩

/-- C9: decoding the literal `null` into a `CompletionResponse`, a
`DefinitionResponse` or a `HoverResult` returns no error and leaves `Null = true`
and every variant field nil, whatever the receiver held. -/
theorem null_decodes_to_null_marker (cr : CompletionResponse) (dr : DefinitionResponse)
    (h : HoverResult) :
    CompletionResponse.UnmarshalJSON cr .null = (⟨none, none, true⟩, none) ∧
    DefinitionResponse.UnmarshalJSON dr .null = (⟨none, none, none, true⟩, none) ∧
    HoverResult.UnmarshalJSON h .null = (⟨none, true⟩, none) :=
  ⟨rfl, rfl, rfl⟩

/-- C10: encoding the value whose only populated state is the null marker gives,
for `CompletionResponse`, `DefinitionResponse` and `HoverResult`, no error and the
JSON value `null`, whose compact text is the four bytes `null`. -/
theorem null_marker_encodes_to_null :
    CompletionResponse.MarshalJSON ⟨none, none, true⟩ = .ok .null ∧
    DefinitionResponse.MarshalJSON ⟨none, none, none, true⟩ = .ok .null ∧
    HoverResult.MarshalJSON ⟨none, true⟩ = .ok .null :=
  ⟨rfl, rfl, rfl⟩

/-- C11 (the code departs from the claim): `CompletionResponse.UnmarshalJSON` sets
`Null = true` on every success. The completion list object with one item labelled
`foo`, and the array of that item, decode with success and `Null = true`; for every
receiver and input the call either leaves `Null = true` or fails with the receiver
unchanged. For `DefinitionResponse` and `HoverResult` the flag is true after the call
exactly when the input is the literal `null`. -/
theorem CompletionResponse_Null_set_on_every_success :
    CompletionResponse.UnmarshalJSON CompletionResponse.zero
        (.obj [("isIncomplete", .bool true), ("items", .arr [.obj [("label", .str "foo")]])]) =
      (⟨none, some ⟨true, some [{ CompletionItem.zero with Label := "foo" }]⟩, true⟩, none) ∧
    CompletionResponse.UnmarshalJSON CompletionResponse.zero
        (.arr [.obj [("label", .str "foo")]]) =
      (⟨some [{ CompletionItem.zero with Label := "foo" }], none, true⟩, none) ∧
    (∀ (cr : CompletionResponse) (data : Json),
      (CompletionResponse.UnmarshalJSON cr data).1.Null = true ∨
      CompletionResponse.UnmarshalJSON cr data = (cr, some (.message
        "invalid CompletionResponse: not a CompletionList, []CompletionItem or null"))) ∧
    (∀ (dr : DefinitionResponse) (data : Json),
      (DefinitionResponse.UnmarshalJSON dr data).1.Null = true ↔ data = .null) ∧
    (∀ (h : HoverResult) (data : Json),
      (HoverResult.UnmarshalJSON h data).1.Null = true ↔ data = .null) :=
  ⟨rfl, rfl, CompletionResponse_Null_or_error, DefinitionResponse_Null_iff, HoverResult_Null_iff⟩

/-- C12: `DocumentDiagnosticReport.UnmarshalJSON` dispatches on the member `kind`. An
object whose one member `kind` is the string `full`, and which `json.Unmarshal`
decodes without error into a `FullDocumentDiagnosticReport` (the other members are
well typed), decodes with success to that full report, of kind `full`, with
`Unchanged` nil; the same with `unchanged` and `Full` nil. The object with the
members `kind` = `full` and `items` = `[]` gives a full report with an empty non-nil
items slice, and the object with `kind` = `unchanged` and a `resultId` keeps it. -/
theorem DocumentDiagnosticReport_dispatch_on_kind (r : DocumentDiagnosticReport)
    (pre post pre' post' : List (String × Json)) (rid : String)
    (hpre : noKindMember pre) (hpost : noKindMember post)
    (hfull : (unmarshalFullDocumentDiagnosticReport (.obj (pre ++ ("kind", .str "full") :: post))
      FullDocumentDiagnosticReport.zero).2 = .ok)
    (hpre' : noKindMember pre') (hpost' : noKindMember post')
    (hunchanged : (unmarshalUnchangedDocumentDiagnosticReport
      (.obj (pre' ++ ("kind", .str "unchanged") :: post'))
      UnchangedDocumentDiagnosticReport.zero).2 = .ok) :
    (DocumentDiagnosticReport.UnmarshalJSON r (.obj (pre ++ ("kind", .str "full") :: post)) =
        (⟨some (unmarshalFullDocumentDiagnosticReport (.obj (pre ++ ("kind", .str "full") :: post))
          FullDocumentDiagnosticReport.zero).1, none⟩, none) ∧
      (unmarshalFullDocumentDiagnosticReport (.obj (pre ++ ("kind", .str "full") :: post))
          FullDocumentDiagnosticReport.zero).1.Kind = "full") ∧
    (DocumentDiagnosticReport.UnmarshalJSON r
          (.obj (pre' ++ ("kind", .str "unchanged") :: post')) =
        (⟨none, some (unmarshalUnchangedDocumentDiagnosticReport
          (.obj (pre' ++ ("kind", .str "unchanged") :: post'))
          UnchangedDocumentDiagnosticReport.zero).1⟩, none) ∧
      (unmarshalUnchangedDocumentDiagnosticReport
          (.obj (pre' ++ ("kind", .str "unchanged") :: post'))
          UnchangedDocumentDiagnosticReport.zero).1.Kind = "unchanged") ∧
    DocumentDiagnosticReport.UnmarshalJSON r (.obj [("kind", .str "full"), ("items", .arr [])]) =
      (⟨some ⟨"full", "", some []⟩, none⟩, none) ∧
    DocumentDiagnosticReport.UnmarshalJSON r
        (.obj [("kind", .str "unchanged"), ("resultId", .str rid)]) =
      (⟨none, some ⟨"unchanged", rid⟩⟩, none) := by
  have kf : (unmarshalFullDocumentDiagnosticReport (.obj (pre ++ ("kind", .str "full") :: post))
      FullDocumentDiagnosticReport.zero).1.Kind = "full" := by
    have e1 := diagnosticKind_of_full _ _ (Prod.ext rfl hfull)
    rw [diagnosticKind_of_member pre post "full" hpre hpost] at e1
    exact (congrArg Prod.fst e1).symm
  have ku : (unmarshalUnchangedDocumentDiagnosticReport
      (.obj (pre' ++ ("kind", .str "unchanged") :: post'))
      UnchangedDocumentDiagnosticReport.zero).1.Kind = "unchanged" := by
    have e1 := diagnosticKind_of_unchanged _ _ (Prod.ext rfl hunchanged)
    rw [diagnosticKind_of_member pre' post' "unchanged" hpre' hpost'] at e1
    exact (congrArg Prod.fst e1).symm
  exact ⟨⟨DocumentDiagnosticReport_UnmarshalJSON_full r _ _ (Prod.ext rfl hfull) kf, kf⟩,
    ⟨DocumentDiagnosticReport_UnmarshalJSON_unchanged r _ _ (Prod.ext rfl hunchanged) ku, ku⟩,
    rfl, rfl⟩

/-- Witness of `DocumentDiagnosticReport_dispatch_on_kind` at the objects with the members
`kind` = `full`, `items` = `[]`, and `kind` = `unchanged`, `resultId` = `abc`. -/
theorem DocumentDiagnosticReport_dispatch_on_kind_witness :
    noKindMember [("items", .arr [])] ∧ noKindMember [("resultId", .str "abc")] ∧
    DocumentDiagnosticReport.UnmarshalJSON DocumentDiagnosticReport.zero
        (.obj [("kind", .str "full"), ("items", .arr [])]) =
      (⟨some ⟨"full", "", some []⟩, none⟩, none) ∧
    DocumentDiagnosticReport.UnmarshalJSON DocumentDiagnosticReport.zero
        (.obj [("kind", .str "unchanged"), ("resultId", .str "abc")]) =
      (⟨none, some ⟨"unchanged", "abc"⟩⟩, none) :=
  ⟨by decide, by decide,
    (DocumentDiagnosticReport_dispatch_on_kind DocumentDiagnosticReport.zero
      [] [("items", .arr [])] [] [("resultId", .str "abc")] "abc"
      (by decide) (by decide) rfl (by decide) (by decide) rfl).1.1,
    (DocumentDiagnosticReport_dispatch_on_kind DocumentDiagnosticReport.zero
      [] [("items", .arr [])] [] [("resultId", .str "abc")] "abc"
      (by decide) (by decide) rfl (by decide) (by decide) rfl).2.1.1⟩

/-- C13: an object whose one member `kind` is a string other than `full` and
`unchanged`, and an object without member `kind`, are rejected: the error message is
`unknown document diagnostic report kind: ` followed by the kind read (empty when
absent), and the receiver is left with `Full` and `Unchanged` nil. -/
theorem DocumentDiagnosticReport_unknown_kind (r : DocumentDiagnosticReport)
    (pre post kvs : List (String × Json)) (k : String)
    (hpre : noKindMember pre) (hpost : noKindMember post) (hkvs : noKindMember kvs)
    (hfull : k ≠ "full") (hunchanged : k ≠ "unchanged") :
    DocumentDiagnosticReport.UnmarshalJSON r (.obj (pre ++ ("kind", .str k) :: post)) =
      (⟨none, none⟩, some (.message ("unknown document diagnostic report kind: " ++ k))) ∧
    DocumentDiagnosticReport.UnmarshalJSON r (.obj kvs) =
      (⟨none, none⟩, some (.message ("unknown document diagnostic report kind: " ++ ""))) := by
  have e1 := diagnosticKind_of_member pre post k hpre hpost
  have e2 := diagnosticKind_of_absent kvs hkvs
  constructor
  · simp [DocumentDiagnosticReport.UnmarshalJSON, e1, Status.isOk, hfull, hunchanged,
      DocumentDiagnosticReport.zero]
  · simp [DocumentDiagnosticReport.UnmarshalJSON, e2, Status.isOk,
      DocumentDiagnosticReport.zero]

/-- Witness of `DocumentDiagnosticReport_unknown_kind` at the object with the one member
`kind` = `bogus` and at the object with the one member `foo` = 1. -/
theorem DocumentDiagnosticReport_unknown_kind_witness :
    noKindMember [] ∧ noKindMember [("foo", .num ⟨false, 1, [], none⟩)] ∧
    "bogus" ≠ "full" ∧ "bogus" ≠ "unchanged" ∧
    DocumentDiagnosticReport.UnmarshalJSON DocumentDiagnosticReport.zero
        (.obj [("kind", .str "bogus")]) =
      (⟨none, none⟩, some (.message ("unknown document diagnostic report kind: " ++ "bogus"))) ∧
    DocumentDiagnosticReport.UnmarshalJSON DocumentDiagnosticReport.zero
        (.obj [("foo", .num ⟨false, 1, [], none⟩)]) =
      (⟨none, none⟩, some (.message ("unknown document diagnostic report kind: " ++ ""))) :=
  ⟨by decide, by decide, by decide, by decide,
    DocumentDiagnosticReport_unknown_kind DocumentDiagnosticReport.zero [] []
      [("foo", .num ⟨false, 1, [], none⟩)] "bogus" (by decide) (by decide) (by decide)
      (by decide) (by decide)⟩

/-- C14, as stated, fails for a report built with another kind: the full report whose
`Kind` is `bogus` is encoded without error and the member `kind` of the object
emitted is `bogus`; with the zero `Kind` it is the empty string. -/
theorem DocumentDiagnosticReport_emits_other_kind :
    (DocumentDiagnosticReport.MarshalJSON ⟨some ⟨"bogus", "", none⟩, none⟩).map
        (Json.member "kind") = .ok (some (.str "bogus")) ∧
    (DocumentDiagnosticReport.MarshalJSON ⟨some FullDocumentDiagnosticReport.zero, none⟩).map
        (Json.member "kind") = .ok (some (.str "")) :=
  ⟨rfl, rfl⟩

/-- C14, amended: whenever `DocumentDiagnosticReport.MarshalJSON` succeeds, the member
`kind` of the object emitted is the `Kind` field of the report that is populated (the
full report when there is one, else the unchanged report), whatever it holds; the
encoding fails only when neither is populated. So the member is `full` or `unchanged`
exactly when that field is. -/
theorem DocumentDiagnosticReport_emits_Kind_field :
    (∀ (f : FullDocumentDiagnosticReport) (u : Option UnchangedDocumentDiagnosticReport),
      (DocumentDiagnosticReport.MarshalJSON ⟨some f, u⟩).map (Json.member "kind") =
        .ok (some (.str f.Kind))) ∧
    (∀ u : UnchangedDocumentDiagnosticReport,
      (DocumentDiagnosticReport.MarshalJSON ⟨none, some u⟩).map (Json.member "kind") =
        .ok (some (.str u.Kind))) ∧
    DocumentDiagnosticReport.MarshalJSON ⟨none, none⟩ =
      .error (.message "either the Full or Unchanged field needs to be set") :=
  ⟨fun _ _ => rfl, fun _ => rfl, rfl⟩

/-- C15: `ProgressToken.MarshalJSON` emits the JSON string of the name when the name is
non-empty and else the number as a JSON number; for every `int32` value `n` (0
included) and every receiver, the JSON number `n` decodes to the token with that
number and an empty name, which is encoded as the JSON number `n` again; the same
for every integer literal of an `int32` value. -/
theorem ProgressToken_MarshalJSON_number (v r : ProgressToken) (n : Int) (lit : NumLit)
    (hn : IsInt32 n) (hlit : lit.isInteger = true) (hrange : IsInt32 lit.toInt) :
    (v.MarshalJSON = if v.name ≠ "" then .ok (.str v.name) else .ok (marshalInt v.number)) ∧
    ProgressToken.UnmarshalJSON r (marshalInt n) = (⟨"", n⟩, none) ∧
    ProgressToken.MarshalJSON ⟨"", n⟩ = .ok (marshalInt n) ∧
    ProgressToken.UnmarshalJSON r (.num lit) = (⟨"", lit.toInt⟩, none) ∧
    ProgressToken.MarshalJSON ⟨"", lit.toInt⟩ = .ok (marshalInt lit.toInt) := by
  have key : ∀ l : NumLit, l.isInteger = true → IsInt32 l.toInt →
      ProgressToken.UnmarshalJSON r (.num l) = (⟨"", l.toInt⟩, none) := by
    intro l h1 h2
    unfold IsInt32 at h2
    have e : unmarshalInt32 (.num l) 0 = (l.toInt, .ok) := by
      unfold unmarshalInt32 unmarshalSigned
      simp only [h1, true_and]
      rw [if_pos h2]
    simp [ProgressToken.UnmarshalJSON, ProgressToken.zero, e, Status.isOk]
  refine ⟨rfl, ?_, rfl, key lit hlit hrange, rfl⟩
  have := key ⟨decide (n < 0), n.natAbs, [], none⟩ rfl (by rw [NumLit_toInt_marshal]; exact hn)
  rw [NumLit_toInt_marshal] at this
  exact this

/-- Witness of `ProgressToken_MarshalJSON_number` at the number 0 and the literal `-0`. -/
theorem ProgressToken_MarshalJSON_number_witness :
    IsInt32 0 ∧ (⟨true, 0, [], none⟩ : NumLit).isInteger = true ∧
    ProgressToken.UnmarshalJSON ⟨"x", 5⟩ (marshalInt 0) = (⟨"", 0⟩, none) ∧
    ProgressToken.MarshalJSON ⟨"", 0⟩ = .ok (marshalInt 0) :=
  ⟨by decide, rfl,
    (ProgressToken_MarshalJSON_number ⟨"x", 5⟩ ⟨"x", 5⟩ 0 ⟨true, 0, [], none⟩
      (by decide) rfl (by decide)).2.1,
    (ProgressToken_MarshalJSON_number ⟨"x", 5⟩ ⟨"x", 5⟩ 0 ⟨true, 0, [], none⟩
      (by decide) rfl (by decide)).2.2.1⟩

/-- C16, as stated, fails at the literal `null`: decoding it into an `int32` is
accepted by `json.Unmarshal` and changes nothing, so `ProgressToken.UnmarshalJSON`
returns no error and leaves the zero token. -/
theorem ProgressToken_null_is_accepted :
    ProgressToken.UnmarshalJSON ⟨"x", 5⟩ .null = (⟨"", 0⟩, none) :=
  rfl

/-- C16, amended: for every receiver, `ProgressToken.UnmarshalJSON` returns an error
for `true` and `false`, for every array and for every object, and leaves the zero
token. -/
theorem ProgressToken_rejects_bool_array_object (r : ProgressToken) :
    (∀ b : Bool, ProgressToken.UnmarshalJSON r (.bool b) =
      (⟨"", 0⟩, some (.unmarshalType "bool" "string"))) ∧
    (∀ xs : List Json, ProgressToken.UnmarshalJSON r (.arr xs) =
      (⟨"", 0⟩, some (.unmarshalType "array" "string"))) ∧
    (∀ kvs : List (String × Json), ProgressToken.UnmarshalJSON r (.obj kvs) =
      (⟨"", 0⟩, some (.unmarshalType "object" "string"))) :=
  ⟨fun _ => rfl, fun _ => rfl, fun _ => rfl⟩

/-- C17, as stated, fails at the input `["a","b"]` and at an object whose `value` is the
empty string: a JSON string does not decode into the struct `MarkedString`, so the
array of two strings is rejected with the error of the decoder, and so is the object
with the one member `value` = `""`, which has no kind and a string value. -/
theorem MarkupContentOrMarkedString_strings_rejected :
    MarkupContentOrMarkedString.UnmarshalJSON MarkupContentOrMarkedString.zero
        (.arr [.str "a", .str "b"]) =
      (MarkupContentOrMarkedString.zero,
        some (.message "invalid contents: not MarkupContent, MarkedString or []MarkedString")) ∧
    MarkupContentOrMarkedString.UnmarshalJSON MarkupContentOrMarkedString.zero
        (.obj [("value", .str "")]) =
      (MarkupContentOrMarkedString.zero,
        some (.message "invalid contents: not MarkupContent, MarkedString or []MarkedString")) :=
  ⟨rfl, rfl⟩

/-- C17, amended: decoding into an empty `MarkupContentOrMarkedString`. An object whose
members `kind` and `value` are strings, in any order and among any other members,
and whose last `kind` is not empty, gives the markup only, with the last `kind` and
the last `value` (empty when there is none). An object without member `kind` whose
members `language` and `value` are strings, in any order and among any other
members, and whose last `language` or last `value` is not empty, gives the single
marked string only. An array of objects whose members `language` and `value` are
strings gives the marked strings only, one for each element; so does every array
that `json.Unmarshal` decodes without error into a `[]MarkedString`, such as the
array of the encodings of marked strings. -/
theorem MarkupContentOrMarkedString_shape_selection (kvs kvs' : List (String × Json))
    (xs ys : List Json) (ms : Option (List MarkedString)) (ms' : List MarkedString)
    (hs : stringMembers ["kind", "value"] kvs)
    (hk : Json.strOr (lastMember ["kind", "value"] "kind" kvs) "" ≠ "")
    (hnk : noKindMember kvs')
    (hs' : stringMembers ["language", "value"] kvs')
    (hne : Json.strOr (lastMember ["language", "value"] "language" kvs') "" ≠ "" ∨
      Json.strOr (lastMember ["language", "value"] "value" kvs') "" ≠ "")
    (hys : ∀ y ∈ ys, markedStringObject y = true)
    (hxs : unmarshalSlice "[]protocol.MarkedString" MarkedString.zero unmarshalMarkedString
      (.arr xs) none = (ms, .ok)) :
    MarkupContentOrMarkedString.UnmarshalJSON MarkupContentOrMarkedString.zero (.obj kvs) =
      (⟨some ⟨Json.strOr (lastMember ["kind", "value"] "kind" kvs) "",
        Json.strOr (lastMember ["kind", "value"] "value" kvs) ""⟩, none, none⟩, none) ∧
    MarkupContentOrMarkedString.UnmarshalJSON MarkupContentOrMarkedString.zero (.obj kvs') =
      (⟨none, some ⟨Json.strOr (lastMember ["language", "value"] "language" kvs') "",
        Json.strOr (lastMember ["language", "value"] "value" kvs') ""⟩, none⟩, none) ∧
    MarkupContentOrMarkedString.UnmarshalJSON MarkupContentOrMarkedString.zero (.arr ys) =
      (⟨none, none, some (ys.map markedStringOf)⟩, none) ∧
    MarkupContentOrMarkedString.UnmarshalJSON MarkupContentOrMarkedString.zero (.arr xs) =
      (⟨none, none, ms⟩, none) ∧
    MarkupContentOrMarkedString.UnmarshalJSON MarkupContentOrMarkedString.zero
        (.arr (ms'.map marshalMarkedString)) =
      (⟨none, none, some ms'⟩, none) := by
  refine ⟨?_, ?_, ?_, ?_, ?_⟩
  · apply MarkupContentOrMarkedString_UnmarshalJSON_markup _ _ _ hk
    unfold unmarshalMarkupContent
    rw [unmarshalStruct_obj, MarkupContent_unmarshalFields_strings kvs hs]
    rfl
  · obtain ⟨h1, h2⟩ := stringMembers_markup_of_markedString kvs' hnk hs'
    apply MarkupContentOrMarkedString_UnmarshalJSON_single _
      (Json.strOr (lastMember ["kind", "value"] "value" kvs') "") _ _ _ hne
    · unfold unmarshalMarkupContent
      rw [unmarshalStruct_obj, MarkupContent_unmarshalFields_strings kvs' h1, h2]
      rfl
    · unfold unmarshalMarkedString
      rw [unmarshalStruct_obj, MarkedString_unmarshalFields_strings kvs' hs']
      rfl
  · apply MarkupContentOrMarkedString_UnmarshalJSON_array
    have e := unmarshalElems_of_each MarkedString.zero unmarshalMarkedString markedStringOf ys
      (fun y hy => unmarshalMarkedString_of_object y (hys y hy))
    simp [unmarshalSlice, e]
  · exact MarkupContentOrMarkedString_UnmarshalJSON_array xs ms hxs
  · have e := unmarshalSlice_marshalSlice "[]protocol.MarkedString" MarkedString.zero
      unmarshalMarkedString marshalMarkedString (some ms')
      (fun _ _ x _ => unmarshalMarkedString_marshalMarkedString x)
    exact MarkupContentOrMarkedString_UnmarshalJSON_array _ (some ms') e

/-- Witness of `MarkupContentOrMarkedString_shape_selection` at the object with `value` =
`x` before `kind` = `markdown`, at the object with `value` = `x` before `language` =
`go`, and at the array of that object. -/
theorem MarkupContentOrMarkedString_shape_selection_witness :
    (stringMembers ["kind", "value"] [("value", .str "x"), ("kind", .str "markdown")] ∧
      noKindMember [("value", .str "x"), ("language", .str "go")] ∧
      stringMembers ["language", "value"] [("value", .str "x"), ("language", .str "go")]) ∧
    MarkupContentOrMarkedString.UnmarshalJSON MarkupContentOrMarkedString.zero
        (.obj [("value", .str "x"), ("kind", .str "markdown")]) =
      (⟨some ⟨"markdown", "x"⟩, none, none⟩, none) ∧
    MarkupContentOrMarkedString.UnmarshalJSON MarkupContentOrMarkedString.zero
        (.obj [("value", .str "x"), ("language", .str "go")]) =
      (⟨none, some ⟨"go", "x"⟩, none⟩, none) ∧
    MarkupContentOrMarkedString.UnmarshalJSON MarkupContentOrMarkedString.zero
        (.arr [.obj [("value", .str "x"), ("language", .str "go")]]) =
      (⟨none, none, some [⟨"go", "x"⟩]⟩, none) :=
  have w := MarkupContentOrMarkedString_shape_selection
    [("value", .str "x"), ("kind", .str "markdown")]
    [("value", .str "x"), ("language", .str "go")]
    [.obj [("language", .str "go"), ("value", .str "x")]]
    [.obj [("value", .str "x"), ("language", .str "go")]]
    (some [⟨"go", "x"⟩]) []
    (by decide) (by decide) (by decide) (by decide) (by decide) (by decide) rfl
  ⟨⟨by decide, by decide, by decide⟩, w.1, w.2.1, w.2.2.1⟩

/-- C18, as stated, fails for an object whose `isIncomplete` is not a boolean: the object
with the members `items` = `[]` and `isIncomplete` = 5 has an `items` member bound to
an array of completion items, but it does not decode as a `CompletionList`, and
`CompletionResponse.UnmarshalJSON` returns its error and stores no list. -/
theorem CompletionResponse_rejects_ill_typed_flag :
    carriesItemsArray
        (.obj [("items", .arr []), ("isIncomplete", .num ⟨false, 5, [], none⟩)]) = true ∧
    CompletionResponse.UnmarshalJSON CompletionResponse.zero
        (.obj [("items", .arr []), ("isIncomplete", .num ⟨false, 5, [], none⟩)]) =
      (CompletionResponse.zero, some (.message
        "invalid CompletionResponse: not a CompletionList, []CompletionItem or null")) :=
  ⟨rfl, rfl⟩

/-- C18, amended: a JSON object whose one member `items`, at any position, is bound to an
array of completion items (an array that `json.Unmarshal` decodes without error into
a `[]CompletionItem`), whose members `isIncomplete` are booleans, and which has any
other members, decodes with success: `List` holds the items decoded from the array,
which are non-nil, and the flag of the last `isIncomplete` (false when there is
none), and `Items` is nil. The array itself decodes with success to `Items` holding
those items and a nil `List`; the empty array gives the empty non-nil `Items`. When
the array holds the encodings of well-formed completion items, the items stored are
exactly these items, in the object and in the array alone. -/
theorem CompletionResponse_list_and_items (cr : CompletionResponse)
    (pre post : List (String × Json)) (key : String) (xs : List Json)
    (its : Option (List CompletionItem)) (items : List CompletionItem)
    (hkey : matchField ["isIncomplete", "items"] key = some "items")
    (hpre : noMemberNamed ["isIncomplete", "items"] "items" pre)
    (hpost : noMemberNamed ["isIncomplete", "items"] "items" post)
    (hbpre : boolMembersNamed ["isIncomplete", "items"] "isIncomplete" pre)
    (hbpost : boolMembersNamed ["isIncomplete", "items"] "isIncomplete" post)
    (hxs : unmarshalSlice "[]protocol.CompletionItem" CompletionItem.zero unmarshalCompletionItem
      (.arr xs) none = (its, .ok))
    (hitems : ∀ it ∈ items, it.wf) :
    CompletionResponse.UnmarshalJSON cr (.obj (pre ++ (key, .arr xs) :: post)) =
      (⟨none, some ⟨Json.boolOr
        (lastMember ["isIncomplete", "items"] "isIncomplete" (pre ++ post)) false, its⟩,
        true⟩, none) ∧
    its.isSome = true ∧
    CompletionResponse.UnmarshalJSON cr (.arr xs) = (⟨its, none, true⟩, none) ∧
    CompletionResponse.UnmarshalJSON cr
        (.obj (pre ++ (key, .arr (items.map marshalCompletionItem)) :: post)) =
      (⟨none, some ⟨Json.boolOr
        (lastMember ["isIncomplete", "items"] "isIncomplete" (pre ++ post)) false, some items⟩,
        true⟩, none) ∧
    CompletionResponse.UnmarshalJSON cr (.arr (items.map marshalCompletionItem)) =
      (⟨some items, none, true⟩, none) ∧
    CompletionResponse.UnmarshalJSON cr (.arr []) = (⟨some [], none, true⟩, none) := by
  have hsome := unmarshalSlice_arr_isSome _ _ _ _ _ _ _ hxs
  have hits : unmarshalSlice "[]protocol.CompletionItem" CompletionItem.zero
      unmarshalCompletionItem (.arr (items.map marshalCompletionItem)) none =
      (some items, .ok) :=
    unmarshalSlice_marshalSlice "[]protocol.CompletionItem" CompletionItem.zero
      unmarshalCompletionItem marshalCompletionItem (some items)
      (fun l hl x hx => unmarshalCompletionItem_marshalCompletionItem x
        (hitems x (by rw [Option.some.inj hl]; exact hx)))
  have l1 := unmarshalCompletionList_of_items pre post key xs its hkey hpre hpost hbpre hbpost hxs
  have l2 := unmarshalCompletionList_of_items pre post key _ _ hkey hpre hpost hbpre hbpost hits
  have l3 : ∀ ys w, unmarshalCompletionList (.arr ys) w =
      (w, .saved (.unmarshalType "array" "protocol.CompletionList")) := fun _ _ => rfl
  refine ⟨?_, hsome, ?_, ?_, ?_, rfl⟩
  · simp [CompletionResponse.UnmarshalJSON, l1, Status.isOk, hsome]
  · simp [CompletionResponse.UnmarshalJSON, l3, hxs, Status.isOk]
  · simp [CompletionResponse.UnmarshalJSON, l2, Status.isOk]
  · simp [CompletionResponse.UnmarshalJSON, l3, hits, Status.isOk]

/-- Witness of `CompletionResponse_list_and_items` at the object with the members
`isIncomplete` = true, `itemDefaults`, and `items` bound to the array of the encoding
of `exampleCompletionItem`, followed by a member `extra`. -/
theorem CompletionResponse_list_and_items_witness :
    (matchField ["isIncomplete", "items"] "items" = some "items" ∧
      noMemberNamed ["isIncomplete", "items"] "items"
        [("isIncomplete", .bool true), ("itemDefaults", .obj [])] ∧
      boolMembersNamed ["isIncomplete", "items"] "isIncomplete"
        [("isIncomplete", .bool true), ("itemDefaults", .obj [])] ∧
      exampleCompletionItem.wf) ∧
    CompletionResponse.UnmarshalJSON CompletionResponse.zero
        (.obj ([("isIncomplete", .bool true), ("itemDefaults", .obj [])] ++
          ("items", .arr ([exampleCompletionItem].map marshalCompletionItem)) ::
            [("extra", .null)])) =
      (⟨none, some ⟨true, some [exampleCompletionItem]⟩, true⟩, none) ∧
    CompletionResponse.UnmarshalJSON CompletionResponse.zero
        (.arr ([exampleCompletionItem].map marshalCompletionItem)) =
      (⟨some [exampleCompletionItem], none, true⟩, none) :=
  have w := CompletionResponse_list_and_items CompletionResponse.zero
    [("isIncomplete", .bool true), ("itemDefaults", .obj [])] [("extra", .null)] "items"
    [.obj [("label", .str "foo")]] (some [{ CompletionItem.zero with Label := "foo" }])
    [exampleCompletionItem]
    (by decide) (by decide) (by decide) (by decide) (by decide) rfl (by decide)
  ⟨⟨by decide, by decide, by decide, by decide⟩, w.2.2.2.1, w.2.2.2.2.1⟩

/-- C19: every JSON value that is not `null`, not an array and not an object with a
member `items` bound to an array (a string, a number, a boolean, an object without
`items`, an object whose `items` is `null`) is rejected by
`CompletionResponse.UnmarshalJSON`: it returns its error and leaves the receiver as it
was, so no list is stored. -/
theorem CompletionResponse_rejects_other_shapes (cr : CompletionResponse) (data : Json)
    (hnull : data ≠ .null) (harr : data.isArray = false)
    (hitems : carriesItemsArray data = false) :
    CompletionResponse.UnmarshalJSON cr data = (cr, some (.message
      "invalid CompletionResponse: not a CompletionList, []CompletionItem or null")) := by
  cases data with
  | null => exact absurd rfl hnull
  | bool b => rfl
  | num n => rfl
  | str s => rfl
  | arr xs => simp [Json.isArray] at harr
  | obj kvs =>
    have hl : (unmarshalCompletionList (.obj kvs) CompletionList.zero).1.Items = none := by
      unfold unmarshalCompletionList
      rw [unmarshalStruct_obj]
      apply CompletionList_unmarshalFields_Items_none _ _ _ rfl
      intro kv hkv
      simp only [carriesItemsArray, List.any_eq_false] at hitems
      simpa using hitems kv hkv
    simp [CompletionResponse.UnmarshalJSON, hl, unmarshalSlice, Status.isOk]

/-- Witness of `CompletionResponse_rejects_other_shapes` at the object with the one
member `foo` = 1. -/
theorem CompletionResponse_rejects_other_shapes_witness :
    Json.obj [("foo", .num ⟨false, 1, [], none⟩)] ≠ .null ∧
    (Json.obj [("foo", .num ⟨false, 1, [], none⟩)]).isArray = false ∧
    carriesItemsArray (.obj [("foo", .num ⟨false, 1, [], none⟩)]) = false ∧
    CompletionResponse.UnmarshalJSON CompletionResponse.zero
        (.obj [("foo", .num ⟨false, 1, [], none⟩)]) =
      (CompletionResponse.zero, some (.message
        "invalid CompletionResponse: not a CompletionList, []CompletionItem or null")) :=
  ⟨by decide, rfl, by decide,
    CompletionResponse_rejects_other_shapes CompletionResponse.zero
      (.obj [("foo", .num ⟨false, 1, [], none⟩)]) (by decide) rfl (by decide)⟩

/-- C20 (the code departs from the claim): inputs that do not decode as a `Hover` are
reported as a success. For the object whose `contents` is the number 5 and for the
array `[1]`, `HoverResult.UnmarshalJSON` returns no error and leaves a zero `Hover`;
for the object with markup contents and the number 5 as `range` it returns no error
and leaves the contents with a zero range, a partly filled `Hover`. -/
theorem HoverResult_failed_decode_reported_as_success :
    HoverResult.UnmarshalJSON HoverResult.zero
        (.obj [("contents", .num ⟨false, 5, [], none⟩)]) =
      (⟨some Hover.zero, false⟩, none) ∧
    HoverResult.UnmarshalJSON HoverResult.zero (.arr [.num ⟨false, 1, [], none⟩]) =
      (⟨some Hover.zero, false⟩, none) ∧
    (unmarshalHover (.obj [("contents", .obj [("kind", .str "markdown"), ("value", .str "x")]),
        ("range", .num ⟨false, 5, [], none⟩)]) Hover.zero).2 =
      .saved (.unmarshalType "number" "protocol.Range") ∧
    HoverResult.UnmarshalJSON HoverResult.zero
        (.obj [("contents", .obj [("kind", .str "markdown"), ("value", .str "x")]),
          ("range", .num ⟨false, 5, [], none⟩)]) =
      (⟨some ⟨⟨some ⟨"markdown", "x"⟩, none, none⟩, some Range.zero⟩, false⟩, none) :=
  ⟨rfl, rfl, rfl, rfl⟩

/-- C21: after a successful `UnmarshalJSON` into an empty receiver, exactly one state
is populated for `DefinitionResponse` and `DocumentDiagnosticReport`, but not for the
other three unions. `CompletionResponse` on `[]` has two states populated (`Items` and
the null marker), and so has it on every value other than `null` that it accepts.
`HoverResult` on a well-formed hover object has none populated, and on a value other
than `null` it has one populated only when the value does not decode as a `Hover`.
`MarkupContentOrMarkedString` accepts `null` and populates nothing; on the other
values it accepts it populates exactly one variant. -/
theorem union_decoders_populated_states (dr : DefinitionResponse)
    (r : DocumentDiagnosticReport) (h : HoverResult) (data : Json) :
    (CompletionResponse.UnmarshalJSON CompletionResponse.zero (.arr []) =
        (⟨some [], none, true⟩, none) ∧
      CompletionResponse.populated ⟨some [], none, true⟩ = 2) ∧
    (HoverResult.UnmarshalJSON HoverResult.zero
        (.obj [("contents", .obj [("kind", .str "markdown"), ("value", .str "x")])]) =
        (⟨none, false⟩, none) ∧
      HoverResult.populated ⟨none, false⟩ = 0) ∧
    (MarkupContentOrMarkedString.UnmarshalJSON MarkupContentOrMarkedString.zero .null =
        (⟨none, none, none⟩, none) ∧
      MarkupContentOrMarkedString.populated ⟨none, none, none⟩ = 0) ∧
    ((CompletionResponse.UnmarshalJSON CompletionResponse.zero data).2.isSome = true ∨
      data = .null ∨
      (CompletionResponse.UnmarshalJSON CompletionResponse.zero data).1.populated = 2) ∧
    (data = .null ∨
      (HoverResult.UnmarshalJSON h data).1.populated =
        if (unmarshalHover data Hover.zero).2.isOk then 0 else 1) ∧
    ((MarkupContentOrMarkedString.UnmarshalJSON MarkupContentOrMarkedString.zero data).2.isSome
        = true ∨
      data = .null ∨
      (MarkupContentOrMarkedString.UnmarshalJSON
        MarkupContentOrMarkedString.zero data).1.populated = 1) ∧
    ((DefinitionResponse.UnmarshalJSON dr data).2.isSome = true ∨
      (DefinitionResponse.UnmarshalJSON dr data).1.populated = 1) ∧
    ((DocumentDiagnosticReport.UnmarshalJSON r data).2.isSome = true ∨
      (DocumentDiagnosticReport.UnmarshalJSON r data).1.populated = 1) :=
  ⟨⟨rfl, rfl⟩, ⟨rfl, rfl⟩, ⟨rfl, rfl⟩, CompletionResponse_populated data,
    HoverResult_populated h data, MarkupContentOrMarkedString_populated data,
    DefinitionResponse_populated dr data, DocumentDiagnosticReport_populated r data⟩

/-- C22: `MarkupContentOrMarkedString.UnmarshalJSON` does not clear the receiver: the
object with kind `markdown` and value `x`, decoded into a receiver that holds a marked
string, leaves two variants populated, and the result differs from the decode of the
same input into the empty receiver. For the other decoders the result does not depend
on the receiver: `DefinitionResponse`, `DocumentDiagnosticReport`, `HoverResult` and
`ProgressToken` give equal results for any two receivers, and `CompletionResponse`
does whenever it succeeds. -/
theorem MarkupContentOrMarkedString_keeps_stale_variant (c1 c2 : CompletionResponse)
    (d1 d2 : DefinitionResponse) (r1 r2 : DocumentDiagnosticReport) (h1 h2 : HoverResult)
    (p1 p2 : ProgressToken) (data : Json) :
    MarkupContentOrMarkedString.UnmarshalJSON ⟨none, some ⟨"go", "y"⟩, none⟩
        (.obj [("kind", .str "markdown"), ("value", .str "x")]) =
      (⟨some ⟨"markdown", "x"⟩, some ⟨"go", "y"⟩, none⟩, none) ∧
    MarkupContentOrMarkedString.UnmarshalJSON ⟨none, none, none⟩
        (.obj [("kind", .str "markdown"), ("value", .str "x")]) =
      (⟨some ⟨"markdown", "x"⟩, none, none⟩, none) ∧
    MarkupContentOrMarkedString.populated ⟨some ⟨"markdown", "x"⟩, some ⟨"go", "y"⟩, none⟩ = 2 ∧
    DefinitionResponse.UnmarshalJSON d1 data = DefinitionResponse.UnmarshalJSON d2 data ∧
    DocumentDiagnosticReport.UnmarshalJSON r1 data =
      DocumentDiagnosticReport.UnmarshalJSON r2 data ∧
    HoverResult.UnmarshalJSON h1 data = HoverResult.UnmarshalJSON h2 data ∧
    ProgressToken.UnmarshalJSON p1 data = ProgressToken.UnmarshalJSON p2 data ∧
    ((CompletionResponse.UnmarshalJSON c1 data).2.isSome = true ∨
      CompletionResponse.UnmarshalJSON c1 data = CompletionResponse.UnmarshalJSON c2 data) :=
  ⟨rfl, rfl, rfl, rfl, rfl, rfl, rfl, CompletionResponse_receiver_independent c1 c2 data⟩

/-- C23: `HoverResult.UnmarshalJSON` returns success on an input that does not decode
as a `Hover`, and stores the partly decoded hover: for the object whose `range` has a
start position and the number 5 as end, and whose `contents` is `[5]`, it returns no
error and a hover with the start (3, 4), the end (0, 0) and no contents. It returns
no error on any input. The other decoders keep the first half of the claim: when
`DefinitionResponse`, `DocumentDiagnosticReport` or `ProgressToken` return an error
the value is the empty one, and when `CompletionResponse` or
`MarkupContentOrMarkedString` return an error the receiver is as it was. -/
theorem HoverResult_success_with_partly_decoded_hover (c : CompletionResponse)
    (d : DefinitionResponse) (r : DocumentDiagnosticReport) (h : HoverResult)
    (m : MarkupContentOrMarkedString) (p : ProgressToken) (data : Json) :
    HoverResult.UnmarshalJSON HoverResult.zero
        (.obj [("range", .obj [("start", .obj [("line", .num ⟨false, 3, [], none⟩),
            ("character", .num ⟨false, 4, [], none⟩)]), ("end", .num ⟨false, 5, [], none⟩)]),
          ("contents", .arr [.num ⟨false, 5, [], none⟩])]) =
      (⟨some ⟨⟨none, none, none⟩, some ⟨⟨3, 4⟩, ⟨0, 0⟩⟩⟩, false⟩, none) ∧
    (HoverResult.UnmarshalJSON h data).2 = none ∧
    ((CompletionResponse.UnmarshalJSON c data).2 = none ∨
      (CompletionResponse.UnmarshalJSON c data).1 = c) ∧
    ((DefinitionResponse.UnmarshalJSON d data).2 = none ∨
      (DefinitionResponse.UnmarshalJSON d data).1 = DefinitionResponse.zero) ∧
    ((DocumentDiagnosticReport.UnmarshalJSON r data).2 = none ∨
      (DocumentDiagnosticReport.UnmarshalJSON r data).1 = DocumentDiagnosticReport.zero) ∧
    ((MarkupContentOrMarkedString.UnmarshalJSON m data).2 = none ∨
      (MarkupContentOrMarkedString.UnmarshalJSON m data).1 = m) ∧
    ((ProgressToken.UnmarshalJSON p data).2 = none ∨
      (ProgressToken.UnmarshalJSON p data).1 = ProgressToken.zero) :=
  ⟨by decide, HoverResult_UnmarshalJSON_no_error h data,
    CompletionResponse_error_keeps_receiver c data, DefinitionResponse_error_leaves_zero d data,
    DocumentDiagnosticReport_error_leaves_zero r data,
    MarkupContentOrMarkedString_error_keeps_receiver m data,
    ProgressToken_error_leaves_zero p data⟩

/-- C24, as stated, fails for every union: a report with both `Full` and `Unchanged`
populated is encoded without error as the full report, and a definition response with
a location and the null marker set is encoded without error as the location. -/
theorem MarshalJSON_accepts_two_populated :
    DocumentDiagnosticReport.MarshalJSON ⟨some ⟨"full", "", none⟩, some ⟨"unchanged", "r"⟩⟩ =
      .ok (marshalFullDocumentDiagnosticReport ⟨"full", "", none⟩) ∧
    DefinitionResponse.MarshalJSON ⟨some exampleLocation, none, none, true⟩ =
      .ok (marshalLocation exampleLocation) :=
  ⟨rfl, rfl⟩

/-- C24, amended: no `MarshalJSON` of a union looks for a second populated state; each
encodes, without error, the first populated state in its fixed order, whatever the
later fields hold. `CompletionResponse`: `List`, then `Items`. `DefinitionResponse`:
`Location`, `LocationList`, `LocationLinks`. `DocumentDiagnosticReport`: `Full`, then
`Unchanged`. `HoverResult`: the null marker, then `Hover`.
`MarkupContentOrMarkedString`: `Markup`, then `MarkedString`, then `MarkedStrings`. -/
theorem MarshalJSON_takes_first_populated :
    (∀ (its : Option (List CompletionItem)) (l : CompletionList) (n : Bool),
      CompletionResponse.MarshalJSON ⟨its, some l, n⟩ = .ok (marshalCompletionList l)) ∧
    (∀ (loc : Location) (ll : Option (List Location)) (lk : Option (List LocationLink))
        (n : Bool),
      DefinitionResponse.MarshalJSON ⟨some loc, ll, lk, n⟩ = .ok (marshalLocation loc)) ∧
    (∀ (ll : List Location) (lk : Option (List LocationLink)) (n : Bool),
      DefinitionResponse.MarshalJSON ⟨none, some ll, lk, n⟩ =
        .ok (.arr (ll.map marshalLocation))) ∧
    (∀ (f : FullDocumentDiagnosticReport) (u : Option UnchangedDocumentDiagnosticReport),
      DocumentDiagnosticReport.MarshalJSON ⟨some f, u⟩ =
        .ok (marshalFullDocumentDiagnosticReport f)) ∧
    (∀ h : Option Hover, HoverResult.MarshalJSON ⟨h, true⟩ = .ok .null) ∧
    (∀ (c : MarkupContent) (s : Option MarkedString) (l : Option (List MarkedString)),
      MarkupContentOrMarkedString.MarshalJSON ⟨some c, s, l⟩ = .ok (marshalMarkupContent c)) ∧
    (∀ (s : MarkedString) (l : Option (List MarkedString)),
      MarkupContentOrMarkedString.MarshalJSON ⟨none, some s, l⟩ =
        .ok (marshalMarkedString s)) :=
  ⟨fun _ _ _ => rfl, fun _ _ _ _ => rfl, fun _ _ _ => rfl, fun _ _ => rfl, fun _ => rfl,
    fun _ _ _ => rfl, fun _ _ => rfl⟩

/-- C25, as stated, fails for the three unions that have a null marker: the zero
`DefinitionResponse` is encoded without error as `null`. -/
theorem DefinitionResponse_zero_encodes_to_null :
    DefinitionResponse.MarshalJSON DefinitionResponse.zero = .ok .null :=
  rfl

/-- C25, amended: `MarshalJSON` of the zero value returns an error for
`DocumentDiagnosticReport` and for `MarkupContentOrMarkedString`; for
`CompletionResponse`, `DefinitionResponse` and `HoverResult` it returns no error and
emits `null`. -/
theorem MarshalJSON_of_zero_value :
    DocumentDiagnosticReport.MarshalJSON DocumentDiagnosticReport.zero =
      .error (.message "either the Full or Unchanged field needs to be set") ∧
    MarkupContentOrMarkedString.MarshalJSON MarkupContentOrMarkedString.zero =
      .error (.message "one of MarkupContent, MarkedString or MarkedStrings needs to be set") ∧
    CompletionResponse.MarshalJSON CompletionResponse.zero = .ok .null ∧
    DefinitionResponse.MarshalJSON DefinitionResponse.zero = .ok .null ∧
    HoverResult.MarshalJSON HoverResult.zero = .ok .null :=
  ⟨rfl, rfl, rfl, rfl, rfl⟩

/-- C26: `DocumentDiagnosticReport.MarshalJSON` returns an error exactly when `Full` and
`Unchanged` are both nil, and else emits the encoding of `Full`, or of `Unchanged`
when `Full` is nil. `MarkupContentOrMarkedString.MarshalJSON` returns an error
exactly when `Markup` and `MarkedString` are nil and `MarkedStrings` has length 0,
and else emits the encoding of the first of `Markup`, `MarkedString`,
`MarkedStrings` that is populated. -/
theorem MarshalJSON_error_iff_nothing_populated (r : DocumentDiagnosticReport)
    (m : MarkupContentOrMarkedString) :
    (r.MarshalJSON.isOk = false ↔ r.Full = none ∧ r.Unchanged = none) ∧
    (∀ (f : FullDocumentDiagnosticReport) (u : Option UnchangedDocumentDiagnosticReport),
      DocumentDiagnosticReport.MarshalJSON ⟨some f, u⟩ =
        .ok (marshalFullDocumentDiagnosticReport f)) ∧
    (∀ u : UnchangedDocumentDiagnosticReport,
      DocumentDiagnosticReport.MarshalJSON ⟨none, some u⟩ =
        .ok (marshalUnchangedDocumentDiagnosticReport u)) ∧
    (m.MarshalJSON.isOk = false ↔
      m.Markup = none ∧ m.MarkedString = none ∧ (m.MarkedStrings.getD []).length = 0) ∧
    (∀ (c : MarkupContent) (s : Option MarkedString) (l : Option (List MarkedString)),
      MarkupContentOrMarkedString.MarshalJSON ⟨some c, s, l⟩ = .ok (marshalMarkupContent c)) ∧
    (∀ (s : MarkedString) (l : Option (List MarkedString)),
      MarkupContentOrMarkedString.MarshalJSON ⟨none, some s, l⟩ =
        .ok (marshalMarkedString s)) ∧
    (∀ (a : MarkedString) (l : List MarkedString),
      MarkupContentOrMarkedString.MarshalJSON ⟨none, none, some (a :: l)⟩ =
        .ok (.arr ((a :: l).map marshalMarkedString))) := by
  refine ⟨?_, fun _ _ => rfl, fun _ => rfl, ?_, fun _ _ _ => rfl, fun _ _ => rfl,
    fun _ _ => by simp [MarkupContentOrMarkedString.MarshalJSON, marshalSlice]⟩
  · obtain ⟨f, u⟩ := r
    cases f <;> cases u <;> simp [DocumentDiagnosticReport.MarshalJSON, Except.isOk, Except.toBool]
  · obtain ⟨c, s, l⟩ := m
    cases c <;> cases s <;>
      simp [MarkupContentOrMarkedString.MarshalJSON, Except.isOk, Except.toBool]
    split_ifs with h
    · simpa using List.ne_nil_of_length_pos h
    · simpa using h

/-- C27, as stated, fails for `HoverResult`: with the null marker set, the result that
holds `exampleHover` is encoded as `null`, not as the hover. -/
theorem HoverResult_Null_wins_over_Hover :
    HoverResult.MarshalJSON ⟨some exampleHover, true⟩ = .ok .null ∧
    HoverResult.MarshalJSON ⟨some exampleHover, false⟩ =
      .ok (.obj [("contents", .obj [("kind", .str "markdown"), ("value", .str "x")])]) :=
  ⟨rfl, rfl⟩

/-- C27, amended: `CompletionResponse.MarshalJSON` and `DefinitionResponse.MarshalJSON`
never read the null marker, so a populated variant is encoded whatever the flag:
the list, else the items; the location, else the location list, else the links.
`HoverResult.MarshalJSON` reads the null marker first: the hover is encoded when
the flag is false, and `null` is emitted when it is true. -/
theorem MarshalJSON_and_the_Null_flag :
    (∀ (its : Option (List CompletionItem)) (l : Option CompletionList) (n : Bool),
      CompletionResponse.MarshalJSON ⟨its, l, n⟩ = CompletionResponse.MarshalJSON ⟨its, l, false⟩) ∧
    (∀ (its : Option (List CompletionItem)) (l : CompletionList) (n : Bool),
      CompletionResponse.MarshalJSON ⟨its, some l, n⟩ = .ok (marshalCompletionList l)) ∧
    (∀ (its : List CompletionItem) (n : Bool),
      CompletionResponse.MarshalJSON ⟨some its, none, n⟩ =
        .ok (.arr (its.map marshalCompletionItem))) ∧
    (∀ (loc : Option Location) (ll : Option (List Location)) (lk : Option (List LocationLink))
        (n : Bool),
      DefinitionResponse.MarshalJSON ⟨loc, ll, lk, n⟩ =
        DefinitionResponse.MarshalJSON ⟨loc, ll, lk, false⟩) ∧
    (∀ (loc : Location) (ll : Option (List Location)) (lk : Option (List LocationLink))
        (n : Bool),
      DefinitionResponse.MarshalJSON ⟨some loc, ll, lk, n⟩ = .ok (marshalLocation loc)) ∧
    (∀ (ll : List Location) (lk : Option (List LocationLink)) (n : Bool),
      DefinitionResponse.MarshalJSON ⟨none, some ll, lk, n⟩ =
        .ok (.arr (ll.map marshalLocation))) ∧
    (∀ (lk : List LocationLink) (n : Bool),
      DefinitionResponse.MarshalJSON ⟨none, none, some lk, n⟩ =
        .ok (.arr (lk.map marshalLocationLink))) ∧
    (∀ h : Hover, HoverResult.MarshalJSON ⟨some h, false⟩ = marshalHover h) ∧
    (∀ h : Hover, HoverResult.MarshalJSON ⟨some h, true⟩ = .ok .null) :=
  ⟨fun _ _ _ => rfl, fun _ _ _ => rfl, fun _ _ => rfl, fun _ _ _ _ => rfl,
    fun _ _ _ _ => rfl, fun _ _ _ => rfl, fun _ _ => rfl, fun _ => rfl, fun _ => rfl⟩

/-- C28: for every receiver and every JSON number literal, `ProgressToken.UnmarshalJSON`
succeeds exactly when the literal is an integer literal (no fraction, no exponent)
whose value is in the range of `int32`, and then stores that value with an empty
name; in every other case it returns an error and leaves the zero token, so the
number is not wrapped, cut or kept as a string. `2^31 - 1` and `-2^31` are
accepted; `2^31`, `-2^31 - 1` and `1.5` are rejected. -/
theorem ProgressToken_number_range (r : ProgressToken) (lit : NumLit) :
    (ProgressToken.UnmarshalJSON r (.num lit) =
      if lit.isInteger = true ∧ IsInt32 lit.toInt then (⟨"", lit.toInt⟩, none)
      else (⟨"", 0⟩, some (.unmarshalType "number" "string"))) ∧
    ProgressToken.UnmarshalJSON r (.num ⟨false, 2147483647, [], none⟩) =
      (⟨"", 2147483647⟩, none) ∧
    ProgressToken.UnmarshalJSON r (.num ⟨true, 2147483648, [], none⟩) =
      (⟨"", -2147483648⟩, none) ∧
    ProgressToken.UnmarshalJSON r (.num ⟨false, 2147483648, [], none⟩) =
      (⟨"", 0⟩, some (.unmarshalType "number" "string")) ∧
    ProgressToken.UnmarshalJSON r (.num ⟨true, 2147483649, [], none⟩) =
      (⟨"", 0⟩, some (.unmarshalType "number" "string")) ∧
    ProgressToken.UnmarshalJSON r (.num ⟨false, 1, [5], none⟩) =
      (⟨"", 0⟩, some (.unmarshalType "number" "string")) := by
  refine ⟨?_, rfl, rfl, rfl, rfl, rfl⟩
  by_cases h : lit.isInteger = true ∧ IsInt32 lit.toInt
  · rw [if_pos h]
    have h2 : lit.isInteger = true ∧ -(2 ^ 31) ≤ lit.toInt ∧ lit.toInt ≤ 2 ^ 31 - 1 := h
    have e : unmarshalInt32 (.num lit) 0 = (lit.toInt, .ok) := by
      unfold unmarshalInt32 unmarshalSigned
      simp only
      rw [if_pos h2]
    simp [ProgressToken.UnmarshalJSON, ProgressToken.zero, e, Status.isOk]
  · rw [if_neg h]
    have h2 : ¬(lit.isInteger = true ∧ -(2 ^ 31) ≤ lit.toInt ∧ lit.toInt ≤ 2 ^ 31 - 1) := h
    have e : unmarshalInt32 (.num lit) 0 =
        (0, .saved (.unmarshalType "number" "int32")) := by
      unfold unmarshalInt32 unmarshalSigned
      simp only
      rw [if_neg h2]
    simp [ProgressToken.UnmarshalJSON, ProgressToken.zero, e, Status.isOk, unmarshalString,
      Json.kindName, Status.err]

/-- C29: `HoverResult.UnmarshalJSON` returns a nil error for every byte sequence `bytes`,
a JSON text or not. For a byte sequence `data` other than the literal `null`, the
`Hover` field is non-nil afterwards exactly when decoding `data` as a `Hover` failed,
and the null marker is false. So every value `j` other than `null` that decodes as a
`Hover` without error gives a `HoverResult` with `Hover` nil and `Null` false, which
`MarshalJSON` encodes as `null`. -/
theorem HoverResult_UnmarshalJSON_never_fails (h : HoverResult) (bytes data : Input)
    (j : Json) (hdata : data.isNullLiteral = false) (hj : j ≠ .null)
    (hok : (unmarshalHover j Hover.zero).2 = .ok) :
    (HoverResult.UnmarshalJSONBytes h bytes).2 = none ∧
    ((HoverResult.UnmarshalJSONBytes h data).1.Hover.isSome = true ↔
      (unmarshalInput unmarshalHover data Hover.zero).2.isOk = false) ∧
    (HoverResult.UnmarshalJSONBytes h data).1.Null = false ∧
    HoverResult.UnmarshalJSONBytes h (.text false j) = HoverResult.UnmarshalJSON h j ∧
    HoverResult.UnmarshalJSON h j = (⟨none, false⟩, none) ∧
    HoverResult.MarshalJSON ⟨none, false⟩ = .ok .null := by
  refine ⟨HoverResult_UnmarshalJSONBytes_no_error h bytes, ?_, ?_,
    HoverResult_UnmarshalJSONBytes_text h j, ?_, rfl⟩
  · unfold HoverResult.UnmarshalJSONBytes
    simp only [hdata]
    by_cases hk : (unmarshalInput unmarshalHover data Hover.zero).2.isOk = true
    · simp [hk, HoverResult.zero]
    · simp [hk, HoverResult.zero]
  · unfold HoverResult.UnmarshalJSONBytes
    simp only [hdata]
    by_cases hk : (unmarshalInput unmarshalHover data Hover.zero).2.isOk = true
    · simp [hk, HoverResult.zero]
    · simp [hk, HoverResult.zero]
  · cases j with
    | null => exact absurd rfl hj
    | _ => simp [HoverResult.UnmarshalJSON, hok, Status.isOk, Status.err, HoverResult.zero]

/-- Witness of `HoverResult_UnmarshalJSON_never_fails` at bytes that are not a JSON
text, at the text of a hover object with blanks around it, and at the hover object
whose contents are a markup of kind `markdown`. -/
theorem HoverResult_UnmarshalJSON_never_fails_witness :
    (HoverResult.UnmarshalJSONBytes HoverResult.zero .invalid).2 = none ∧
    (HoverResult.UnmarshalJSONBytes HoverResult.zero (.text true (.obj [("contents",
      .obj [("kind", .str "markdown"), ("value", .str "x")])]))).1.Null = false ∧
    HoverResult.UnmarshalJSON HoverResult.zero
        (.obj [("contents", .obj [("kind", .str "markdown"), ("value", .str "x")])]) =
      (⟨none, false⟩, none) :=
  have w := HoverResult_UnmarshalJSON_never_fails HoverResult.zero .invalid
    (.text true (.obj [("contents", .obj [("kind", .str "markdown"), ("value", .str "x")])]))
    (.obj [("contents", .obj [("kind", .str "markdown"), ("value", .str "x")])])
    rfl (by decide) rfl
  ⟨w.1, w.2.2.1, w.2.2.2.2.1⟩

/-- C30: when `DocumentDiagnosticReport.UnmarshalJSON` succeeds, either `Full` is
non-nil with `Kind` equal to `full` and `Unchanged` is nil, or `Unchanged` is non-nil
with `Kind` equal to `unchanged` and `Full` is nil; the kind read by the first pass
is the `Kind` decoded by the second pass; and the encoding of the decoded report has
the member `kind` equal to `full` or to `unchanged`. When the input repeats the key
`kind` both passes keep the last one: `unchanged` then `full` gives a full report,
`full` then `unchanged` an unchanged report. -/
theorem DocumentDiagnosticReport_decoded_kind_valid (r res : DocumentDiagnosticReport)
    (data : Json) (h : DocumentDiagnosticReport.UnmarshalJSON r data = (res, none)) :
    ((res.Full.map (fun f => f.Kind) = some "full" ∧ res.Unchanged = none ∧
        unmarshalStruct "struct { Kind string }" diagnosticKindSetField data "" =
          ("full", .ok) ∧
        res.MarshalJSON.map (Json.member "kind") = .ok (some (.str "full"))) ∨
      (res.Unchanged.map (fun u => u.Kind) = some "unchanged" ∧ res.Full = none ∧
        unmarshalStruct "struct { Kind string }" diagnosticKindSetField data "" =
          ("unchanged", .ok) ∧
        res.MarshalJSON.map (Json.member "kind") = .ok (some (.str "unchanged")))) ∧
    DocumentDiagnosticReport.UnmarshalJSON r
        (.obj [("kind", .str "unchanged"), ("kind", .str "full"), ("items", .arr [])]) =
      (⟨some ⟨"full", "", some []⟩, none⟩, none) ∧
    DocumentDiagnosticReport.UnmarshalJSON r
        (.obj [("kind", .str "full"), ("kind", .str "unchanged")]) =
      (⟨none, some ⟨"unchanged", ""⟩⟩, none) := by
  refine ⟨?_, rfl, rfl⟩
  unfold DocumentDiagnosticReport.UnmarshalJSON at h
  simp only at h
  split_ifs at h with h1 h2 h3 h4 h5
  · exfalso
    revert h1 h
    generalize (unmarshalStruct "struct { Kind string }" diagnosticKindSetField data "").2 = st
    cases st <;> simp [Status.isOk, Status.err]
  · exfalso
    revert h3 h
    generalize (unmarshalFullDocumentDiagnosticReport data
      FullDocumentDiagnosticReport.zero).2 = st
    cases st <;> simp [Status.isOk, Status.err]
  · left
    have hs := Status_eq_ok_of_isOk _ (by simpa using h3)
    have e := diagnosticKind_of_full data _ (Prod.ext rfl hs)
    have hk : (unmarshalFullDocumentDiagnosticReport data
        FullDocumentDiagnosticReport.zero).1.Kind = "full" := by
      rw [← h2, e]
    rw [hk] at e
    have hres := (congrArg Prod.fst h).symm
    simp only at hres
    subst hres
    refine ⟨?_, rfl, e, ?_⟩
    · simp [DocumentDiagnosticReport.zero, hk]
    · simp [DocumentDiagnosticReport.zero, DocumentDiagnosticReport.MarshalJSON, marshalPtr,
        marshalFullDocumentDiagnosticReport, Json.member, Except.map, hk]
  · exfalso
    revert h5 h
    generalize (unmarshalUnchangedDocumentDiagnosticReport data
      UnchangedDocumentDiagnosticReport.zero).2 = st
    cases st <;> simp [Status.isOk, Status.err]
  · right
    have hs := Status_eq_ok_of_isOk _ (by simpa using h5)
    have e := diagnosticKind_of_unchanged data _ (Prod.ext rfl hs)
    have hk : (unmarshalUnchangedDocumentDiagnosticReport data
        UnchangedDocumentDiagnosticReport.zero).1.Kind = "unchanged" := by
      rw [← h4, e]
    rw [hk] at e
    have hres := (congrArg Prod.fst h).symm
    simp only at hres
    subst hres
    refine ⟨?_, rfl, e, ?_⟩
    · simp [DocumentDiagnosticReport.zero, hk]
    · simp [DocumentDiagnosticReport.zero, DocumentDiagnosticReport.MarshalJSON, marshalPtr,
        marshalUnchangedDocumentDiagnosticReport, Json.member, Except.map, hk]
  · simp at h

/-- Witness of `DocumentDiagnosticReport_decoded_kind_valid` at the object that repeats
the key `kind`, first `unchanged` and then `full`, and has empty items. -/
theorem DocumentDiagnosticReport_decoded_kind_valid_witness :
    DocumentDiagnosticReport.UnmarshalJSON DocumentDiagnosticReport.zero
        (.obj [("kind", .str "unchanged"), ("kind", .str "full"), ("items", .arr [])]) =
      (⟨some ⟨"full", "", some []⟩, none⟩, none) ∧
    unmarshalStruct "struct { Kind string }" diagnosticKindSetField
        (.obj [("kind", .str "unchanged"), ("kind", .str "full"), ("items", .arr [])]) "" =
      ("full", .ok) ∧
    (DocumentDiagnosticReport.MarshalJSON ⟨some ⟨"full", "", some []⟩, none⟩).map
      (Json.member "kind") = .ok (some (.str "full")) :=
  have w := (DocumentDiagnosticReport_decoded_kind_valid DocumentDiagnosticReport.zero
    ⟨some ⟨"full", "", some []⟩, none⟩
    (.obj [("kind", .str "unchanged"), ("kind", .str "full"), ("items", .arr [])])
    rfl).1.resolve_right (fun hb => by simpa using hb.1)
  ⟨rfl, w.2.2.1, w.2.2.2⟩

end Protocol
